import Mathlib

/-!
Verification of the XStateNet rewrite scripts.

The repository consists of seven Python scripts that rewrite C# test sources
with `re.sub` and `str.replace`.  We embed the relevant string rewriting
machinery shallowly: a small backtracking regex engine (the scripts only use
literals, character classes, greedy and lazy single-character quantifiers,
capture groups over such items, and backreferences), Python's
`re.sub` scanning discipline (leftmost match, continue after the match), and
Python's `str.replace`.  Every pattern of the scripts is transcribed rule by
rule, and the per-file pipelines are the fold of their ordered rule lists.
All definitions are executable, so concrete runs are settled by `decide`.
-/

namespace Rewrite

/-- A character class, as a decidable predicate. -/
abbrev CharSet := Char → Bool

/-- Capture-free single-character regex items: a literal character, a
character class, and a starred class (`Bool` is true for a lazy star). -/
inductive CItem : Type where
  | lit : Char → CItem
  | cls : CharSet → CItem
  | star : CharSet → Bool → CItem

/-- Top-level regex items: a plain item, a numbered capture group over
capture-free items, and a backreference. -/
inductive RItem : Type where
  | ch : CItem → RItem
  | grp : Nat → List CItem → RItem
  | bref : Nat → RItem

/-- Captured groups, indexed by group number. -/
abbrev Caps := Nat → List Char

def capsEmpty : Caps := fun _ => []

def setCap (caps : Caps) (i : Nat) (v : List Char) : Caps :=
  fun j => if j = i then v else caps j

/-- Result of a match attempt: remaining input and the captures. -/
abbrev Res := List Char × Caps

/-- Try `f k`, `f (k+1)`, ... for the given number of attempts, returning the
first success (the attempt order of a lazy quantifier). -/
def tryAsc (f : Nat → Option Res) (k : Nat) : Nat → Option Res
  | 0 => none
  | left + 1 =>
    match f k with
    | some r => some r
    | none => tryAsc f (k + 1) left

/-- Try `f k`, `f (k-1)`, ... for the given number of attempts, returning the
first success (the attempt order of a greedy quantifier). -/
def tryDesc (f : Nat → Option Res) (k : Nat) : Nat → Option Res
  | 0 => none
  | left + 1 =>
    match f k with
    | some r => some r
    | none => tryDesc f (k - 1) left

/-- Backtracking matcher for capture-free items, in continuation style: the
continuation receives the input left after the items have matched.  A starred
class tries every possible consumption length (shortest first when lazy,
longest first when greedy), exactly as a backtracking engine does. -/
def matchC : List CItem → List Char → (List Char → Option Res) → Option Res
  | [], s, k => k s
  | .lit c :: rest, s, k =>
    match s with
    | [] => none
    | d :: t => if d = c then matchC rest t k else none
  | .cls p :: rest, s, k =>
    match s with
    | [] => none
    | d :: t => if p d then matchC rest t k else none
  | .star p lz :: rest, s, k =>
    let n := (s.takeWhile p).length
    if lz then tryAsc (fun j => matchC rest (s.drop j) k) 0 (n + 1)
    else tryDesc (fun j => matchC rest (s.drop j) k) n (n + 1)

/-- Backtracking matcher for top-level items.  A group records the span its
body consumed; a backreference matches the recorded span literally. -/
def matchR : List RItem → List Char → Caps → (List Char → Caps → Option Res) → Option Res
  | [], s, caps, k => k s caps
  | .ch it :: rest, s, caps, k =>
    matchC [it] s (fun s2 => matchR rest s2 caps k)
  | .grp i inner :: rest, s, caps, k =>
    matchC inner s
      (fun s2 => matchR rest s2 (setCap caps i (s.take (s.length - s2.length))) k)
  | .bref i :: rest, s, caps, k =>
    let w := caps i
    if w.isPrefixOf s then matchR rest (s.drop w.length) caps k else none

/-- Attempt to match `pat` at the start of `s`; on success return the length
of the match and the captures. -/
def tryAt (pat : List RItem) (s : List Char) : Option (Nat × Caps) :=
  match matchR pat s capsEmpty (fun rem caps => some (rem, caps)) with
  | some (rem, caps) => some (s.length - rem.length, caps)
  | none => none

/-- A replacement template item: literal text or a group reference. -/
inductive TItem : Type where
  | str : String → TItem
  | ref : Nat → TItem

/-- Instantiate a replacement template with the captures of a match. -/
def inst (tmpl : List TItem) (caps : Caps) : List Char :=
  match tmpl with
  | [] => []
  | .str w :: rest => w.toList ++ inst rest caps
  | .ref i :: rest => caps i ++ inst rest caps

/-- The scanning loop of `re.sub`: at each position try the pattern; on a
match emit the instantiated template and continue after the match, otherwise
copy one character and move on.  The fuel argument is the length of the
remaining input, which bounds the recursion. -/
def subAux (pat : List RItem) (tmpl : List TItem) : Nat → List Char → List Char
  | 0, s => s
  | fuel + 1, s =>
    match s with
    | [] =>
      match tryAt pat [] with
      | some (_, caps) => inst tmpl caps
      | none => []
    | d :: t =>
      match tryAt pat s with
      | none => d :: subAux pat tmpl fuel t
      | some (0, caps) => inst tmpl caps ++ d :: subAux pat tmpl fuel t
      | some (n + 1, caps) => inst tmpl caps ++ subAux pat tmpl fuel (s.drop (n + 1))

/-- Python's `re.sub(pat, tmpl, s)` (all occurrences). -/
def sub (pat : List RItem) (tmpl : List TItem) (s : List Char) : List Char :=
  subAux pat tmpl s.length s

/-- One `re.sub` call of a script: a pattern and its replacement template. -/
structure Rule : Type where
  pat : List RItem
  tmpl : List TItem

def applyRule (r : Rule) (s : List Char) : List Char := sub r.pat r.tmpl s

/-- Apply an ordered list of rules, each rule rewriting the previous rule's
output (the body of each `fix_*_patterns` function). -/
def applyRules (rs : List Rule) (s : List Char) : List Char :=
  rs.foldl (fun acc r => applyRule r acc) s

/-- The scanning loop of Python's `str.replace`, with the remaining length as
fuel. -/
def replaceAllAux (pat rep : List Char) : Nat → List Char → List Char
  | 0, s => s
  | fuel + 1, s =>
    match s with
    | [] => []
    | d :: t =>
      if pat.isPrefixOf s && !pat.isEmpty then
        rep ++ replaceAllAux pat rep fuel (s.drop pat.length)
      else d :: replaceAllAux pat rep fuel t

/-- Python's `s.replace(pat, rep)` (for a non-empty `pat`). -/
def replaceAll (pat rep s : List Char) : List Char := replaceAllAux pat rep s.length s

/-- Does `w` occur as a contiguous substring of `s`?  (Python's `w in s`.) -/
def occursB (w s : List Char) : Bool :=
  match s with
  | [] => w.isEmpty
  | _ :: t => w.isPrefixOf s || occursB w t

/-- Python's `content.split('\n')`, as a nonempty list of lines represented
by a head line plus the remaining lines. -/
def splitNl : List Char → List Char × List (List Char)
  | [] => ([], [])
  | c :: t =>
    let r := splitNl t
    if c = '\n' then ([], r.1 :: r.2) else (c :: r.1, r.2)

/-- Python's `'\n'.join` of lines represented as a head line plus the rest. -/
def joinNl (p : List Char × List (List Char)) : List Char :=
  p.1 ++ (p.2.map (fun l => '\n' :: l)).foldr (fun a b => a ++ b) []

/-- Characters `a`-`z`. -/
def lowerCh (c : Char) : Bool := 'a' ≤ c && c ≤ 'z'

/-- Characters `A`-`Z`. -/
def upperCh (c : Char) : Bool := 'A' ≤ c && c ≤ 'Z'

/-- Characters `0`-`9` (the class `\d` on ASCII input). -/
def digitCh (c : Char) : Bool := '0' ≤ c && c ≤ '9'

/-- The class `[a-zA-Z0-9_]`, which is also `\w` on ASCII input. -/
def wordCh (c : Char) : Bool := lowerCh c || upperCh c || digitCh c || c = '_'

/-- The class `[a-zA-Z_]`. -/
def identStart (c : Char) : Bool := lowerCh c || upperCh c || c = '_'

/-- The class `\s` on ASCII input. -/
def spaceCh (c : Char) : Bool :=
  c = ' ' || c = '\t' || c = '\n' || c = '\r' || c = '\x0b' || c = '\x0c'

/-- The class `[a-zA-Z0-9_.\[\]()]` (receivers in fix_all_should). -/
def rcvCh (c : Char) : Bool :=
  wordCh c || c = '.' || c = '[' || c = ']' || c = '(' || c = ')'

/-- The class `[a-zA-Z0-9_.\[\]()<>=!\s]` (receivers of the generic
BeTrue and BeFalse rules in fix_complex_should). -/
def rcvSpCh (c : Char) : Bool :=
  rcvCh c || c = '<' || c = '>' || c = '=' || c = '!' || spaceCh c

/-- The class `[a-zA-Z0-9_.\[\]()!]` (receivers in fix_complex_should and
fix_final_should). -/
def rcvBangCh (c : Char) : Bool := rcvCh c || c = '!'

/-- The class `[^)]`. -/
def notRp (c : Char) : Bool := c != ')'

/-- The class `[^,]`. -/
def notCm (c : Char) : Bool := c != ','

/-- The class `[^"]`. -/
def notQt (c : Char) : Bool := c != '"'

/-- The class `[^:]`. -/
def notCl (c : Char) : Bool := c != ':'

/-- A run of literal characters, as capture-free items. -/
def litsC (w : String) : List CItem := w.toList.map CItem.lit

/-- A run of literal characters, as top-level items. -/
def litsR (w : String) : List RItem := w.toList.map (fun c => RItem.ch (CItem.lit c))

/-- The group shape `(first body*?)`: one class character followed by a lazy
starred class, captured as group `i`. -/
def grpLazy (i : Nat) (first body : CharSet) : RItem :=
  RItem.grp i [CItem.cls first, CItem.star body true]

/-- The group shape `(p+)` with a greedy plus, captured as group `i`. -/
def grpPlus (i : Nat) (p : CharSet) : RItem :=
  RItem.grp i [CItem.cls p, CItem.star p false]

end Rewrite

namespace Rewrite

/-- A greedy starred class, uncaptured. -/
def starG (p : CharSet) : RItem := RItem.ch (CItem.star p false)

end Rewrite

namespace FixAll

open Rewrite

/-! The twenty-one `re.sub` rules of `fix_all_should_patterns` in
`fix_all_should.py`, in source order. -/

def ruleNotBeNull : Rule :=
  ⟨[grpLazy 1 identStart rcvCh] ++ litsR (".Should().NotBeNull()"),
   [.str ("Assert.NotNull("), .ref 1, .str (")")]⟩

def ruleBeNull : Rule :=
  ⟨[grpLazy 1 identStart rcvCh] ++ litsR (".Should().BeNull()"),
   [.str ("Assert.Null("), .ref 1, .str (")")]⟩

def ruleBe : Rule :=
  ⟨[grpLazy 1 identStart rcvCh] ++ litsR (".Should().Be(") ++ [grpPlus 2 notRp] ++ litsR (")"),
   [.str ("Assert.Equal("), .ref 2, .str (", "), .ref 1, .str (")")]⟩

def ruleBeTrue : Rule :=
  ⟨[grpLazy 1 identStart rcvCh] ++ litsR (".Should().BeTrue()"),
   [.str ("Assert.True("), .ref 1, .str (")")]⟩

def ruleBeFalse : Rule :=
  ⟨[grpLazy 1 identStart rcvCh] ++ litsR (".Should().BeFalse()"),
   [.str ("Assert.False("), .ref 1, .str (")")]⟩

def ruleContain : Rule :=
  ⟨[grpLazy 1 identStart rcvCh] ++ litsR (".Should().Contain(") ++ [grpPlus 2 notRp] ++ litsR (")"),
   [.str ("Assert.Contains("), .ref 2, .str (", "), .ref 1, .str (")")]⟩

def ruleNotContain : Rule :=
  ⟨[grpLazy 1 identStart rcvCh] ++ litsR (".Should().NotContain(") ++ [grpPlus 2 notRp] ++ litsR (")"),
   [.str ("Assert.DoesNotContain("), .ref 2, .str (", "), .ref 1, .str (")")]⟩

def ruleHaveCount : Rule :=
  ⟨[grpLazy 1 identStart rcvCh] ++ litsR (".Should().HaveCount(") ++ [grpPlus 2 notRp] ++ litsR (")"),
   [.str ("Assert.Equal("), .ref 2, .str (", "), .ref 1, .str (".Count)")]⟩

def ruleBeEmpty : Rule :=
  ⟨[grpLazy 1 identStart rcvCh] ++ litsR (".Should().BeEmpty()"),
   [.str ("Assert.Empty("), .ref 1, .str (")")]⟩

def ruleNotBeEmpty : Rule :=
  ⟨[grpLazy 1 identStart rcvCh] ++ litsR (".Should().NotBeEmpty()"),
   [.str ("Assert.NotEmpty("), .ref 1, .str (")")]⟩

def ruleBeGreaterThan : Rule :=
  ⟨[grpLazy 1 identStart rcvCh] ++ litsR (".Should().BeGreaterThan(") ++ [grpPlus 2 notRp] ++ litsR (")"),
   [.str ("Assert.True("), .ref 1, .str (" > "), .ref 2, .str (")")]⟩

def ruleBeLessThan : Rule :=
  ⟨[grpLazy 1 identStart rcvCh] ++ litsR (".Should().BeLessThan(") ++ [grpPlus 2 notRp] ++ litsR (")"),
   [.str ("Assert.True("), .ref 1, .str (" < "), .ref 2, .str (")")]⟩

def ruleBeGreaterOrEqualTo : Rule :=
  ⟨[grpLazy 1 identStart rcvCh] ++ litsR (".Should().BeGreaterOrEqualTo(") ++ [grpPlus 2 notRp] ++ litsR (")"),
   [.str ("Assert.True("), .ref 1, .str (" >= "), .ref 2, .str (")")]⟩

def ruleStartWith : Rule :=
  ⟨[grpLazy 1 identStart rcvCh] ++ litsR (".Should().StartWith(") ++ [grpPlus 2 notRp] ++ litsR (")"),
   [.str ("Assert.StartsWith("), .ref 2, .str (", "), .ref 1, .str (")")]⟩

def ruleEndWith : Rule :=
  ⟨[grpLazy 1 identStart rcvCh] ++ litsR (".Should().EndWith(") ++ [grpPlus 2 notRp] ++ litsR (")"),
   [.str ("Assert.EndsWith("), .ref 2, .str (", "), .ref 1, .str (")")]⟩

def ruleBeEquivalentTo : Rule :=
  ⟨[grpLazy 1 identStart rcvCh] ++ litsR (".Should().BeEquivalentTo(") ++ [grpPlus 2 notRp] ++ litsR (")"),
   [.str ("Assert.Equal("), .ref 2, .str (", "), .ref 1, .str (")")]⟩

def ruleNotBe : Rule :=
  ⟨[grpLazy 1 identStart rcvCh] ++ litsR (".Should().NotBe(") ++ [grpPlus 2 notRp] ++ litsR (")"),
   [.str ("Assert.NotEqual("), .ref 2, .str (", "), .ref 1, .str (")")]⟩

def ruleRepairContains : Rule :=
  ⟨[grpLazy 1 identStart wordCh] ++ litsR (".Assert.Contains(") ++ [grpPlus 2 notCm] ++
     litsR (", ") ++ [grpLazy 3 identStart wordCh] ++ litsR (")"),
   [.str ("Assert.Contains("), .ref 2, .str (", "), .ref 1, .str ("."), .ref 3, .str (")")]⟩

def ruleRepairEqual : Rule :=
  ⟨[grpLazy 1 identStart wordCh] ++ litsR (".Assert.Equal(") ++ [grpPlus 2 notCm] ++
     litsR (", ") ++ [grpLazy 3 identStart wordCh] ++ litsR (")"),
   [.str ("Assert.Equal("), .ref 2, .str (", "), .ref 1, .str ("."), .ref 3, .str (")")]⟩

def rulePingHits : Rule :=
  ⟨litsR ("pingHits.Assert.Contains(") ++ [grpPlus 1 notRp] ++ litsR (")"),
   [.str ("Assert.Contains("), .ref 1, .str (", pingHits)")]⟩

def rulePongHits : Rule :=
  ⟨litsR ("pongHits.Assert.Contains(") ++ [grpPlus 1 notRp] ++ litsR (")"),
   [.str ("Assert.Contains("), .ref 1, .str (", pongHits)")]⟩

def rules : List Rule :=
  [ruleNotBeNull, ruleBeNull, ruleBe, ruleBeTrue, ruleBeFalse, ruleContain,
   ruleNotContain, ruleHaveCount, ruleBeEmpty, ruleNotBeEmpty, ruleBeGreaterThan,
   ruleBeLessThan, ruleBeGreaterOrEqualTo, ruleStartWith, ruleEndWith,
   ruleBeEquivalentTo, ruleNotBe, ruleRepairContains, ruleRepairEqual,
   rulePingHits, rulePongHits]

/-- The function `fix_all_should_patterns` of `fix_all_should.py`. -/
def fix_all_should_patterns (s : List Char) : List Char := applyRules rules s

/-- The per-file loop body of `fix_all_should.py`: skip the file when it
contains neither `.Should()` nor `.Assert.`; otherwise rewrite it and write
it back exactly when the result differs.  Returns the final content and
whether the file was written. -/
def process (c : List Char) : List Char × Bool :=
  if occursB ((".Should()").toList) c || occursB ((".Assert.").toList) c then
    let n := fix_all_should_patterns c
    if n = c then (c, false) else (n, true)
  else (c, false)

end FixAll

namespace FixComplex

open Rewrite

/-! The thirteen `re.sub` rules of `fix_complex_should_patterns` in
`fix_complex_should.py`, in source order. -/

def ruleContainsTrue : Rule :=
  ⟨[grpLazy 1 identStart rcvCh] ++ litsR (".Contains(") ++ [grpPlus 2 notRp] ++
     litsR (").Should().BeTrue()"),
   [.str ("Assert.Contains("), .ref 2, .str (", "), .ref 1, .str (")")]⟩

def ruleContainsFalse : Rule :=
  ⟨[grpLazy 1 identStart rcvCh] ++ litsR (".Contains(") ++ [grpPlus 2 notRp] ++
     litsR (").Should().BeFalse()"),
   [.str ("Assert.DoesNotContain("), .ref 2, .str (", "), .ref 1, .str (")")]⟩

def ruleBeTrue : Rule :=
  ⟨[grpLazy 1 identStart rcvSpCh] ++ litsR (".Should().BeTrue()"),
   [.str ("Assert.True("), .ref 1, .str (")")]⟩

def ruleBeFalse : Rule :=
  ⟨[grpLazy 1 identStart rcvSpCh] ++ litsR (".Should().BeFalse()"),
   [.str ("Assert.False("), .ref 1, .str (")")]⟩

def ruleNotBeNull : Rule :=
  ⟨[grpLazy 1 identStart rcvBangCh] ++ litsR (".Should().NotBeNull()"),
   [.str ("Assert.NotNull("), .ref 1, .str (")")]⟩

def ruleBeNull : Rule :=
  ⟨[grpLazy 1 identStart rcvBangCh] ++ litsR (".Should().BeNull()"),
   [.str ("Assert.Null("), .ref 1, .str (")")]⟩

def ruleBe : Rule :=
  ⟨[grpLazy 1 identStart rcvBangCh] ++ litsR (".Should().Be(") ++ [grpPlus 2 notRp] ++ litsR (")"),
   [.str ("Assert.Equal("), .ref 2, .str (", "), .ref 1, .str (")")]⟩

def ruleNotBe : Rule :=
  ⟨[grpLazy 1 identStart rcvBangCh] ++ litsR (".Should().NotBe(") ++ [grpPlus 2 notRp] ++ litsR (")"),
   [.str ("Assert.NotEqual("), .ref 2, .str (", "), .ref 1, .str (")")]⟩

def ruleContain : Rule :=
  ⟨[grpLazy 1 identStart rcvBangCh] ++ litsR (".Should().Contain(") ++ [grpPlus 2 notRp] ++ litsR (")"),
   [.str ("Assert.Contains("), .ref 2, .str (", "), .ref 1, .str (")")]⟩

def ruleHaveCount : Rule :=
  ⟨[grpLazy 1 identStart rcvBangCh] ++ litsR (".Should().HaveCount(") ++ [grpPlus 2 notRp] ++ litsR (")"),
   [.str ("Assert.Equal("), .ref 2, .str (", "), .ref 1, .str (".Count)")]⟩

def ruleStartWith : Rule :=
  ⟨[grpLazy 1 identStart rcvBangCh] ++ litsR (".Should().StartWith(") ++ [grpPlus 2 notRp] ++ litsR (")"),
   [.str ("Assert.StartsWith("), .ref 2, .str (", "), .ref 1, .str (")")]⟩

def ruleEndWith : Rule :=
  ⟨[grpLazy 1 identStart rcvBangCh] ++ litsR (".Should().EndWith(") ++ [grpPlus 2 notRp] ++ litsR (")"),
   [.str ("Assert.EndsWith("), .ref 2, .str (", "), .ref 1, .str (")")]⟩

def ruleTernary : Rule :=
  ⟨litsR ("(") ++ [grpPlus 1 notRp] ++ [starG spaceCh] ++ litsR ("!=") ++ [starG spaceCh] ++
     litsR ("null") ++ [starG spaceCh] ++ litsR ("?") ++ [starG spaceCh] ++ [grpPlus 2 notCl] ++
     [starG spaceCh] ++ litsR (":") ++ [starG spaceCh] ++ [grpPlus 3 notRp] ++
     litsR (").Should().Be(") ++ [grpPlus 4 notRp] ++ litsR (")"),
   [.str ("Assert.Equal("), .ref 4, .str (", "), .ref 1, .str (" != null ? "), .ref 2,
    .str (" : "), .ref 3, .str (")")]⟩

def rules : List Rule :=
  [ruleContainsTrue, ruleContainsFalse, ruleBeTrue, ruleBeFalse, ruleNotBeNull,
   ruleBeNull, ruleBe, ruleNotBe, ruleContain, ruleHaveCount, ruleStartWith,
   ruleEndWith, ruleTernary]

/-- The function `fix_complex_should_patterns` of `fix_complex_should.py`. -/
def fix_complex_should_patterns (s : List Char) : List Char := applyRules rules s

/-- The per-file loop body of `fix_complex_should.py`: skip when the file does
not contain `.Should()`, otherwise rewrite and write back exactly when the
result differs. -/
def process (c : List Char) : List Char × Bool :=
  if occursB ((".Should()").toList) c then
    let n := fix_complex_should_patterns c
    if n = c then (c, false) else (n, true)
  else (c, false)

end FixComplex

namespace FixFinal

open Rewrite

/-! The twelve `re.sub` rules of `fix_all_should_patterns` in
`fix_final_should.py`, in source order. -/

def ruleNotBeNull : Rule :=
  ⟨[grpLazy 1 identStart rcvBangCh] ++ litsR (".Should().NotBeNull()"),
   [.str ("Assert.NotNull("), .ref 1, .str (")")]⟩

def ruleBeNull : Rule :=
  ⟨[grpLazy 1 identStart rcvBangCh] ++ litsR (".Should().BeNull()"),
   [.str ("Assert.Null("), .ref 1, .str (")")]⟩

def ruleBe : Rule :=
  ⟨[grpLazy 1 identStart rcvBangCh] ++ litsR (".Should().Be(") ++ [grpPlus 2 notRp] ++ litsR (")"),
   [.str ("Assert.Equal("), .ref 2, .str (", "), .ref 1, .str (")")]⟩

def ruleNotBe : Rule :=
  ⟨[grpLazy 1 identStart rcvBangCh] ++ litsR (".Should().NotBe(") ++ [grpPlus 2 notRp] ++ litsR (")"),
   [.str ("Assert.NotEqual("), .ref 2, .str (", "), .ref 1, .str (")")]⟩

def ruleContain : Rule :=
  ⟨[grpLazy 1 identStart rcvBangCh] ++ litsR (".Should().Contain(") ++ [grpPlus 2 notRp] ++ litsR (")"),
   [.str ("Assert.Contains("), .ref 2, .str (", "), .ref 1, .str (")")]⟩

def ruleBeGreaterThan : Rule :=
  ⟨[grpLazy 1 identStart rcvBangCh] ++ litsR (".Should().BeGreaterThan(") ++ [grpPlus 2 notRp] ++ litsR (")"),
   [.str ("Assert.True("), .ref 1, .str (" > "), .ref 2, .str (")")]⟩

def ruleBeGreaterThanOrEqualTo : Rule :=
  ⟨[grpLazy 1 identStart rcvBangCh] ++ litsR (".Should().BeGreaterThanOrEqualTo(") ++
     [grpPlus 2 notRp] ++ litsR (")"),
   [.str ("Assert.True("), .ref 1, .str (" >= "), .ref 2, .str (")")]⟩

def ruleBeLessThan : Rule :=
  ⟨[grpLazy 1 identStart rcvBangCh] ++ litsR (".Should().BeLessThan(") ++ [grpPlus 2 notRp] ++ litsR (")"),
   [.str ("Assert.True("), .ref 1, .str (" < "), .ref 2, .str (")")]⟩

def ruleBeLessThanOrEqualTo : Rule :=
  ⟨[grpLazy 1 identStart rcvBangCh] ++ litsR (".Should().BeLessThanOrEqualTo(") ++
     [grpPlus 2 notRp] ++ litsR (")"),
   [.str ("Assert.True("), .ref 1, .str (" <= "), .ref 2, .str (")")]⟩

def ruleBeTrue : Rule :=
  ⟨[grpLazy 1 identStart rcvBangCh] ++ litsR (".Should().BeTrue(") ++ [starG notRp] ++ litsR (")"),
   [.str ("Assert.True("), .ref 1, .str (")")]⟩

def ruleBeFalse : Rule :=
  ⟨[grpLazy 1 identStart rcvBangCh] ++ litsR (".Should().BeFalse(") ++ [starG notRp] ++ litsR (")"),
   [.str ("Assert.False("), .ref 1, .str (")")]⟩

def ruleIsTernary : Rule :=
  ⟨litsR ("(") ++
     [RItem.grp 1 [CItem.star notRp false, CItem.lit 'i', CItem.lit 's', CItem.star notRp false,
       CItem.lit '?', CItem.star notRp false, CItem.lit ':', CItem.star notRp false]] ++
     litsR (").Should().Be(") ++ [grpPlus 2 notRp] ++ litsR (")"),
   [.str ("Assert.Equal("), .ref 2, .str (", "), .ref 1, .str (")")]⟩

def rules : List Rule :=
  [ruleNotBeNull, ruleBeNull, ruleBe, ruleNotBe, ruleContain, ruleBeGreaterThan,
   ruleBeGreaterThanOrEqualTo, ruleBeLessThan, ruleBeLessThanOrEqualTo,
   ruleBeTrue, ruleBeFalse, ruleIsTernary]

/-- The function `fix_all_should_patterns` of `fix_final_should.py`. -/
def fix_all_should_patterns (s : List Char) : List Char := applyRules rules s

/-- The per-file loop body of `fix_final_should.py`. -/
def process (c : List Char) : List Char × Bool :=
  if occursB ((".Should()").toList) c then
    let n := fix_all_should_patterns c
    if n = c then (c, false) else (n, true)
  else (c, false)

end FixFinal

namespace FixRemaining

open Rewrite

/-! The five `re.sub` rules of `fix_remaining_patterns` in
`fix_remaining_should.py`, in source order. -/

def ruleCounter : Rule :=
  ⟨litsR ("_contextValues[\"counter\"].Should().Be(") ++ [grpPlus 1 digitCh] ++ litsR (")"),
   [.str ("Assert.Equal("), .ref 1, .str (", _contextValues[\"counter\"])")]⟩

def ruleValueBang : Rule :=
  ⟨litsR ("_stateMachine.ContextMap![\"value\"].Should().Be(\"") ++ [grpPlus 1 notQt] ++ litsR ("\")"),
   [.str ("Assert.Equal(\""), .ref 1, .str ("\", _stateMachine.ContextMap![\"value\"])")]⟩

def ruleValue : Rule :=
  ⟨litsR ("_stateMachine.ContextMap[\"value\"].Should().Be(\"") ++ [grpPlus 1 notQt] ++ litsR ("\")"),
   [.str ("Assert.Equal(\""), .ref 1, .str ("\", _stateMachine.ContextMap[\"value\"])")]⟩

def ruleJValue : Rule :=
  ⟨litsR ("(") ++ [RItem.grp 1 [CItem.cls identStart, CItem.star wordCh false]] ++
     litsR (" is Newtonsoft.Json.Linq.JValue ") ++
     [RItem.grp 2 [CItem.cls identStart, CItem.star wordCh false]] ++ litsR (" ? ") ++
     [RItem.bref 2] ++ litsR (".ToObject<int>() : (int)(") ++ [RItem.bref 1] ++
     litsR (" ?? 0)).Should().Be(") ++ [grpPlus 3 digitCh] ++ litsR (")"),
   [.str ("Assert.Equal("), .ref 3, .str (", "), .ref 1, .str (" is Newtonsoft.Json.Linq.JValue "),
    .ref 2, .str (" ? "), .ref 2, .str (".ToObject<int>() : (int)("), .ref 1, .str (" ?? 0))")]⟩

def ruleData : Rule :=
  ⟨litsR ("_stateMachine.ContextMap![\"data\"].Should().Be(\"") ++ [grpPlus 1 notQt] ++ litsR ("\")"),
   [.str ("Assert.Equal(\""), .ref 1, .str ("\", _stateMachine.ContextMap![\"data\"])")]⟩

def rules : List Rule := [ruleCounter, ruleValueBang, ruleValue, ruleJValue, ruleData]

/-- The function `fix_remaining_patterns` of `fix_remaining_should.py`. -/
def fix_remaining_patterns (s : List Char) : List Char := applyRules rules s

/-- The per-file loop body of `fix_remaining_should.py`: no content gate;
write back exactly when the rewrite differs. -/
def process (c : List Char) : List Char × Bool :=
  let n := fix_remaining_patterns c
  if n = c then (c, false) else (n, true)

end FixRemaining

namespace FixIntegration

open Rewrite

/-! The fourteen replacement pairs of `fix_integration_tests.py`, in source
order. -/

def ruleCarrier : Rule :=
  ⟨litsR ("carrier.Should().BeTrue()"), [.str ("Assert.True(carrier)")]⟩

def ruleBeTrue : Rule :=
  ⟨[grpPlus 1 wordCh] ++ litsR (".Should().BeTrue()"),
   [.str ("Assert.True("), .ref 1, .str (")")]⟩

def ruleBeFalse : Rule :=
  ⟨[grpPlus 1 wordCh] ++ litsR (".Should().BeFalse()"),
   [.str ("Assert.False("), .ref 1, .str (")")]⟩

def ruleNotBeNull : Rule :=
  ⟨[grpPlus 1 wordCh] ++ litsR (".Should().NotBeNull()"),
   [.str ("Assert.NotNull("), .ref 1, .str (")")]⟩

def ruleBeNull : Rule :=
  ⟨[grpPlus 1 wordCh] ++ litsR (".Should().BeNull()"),
   [.str ("Assert.Null("), .ref 1, .str (")")]⟩

def ruleNotBeEmpty : Rule :=
  ⟨[grpPlus 1 wordCh] ++ litsR (".Should().NotBeEmpty()"),
   [.str ("Assert.NotEmpty("), .ref 1, .str (")")]⟩

def ruleGetCurrentStateContain : Rule :=
  ⟨[grpPlus 1 wordCh] ++ litsR (".GetCurrentState().Should().Contain(\"") ++
     [grpPlus 2 notQt] ++ litsR ("\")"),
   [.str ("Assert.Contains(\""), .ref 2, .str ("\", "), .ref 1, .str (".GetCurrentState())")]⟩

def ruleGetCurrentStateNotContain : Rule :=
  ⟨[grpPlus 1 wordCh] ++ litsR (".GetCurrentState().Should().NotContain(\"") ++
     [grpPlus 2 notQt] ++ litsR ("\")"),
   [.str ("Assert.DoesNotContain(\""), .ref 2, .str ("\", "), .ref 1, .str (".GetCurrentState())")]⟩

def ruleHaveCount : Rule :=
  ⟨[grpPlus 1 wordCh] ++ litsR (".Should().HaveCount(") ++ [grpPlus 2 digitCh] ++ litsR (")"),
   [.str ("Assert.Equal("), .ref 2, .str (", "), .ref 1, .str (".Count)")]⟩

def ruleBe : Rule :=
  ⟨[grpPlus 1 wordCh] ++ litsR (".Should().Be(") ++ [grpPlus 2 digitCh] ++ litsR (")"),
   [.str ("Assert.Equal("), .ref 2, .str (", "), .ref 1, .str (")")]⟩

def ruleEventLogContain : Rule :=
  ⟨[grpPlus 1 wordCh] ++ litsR (".EventLog.Should().Contain(\"") ++ [grpPlus 2 notQt] ++ litsR ("\")"),
   [.str ("Assert.Contains(\""), .ref 2, .str ("\", "), .ref 1, .str (".EventLog)")]⟩

def ruleGetAllJobs : Rule :=
  ⟨[grpPlus 1 wordCh] ++ litsR (".GetAllJobs().Should().HaveCount(") ++ [grpPlus 2 digitCh] ++ litsR (")"),
   [.str ("Assert.Equal("), .ref 2, .str (", "), .ref 1, .str (".GetAllJobs().Count)")]⟩

def ruleContain : Rule :=
  ⟨[grpPlus 1 wordCh] ++ litsR (".Should().Contain(\"") ++ [grpPlus 2 notQt] ++ litsR ("\")"),
   [.str ("Assert.Contains(\""), .ref 2, .str ("\", "), .ref 1, .str (")")]⟩

def ruleHasMapping : Rule :=
  ⟨[grpPlus 1 wordCh] ++ litsR (".HasMapping(\"") ++ [grpPlus 2 notQt] ++ litsR ("\", \"") ++
     [grpPlus 3 notQt] ++ litsR ("\").Should().BeTrue()"),
   [.str ("Assert.True("), .ref 1, .str (".HasMapping(\""), .ref 2, .str ("\", \""), .ref 3,
    .str ("\"))")]⟩

def rules : List Rule :=
  [ruleCarrier, ruleBeTrue, ruleBeFalse, ruleNotBeNull, ruleBeNull, ruleNotBeEmpty,
   ruleGetCurrentStateContain, ruleGetCurrentStateNotContain, ruleHaveCount, ruleBe,
   ruleEventLogContain, ruleGetAllJobs, ruleContain, ruleHasMapping]

/-- The replacement loop of `fix_integration_tests.py`. -/
def apply_replacements (s : List Char) : List Char := applyRules rules s

/-- The module body of `fix_integration_tests.py`: it reads the one target
file, applies all replacements, and writes the result back unconditionally
(there is no comparison with the original content). -/
def process (c : List Char) : List Char × Bool := (apply_replacements c, true)

end FixIntegration

namespace ReplaceQuotes

open Rewrite

/-! The two `re.sub` rules of `replace_double_quotes_in_json` in
`replace_quotes.py`, in source order. -/

def ruleDoubled : Rule :=
  ⟨litsR ("\"\"") ++ [grpPlus 1 notQt] ++ litsR ("\"\""),
   [.str ("'"), .ref 1, .str ("'")]⟩

def rulePair : Rule :=
  ⟨litsR ("\"") ++ [grpPlus 1 notQt] ++ litsR ("\":") ++ [starG spaceCh] ++
     litsR ("\"") ++ [grpPlus 2 notQt] ++ litsR ("\""),
   [.str ("'"), .ref 1, .str ("': '"), .ref 2, .str ("'")]⟩

def rules : List Rule := [ruleDoubled, rulePair]

/-- The function `replace_double_quotes_in_json` of `replace_quotes.py`. -/
def replace_double_quotes_in_json (s : List Char) : List Char := applyRules rules s

/-- The function `process_file` of `replace_quotes.py`, restricted to its
content transformation: process only files containing a doubled quote, and
write back exactly when the rewrite differs. -/
def process (c : List Char) : List Char × Bool :=
  if occursB (("\"\"").toList) c then
    let n := replace_double_quotes_in_json c
    if n = c then (c, false) else (n, true)
  else (c, false)

end ReplaceQuotes

namespace ReplaceAllQuotes

open Rewrite

/-- The sentinel token `__TEMP_ESCAPED__` of `replace_all_quotes.py`. -/
def tempTok : List Char := ("__TEMP_ESCAPED__").toList

/-- The escaped-quote sequence `\""` (backslash, quote, quote). -/
def escSeq : List Char := ("\\\"\"").toList

/-- The restored escape `\"` (backslash, quote). -/
def escOut : List Char := ("\\\"").toList

/-- The line-eligibility markers of `replace_double_quotes_comprehensive`. -/
def markers : List (List Char) :=
  [("\"\"").toList, ("@\"").toList, ("json").toList, ("script").toList,
   ("Script").toList, ("stateMachine").toList]

def lineMarked (l : List Char) : Bool := markers.any (fun m => occursB m l)

/-- The per-line transformation of `replace_double_quotes_comprehensive`:
on a marked line, protect `\""` with the sentinel, replace `""` by a single
quote, then put `\"` back for the sentinel. -/
def fixLine (l : List Char) : List Char :=
  if lineMarked l then
    replaceAll tempTok escOut
      (replaceAll (("\"\"").toList) (("'").toList) (replaceAll escSeq tempTok l))
  else l

/-- The function `replace_double_quotes_comprehensive` of
`replace_all_quotes.py`: split into lines, rewrite each marked line, join. -/
def replace_double_quotes_comprehensive (s : List Char) : List Char :=
  let p := splitNl s
  joinNl (fixLine p.1, p.2.map fixLine)

/-- The function `process_file` of `replace_all_quotes.py`, restricted to its
content transformation (the backup copy is ignored). -/
def process (c : List Char) : List Char × Bool :=
  if occursB (("\"\"").toList) c then
    let n := replace_double_quotes_comprehensive c
    if n = c then (c, false) else (n, true)
  else (c, false)

end ReplaceAllQuotes

namespace Rewrite

/-! Basic facts about the embedding: substring occurrence, character classes,
and the attempt iterators. -/

/-- A run of literal characters from a character list, as top-level items. -/
def litsRL (w : List Char) : List RItem := w.map (fun c => RItem.ch (CItem.lit c))

theorem litsR_eq (w : String) : litsR w = litsRL w.toList := rfl

theorem ne_of_pred (p : CharSet) {c d : Char} (hc : p c = true) (hd : p d = false) : c ≠ d := by
  intro he
  rw [he, hd] at hc
  cases hc

theorem not_mem_of_pred (p : CharSet) {u : List Char} {d : Char}
    (hu : ∀ c ∈ u, p c = true) (hd : p d = false) : d ∉ u := by
  intro hmem
  have := hu d hmem
  rw [hd] at this
  cases this

theorem occursB_iff (w s : List Char) : occursB w s = true ↔ w <:+: s := by
  induction s with
  | nil =>
    simp only [occursB, List.isEmpty_iff]
    constructor
    · rintro rfl
      exact List.infix_rfl
    · intro h
      exact List.eq_nil_of_infix_nil h
  | cons a t ih =>
    simp only [occursB, Bool.or_eq_true, List.isPrefixOf_iff_prefix, ih]
    exact (List.infix_cons_iff).symm

theorem occursB_eq_false {w s : List Char} (h : occursB w s = false) : ¬ w <:+: s := by
  intro hi
  rw [(occursB_iff w s).mpr hi] at h
  cases h

theorem occ_skip {d : Char} {w u s : List Char} (hu : d ∉ u) :
    (d :: w) <:+: (u ++ s) → (d :: w) <:+: s := by
  induction u with
  | nil => exact fun h => h
  | cons c u ih =>
    intro h
    rcases (List.infix_cons_iff).mp h with h | h
    · rcases (List.cons_prefix_cons).mp h with ⟨rfl, -⟩
      exact absurd (List.mem_cons_self _ _) hu
    · exact ih (fun hm => hu (List.mem_cons_of_mem _ hm)) h

theorem infix_of_pre_of_suf {w s2 s : List Char} (h1 : w <+: s2) (h2 : s2 <:+ s) : w <:+: s := by
  obtain ⟨v, rfl⟩ := h1
  obtain ⟨u, rfl⟩ := h2
  exact ⟨u, v, by simp⟩

theorem not_pre_at {w u z : List Char} {c d : Char} (n : Nat)
    (hw : w[n]? = some c) (hu : u[n]? = some d) (hne : c ≠ d) :
    ¬ w <+: (u ++ z) := by
  intro h
  obtain ⟨t, ht⟩ := h
  have hnw : n < w.length := by
    by_contra hge
    rw [List.getElem?_eq_none (Nat.le_of_not_lt hge)] at hw
    cases hw
  have hnu : n < u.length := by
    by_contra hge
    rw [List.getElem?_eq_none (Nat.le_of_not_lt hge)] at hu
    cases hu
  have h1 : (w ++ t)[n]? = some c := by
    rw [List.getElem?_append, if_pos hnw]
    exact hw
  rw [ht, List.getElem?_append, if_pos hnu, hu] at h1
  exact hne (Option.some.inj h1).symm

theorem takeWhile_all_append {p : CharSet} {u : List Char} (y : List Char)
    (hu : ∀ c ∈ u, p c = true) : (u ++ y).takeWhile p = u ++ y.takeWhile p := by
  induction u with
  | nil => rfl
  | cons a t ih =>
    have ha : p a = true := hu a (List.mem_cons_self _ _)
    simp only [List.cons_append, List.takeWhile_cons, ha, if_true]
    rw [ih (fun c hc => hu c (List.mem_cons_of_mem _ hc))]

theorem tryAsc_some {f : Nat → Option Res} {r : Res} :
    ∀ (left k : Nat), tryAsc f k left = some r → ∃ j, f j = some r := by
  intro left
  induction left with
  | zero => intro k h; simp [tryAsc] at h
  | succ left ih =>
    intro k h
    rw [tryAsc] at h
    cases hf : f k with
    | some v => simp only [hf] at h; exact ⟨k, hf.trans h⟩
    | none => simp only [hf] at h; exact ih _ h

theorem tryDesc_some {f : Nat → Option Res} {r : Res} :
    ∀ (left k : Nat), tryDesc f k left = some r → ∃ j, f j = some r := by
  intro left
  induction left with
  | zero => intro k h; simp [tryDesc] at h
  | succ left ih =>
    intro k h
    rw [tryDesc] at h
    cases hf : f k with
    | some v => simp only [hf] at h; exact ⟨k, hf.trans h⟩
    | none => simp only [hf] at h; exact ih _ h

theorem tryAsc_spec {f : Nat → Option Res} {res : Res} :
    ∀ (left k m : Nat), m < left → (∀ j, j < m → f (k + j) = none) → f (k + m) = some res →
      tryAsc f k left = some res := by
  intro left
  induction left with
  | zero => intro k m hm _ _; exact absurd hm (Nat.not_lt_zero m)
  | succ left ih =>
    intro k m hm hnone hsome
    rw [tryAsc]
    cases m with
    | zero =>
      rw [Nat.add_zero] at hsome
      rw [hsome]
    | succ m =>
      have h0 : f k = none := by
        have := hnone 0 (Nat.succ_pos m)
        rwa [Nat.add_zero] at this
      rw [h0]
      exact ih (k + 1) m (Nat.lt_of_succ_lt_succ hm)
        (fun j hj => by
          have := hnone (j + 1) (Nat.succ_lt_succ hj)
          rwa [Nat.add_comm j 1, ← Nat.add_assoc] at this)
        (by rwa [Nat.add_comm m 1, ← Nat.add_assoc] at hsome)

theorem tryDesc_first {f : Nat → Option Res} {res : Res} {k left : Nat}
    (h : f k = some res) : tryDesc f k (left + 1) = some res := by
  rw [tryDesc, h]

end Rewrite

namespace Rewrite

/-! Structural lemmas about the matcher: any invocation of the continuation
happens on a suffix of the input, a run of literals in the pattern forces
that run to occur in the matched text, and a rule whose pattern contains a
literal run that does not occur in the buffer leaves the buffer unchanged. -/

theorem matchC_suffix :
    ∀ (items : List CItem) (s : List Char) (k : List Char → Option Res) (r : Res),
      matchC items s k = some r → ∃ s2, s2 <:+ s ∧ k s2 = some r := by
  intro items
  induction items with
  | nil => exact fun s k r h => ⟨s, List.suffix_refl s, h⟩
  | cons it rest ih =>
    intro s k r h
    cases it with
    | lit c =>
      cases s with
      | nil => simp [matchC] at h
      | cons d t =>
        rw [matchC] at h
        by_cases hdc : d = c
        · rw [if_pos hdc] at h
          obtain ⟨s2, hsuf, hk⟩ := ih t k r h
          exact ⟨s2, hsuf.trans (List.suffix_cons d t), hk⟩
        · rw [if_neg hdc] at h
          cases h
    | cls p =>
      cases s with
      | nil => simp [matchC] at h
      | cons d t =>
        rw [matchC] at h
        by_cases hdc : p d = true
        · rw [if_pos hdc] at h
          obtain ⟨s2, hsuf, hk⟩ := ih t k r h
          exact ⟨s2, hsuf.trans (List.suffix_cons d t), hk⟩
        · rw [if_neg hdc] at h
          cases h
    | star p lz =>
      rw [matchC] at h
      have hj : ∃ j, matchC rest (s.drop j) k = some r := by
        cases lz with
        | true => simp only [if_pos] at h; exact tryAsc_some _ _ h
        | false => simp only [Bool.false_eq_true, if_neg, not_false_iff] at h; exact tryDesc_some _ _ h
      obtain ⟨j, hjm⟩ := hj
      obtain ⟨s2, hsuf, hk⟩ := ih (s.drop j) k r hjm
      exact ⟨s2, hsuf.trans (List.drop_suffix j s), hk⟩

theorem matchR_suffix :
    ∀ (items : List RItem) (s : List Char) (caps : Caps) (k : List Char → Caps → Option Res)
      (r : Res), matchR items s caps k = some r →
      ∃ s2 caps2, s2 <:+ s ∧ k s2 caps2 = some r := by
  intro items
  induction items with
  | nil => exact fun s caps k r h => ⟨s, caps, List.suffix_refl s, h⟩
  | cons it rest ih =>
    intro s caps k r h
    cases it with
    | ch c =>
      rw [matchR] at h
      obtain ⟨s2, hsuf, hk⟩ := matchC_suffix _ _ _ _ h
      obtain ⟨s3, caps3, hsuf3, hk3⟩ := ih s2 caps k r hk
      exact ⟨s3, caps3, hsuf3.trans hsuf, hk3⟩
    | grp i inner =>
      rw [matchR] at h
      obtain ⟨s2, hsuf, hk⟩ := matchC_suffix _ _ _ _ h
      obtain ⟨s3, caps3, hsuf3, hk3⟩ := ih s2 _ k r hk
      exact ⟨s3, caps3, hsuf3.trans hsuf, hk3⟩
    | bref i =>
      rw [matchR] at h
      by_cases hp : (caps i).isPrefixOf s = true
      · rw [if_pos hp] at h
        obtain ⟨s3, caps3, hsuf3, hk3⟩ := ih _ caps k r h
        exact ⟨s3, caps3, hsuf3.trans (List.drop_suffix _ s), hk3⟩
      · rw [if_neg hp] at h
        cases h

theorem matchR_append :
    ∀ (pre rest2 : List RItem) (s : List Char) (caps : Caps)
      (k : List Char → Caps → Option Res),
      matchR (pre ++ rest2) s caps k
        = matchR pre s caps (fun s2 caps2 => matchR rest2 s2 caps2 k) := by
  intro pre
  induction pre with
  | nil => intro rest2 s caps k; rfl
  | cons it pre ih =>
    intro rest2 s caps k
    cases it with
    | ch c =>
      show matchC [c] s _ = matchC [c] s _
      exact congrArg (matchC [c] s) (funext fun s2 => ih rest2 s2 caps k)
    | grp i inner =>
      show matchC inner s _ = matchC inner s _
      exact congrArg (matchC inner s) (funext fun s2 => ih rest2 s2 _ k)
    | bref i =>
      rw [List.cons_append, matchR, matchR]
      by_cases hp : (caps i).isPrefixOf s = true
      · rw [if_pos hp, if_pos hp, ih]
      · rw [if_neg hp, if_neg hp]

theorem matchR_lits_append :
    ∀ (w : List Char) (rest : List RItem) (s : List Char) (caps : Caps)
      (k : List Char → Caps → Option Res),
      matchR (litsRL w ++ rest) (w ++ s) caps k = matchR rest s caps k := by
  intro w
  induction w with
  | nil => intro rest s caps k; rfl
  | cons c w ih =>
    intro rest s caps k
    show matchC [CItem.lit c] (c :: (w ++ s)) _ = _
    rw [matchC, if_pos rfl]
    show matchR (litsRL w ++ rest) (w ++ s) caps k = _
    exact ih rest s caps k

theorem matchR_lit_nil (c : Char) (rest : List RItem) (caps : Caps)
    (k : List Char → Caps → Option Res) :
    matchR (RItem.ch (CItem.lit c) :: rest) [] caps k = none := by
  rw [matchR, matchC]

theorem matchR_lit_ne {d c : Char} (h : d ≠ c) (rest : List RItem) (t : List Char)
    (caps : Caps) (k : List Char → Caps → Option Res) :
    matchR (RItem.ch (CItem.lit c) :: rest) (d :: t) caps k = none := by
  rw [matchR, matchC, if_neg h]

theorem matchR_lits_pre :
    ∀ (w : List Char) (rest : List RItem) (s : List Char) (caps : Caps)
      (k : List Char → Caps → Option Res) (r : Res),
      matchR (litsRL w ++ rest) s caps k = some r → w <+: s := by
  intro w
  induction w with
  | nil => exact fun rest s caps k r _ => List.nil_prefix
  | cons c w ih =>
    intro rest s caps k r h
    cases s with
    | nil =>
      rw [show litsRL (c :: w) ++ rest = RItem.ch (CItem.lit c) :: (litsRL w ++ rest) from rfl,
        matchR_lit_nil] at h
      cases h
    | cons d t =>
      by_cases hdc : d = c
      · subst hdc
        have h2 : matchR (litsRL w ++ rest) t caps k = some r := by
          rw [show litsRL (d :: w) ++ rest = RItem.ch (CItem.lit d) :: (litsRL w ++ rest)
            from rfl, matchR, matchC, if_pos rfl] at h
          exact h
        exact (List.cons_prefix_cons).mpr ⟨rfl, ih rest t caps k r h2⟩
      · rw [show litsRL (c :: w) ++ rest = RItem.ch (CItem.lit c) :: (litsRL w ++ rest) from rfl,
          matchR_lit_ne hdc] at h
        cases h

theorem matchR_occurs {pre post : List RItem} {w s : List Char} {caps : Caps}
    {k : List Char → Caps → Option Res} {r : Res}
    (h : matchR (pre ++ (litsRL w ++ post)) s caps k = some r) : w <:+: s := by
  rw [matchR_append] at h
  obtain ⟨s2, caps2, hsuf, hk⟩ := matchR_suffix _ _ _ _ _ h
  exact infix_of_pre_of_suf (matchR_lits_pre _ _ _ _ _ _ hk) hsuf

theorem tryAt_none {pat pre post : List RItem} {w : List Char}
    (hpat : pat = pre ++ (litsRL w ++ post)) {s : List Char} (h : ¬ w <:+: s) :
    tryAt pat s = none := by
  unfold tryAt
  cases hm : matchR pat s capsEmpty (fun rem caps => some (rem, caps)) with
  | none => rfl
  | some v =>
    rw [hpat] at hm
    exact absurd (matchR_occurs hm) h

theorem subAux_id {pat : List RItem} {tmpl : List TItem} :
    ∀ (fuel : Nat) (s : List Char), (∀ t, t <:+ s → tryAt pat t = none) →
      subAux pat tmpl fuel s = s := by
  intro fuel
  induction fuel with
  | zero => intro s _; rfl
  | succ fuel ih =>
    intro s h
    cases s with
    | nil => rw [subAux, h [] (List.suffix_refl _)]
    | cons d t =>
      rw [subAux, h (d :: t) (List.suffix_refl _)]
      rw [ih t (fun u hu => h u (hu.trans (List.suffix_cons d t)))]

theorem applyRule_noop (R : Rule) (pre post : List RItem) (w : List Char)
    (hpat : R.pat = pre ++ (litsRL w ++ post)) {s : List Char} (h : ¬ w <:+: s) :
    applyRule R s = s := by
  unfold applyRule sub
  exact subAux_id _ s (fun t ht =>
    tryAt_none hpat (fun hi => h (hi.trans ht.isInfix)))

end Rewrite

namespace Rewrite

/-! Positive lemmas: how a lazy identifier-style group, a greedy
plus-group and a greedy star consume their intended spans when the rest of
the pattern then succeeds, and how a full match at position 0 turns into the
result of `re.sub`. -/

theorem matchR_grpLazy {i : Nat} {f p : CharSet} {c0 : Char} {rest : List RItem}
    {a : Char} {rt y : List Char} {caps : Caps} {k : List Char → Caps → Option Res} {res : Res}
    (hf : f a = true) (hp : ∀ c ∈ rt, p c = true) (hne : ∀ c ∈ rt, c ≠ c0)
    (hs : matchR (RItem.ch (CItem.lit c0) :: rest) y (setCap caps i (a :: rt)) k = some res) :
    matchR (RItem.grp i [CItem.cls f, CItem.star p true] :: (RItem.ch (CItem.lit c0) :: rest))
      (a :: (rt ++ y)) caps k = some res := by
  rw [matchR, matchC, if_pos hf]
  simp only [matchC, if_pos]
  refine tryAsc_spec _ _ rt.length ?_ ?_ ?_
  · rw [takeWhile_all_append y hp]
    have : rt.length ≤ (rt ++ y.takeWhile p).length := by
      rw [List.length_append]
      exact Nat.le_add_right _ _
    exact Nat.lt_succ_of_le this
  · intro j hj
    simp only [Nat.zero_add]
    have hdj : (rt ++ y).drop j = rt.drop j ++ y := by
      rw [List.drop_append_eq_append_drop, Nat.sub_eq_zero_of_le (Nat.le_of_lt hj),
        List.drop_zero]
    have hne2 : rt.drop j ≠ [] := by
      rw [ne_eq, List.drop_eq_nil_iff]
      omega
    cases hdr : rt.drop j with
    | nil => exact absurd hdr hne2
    | cons e tl =>
      rw [hdj, hdr, List.cons_append]
      have he : e ∈ rt := List.drop_subset j rt (hdr ▸ List.mem_cons_self e tl)
      exact matchR_lit_ne (hne e he) _ _ _ _
  · simp only [Nat.zero_add]
    have hdy : (rt ++ y).drop rt.length = y := List.drop_left rt y
    rw [hdy]
    have hlen : (a :: (rt ++ y)).length - y.length = rt.length + 1 := by
      simp only [List.length_cons, List.length_append]
      omega
    have htake : (a :: (rt ++ y)).take (rt.length + 1) = a :: rt := by
      rw [List.take_succ_cons, List.take_left]
    rw [hlen, htake]
    exact hs

theorem matchR_grpPlus {i : Nat} {p : CharSet} {rest : List RItem}
    {b : Char} {vt y : List Char} {caps : Caps} {k : List Char → Caps → Option Res} {res : Res}
    (hb : p b = true) (hv : ∀ c ∈ vt, p c = true) (hy : y.takeWhile p = [])
    (hs : matchR rest y (setCap caps i (b :: vt)) k = some res) :
    matchR (RItem.grp i [CItem.cls p, CItem.star p false] :: rest)
      ((b :: vt) ++ y) caps k = some res := by
  rw [List.cons_append, matchR, matchC, if_pos hb]
  simp only [matchC, Bool.false_eq_true, if_neg, not_false_iff]
  have hn : ((vt ++ y).takeWhile p).length = vt.length := by
    rw [takeWhile_all_append y hv, hy, List.append_nil]
  rw [hn]
  apply tryDesc_first
  have hdy : (vt ++ y).drop vt.length = y := List.drop_left vt y
  rw [hdy]
  have hlen : (b :: (vt ++ y)).length - y.length = vt.length + 1 := by
    simp only [List.length_cons, List.length_append]
    omega
  have htake : (b :: (vt ++ y)).take (vt.length + 1) = b :: vt := by
    rw [List.take_succ_cons, List.take_left]
  rw [hlen, htake]
  exact hs

theorem matchR_starG {p : CharSet} {rest : List RItem} {v y : List Char} {caps : Caps}
    {k : List Char → Caps → Option Res} {res : Res}
    (hv : ∀ c ∈ v, p c = true) (hy : y.takeWhile p = [])
    (hs : matchR rest y caps k = some res) :
    matchR (RItem.ch (CItem.star p false) :: rest) (v ++ y) caps k = some res := by
  rw [matchR]
  simp only [matchC, Bool.false_eq_true, if_neg, not_false_iff]
  have hn : ((v ++ y).takeWhile p).length = v.length := by
    rw [takeWhile_all_append y hv, hy, List.append_nil]
  rw [hn]
  apply tryDesc_first
  rw [List.drop_left v y]
  exact hs

theorem tryAt_cons {pat : List RItem} {d : Char} {t : List Char} {caps : Caps}
    (hmatch : matchR pat (d :: t) capsEmpty (fun rem c => some (rem, c)) = some ([], caps)) :
    tryAt pat (d :: t) = some (t.length + 1, caps) := by
  unfold tryAt
  rw [hmatch]
  simp

theorem applyRule_fire (R : Rule) {d : Char} {t : List Char} {caps : Caps}
    (hmatch : matchR R.pat (d :: t) capsEmpty (fun rem c => some (rem, c)) = some ([], caps))
    (hnil : tryAt R.pat [] = none) :
    applyRule R (d :: t) = inst R.tmpl caps := by
  unfold applyRule sub
  show subAux R.pat R.tmpl (t.length + 1) (d :: t) = inst R.tmpl caps
  rw [subAux, tryAt_cons hmatch]
  show inst R.tmpl caps ++ subAux R.pat R.tmpl t.length ((d :: t).drop (t.length + 1)) = _
  rw [show (t.length + 1) = (d :: t).length from rfl, List.drop_length]
  cases ht : t.length with
  | zero => rw [show subAux R.pat R.tmpl 0 [] = [] from rfl, List.append_nil]
  | succ m =>
    rw [subAux, hnil, List.append_nil]

end Rewrite

namespace Rewrite

/-- The marker substring `.Should()` of the fluent pipelines. -/
def shouldTok : List Char := (".Should()").toList

/-- The marker substring `.Assert.` of the correction rules. -/
def assertTok : List Char := (".Assert.").toList

/-- The doubled-quote marker `""` of the quote pipelines. -/
def dqTok : List Char := ("\"\"").toList

theorem infix_mono_marker {m w s : List Char} (hmw : occursB m w = true) (hws : w <:+: s) :
    m <:+: s := ((occursB_iff m w).mp hmw).trans hws

theorem replaceAllAux_id {pat rep : List Char} :
    ∀ (fuel : Nat) (s : List Char), ¬ pat <:+: s → replaceAllAux pat rep fuel s = s := by
  intro fuel
  induction fuel with
  | zero => intro s _; rfl
  | succ fuel ih =>
    intro s h
    cases s with
    | nil => rfl
    | cons d t =>
      rw [replaceAllAux]
      have hp : pat.isPrefixOf (d :: t) = false := by
        by_contra hne
        have : pat.isPrefixOf (d :: t) = true := by
          cases hb : pat.isPrefixOf (d :: t) with
          | true => rfl
          | false => exact absurd hb hne
        exact h (((List.isPrefixOf_iff_prefix).mp this).isInfix)
      rw [hp]
      show d :: replaceAllAux pat rep fuel t = d :: t
      rw [ih t (fun hi => h ((List.infix_cons_iff).mpr (Or.inr hi)))]

theorem replaceAll_id {pat rep s : List Char} (h : ¬ pat <:+: s) :
    replaceAll pat rep s = s := replaceAllAux_id s.length s h

theorem joinNl_splitNl : ∀ s : List Char, joinNl (splitNl s) = s := by
  intro s
  induction s with
  | nil => rfl
  | cons c t ih =>
    rw [splitNl]
    by_cases hc : c = '\n'
    · rw [if_pos hc, hc]
      show '\n' :: ((splitNl t).1 ++ _) = _
      rw [show ((splitNl t).1 ++
        ((splitNl t).2.map (fun l => '\n' :: l)).foldr (fun a b => a ++ b) []) = joinNl (splitNl t)
        from rfl, ih]
    · rw [if_neg hc]
      show c :: ((splitNl t).1 ++ _) = _
      rw [show ((splitNl t).1 ++
        ((splitNl t).2.map (fun l => '\n' :: l)).foldr (fun a b => a ++ b) []) = joinNl (splitNl t)
        from rfl, ih]

theorem splitNl_occurs : ∀ s : List Char,
    (splitNl s).1 <+: s ∧ ∀ l ∈ (splitNl s).2, l <:+: s := by
  intro s
  induction s with
  | nil => exact ⟨List.nil_prefix, fun l hl => absurd hl (List.not_mem_nil l)⟩
  | cons c t ih =>
    rw [splitNl]
    by_cases hc : c = '\n'
    · rw [if_pos hc]
      refine ⟨List.nil_prefix, fun l hl => ?_⟩
      rcases List.mem_cons.mp hl with rfl | hl
      · exact (ih.1.isInfix).trans ((List.infix_cons_iff).mpr
          (Or.inr List.infix_rfl))
      · exact ((ih.2 l hl).trans ((List.infix_cons_iff).mpr (Or.inr List.infix_rfl)))
    · rw [if_neg hc]
      refine ⟨(List.cons_prefix_cons).mpr ⟨rfl, ih.1⟩, fun l hl => ?_⟩
      exact (ih.2 l hl).trans ((List.infix_cons_iff).mpr (Or.inr List.infix_rfl))

end Rewrite

namespace Rewrite

theorem applyRule_noop_marker (R : Rule) (pre post : List RItem) (w m : List Char)
    (hpat : R.pat = pre ++ (litsRL w ++ post)) (hmw : occursB m w = true)
    {s : List Char} (hm : ¬ m <:+: s) : applyRule R s = s :=
  applyRule_noop R pre post w hpat (fun hw => hm (infix_mono_marker hmw hw))

/-- A buffer containing neither `.Should()` nor `.Assert.` is left unchanged
by every rule of `fix_all_should.py`. -/
theorem fasp_noop {s : List Char} (h1 : ¬ shouldTok <:+: s) (h2 : ¬ assertTok <:+: s) :
    FixAll.fix_all_should_patterns s = s := by
  have n01 : applyRule FixAll.ruleNotBeNull s = s :=
    applyRule_noop_marker _ [grpLazy 1 identStart rcvCh] [] ((".Should().NotBeNull()").toList)
      shouldTok (by rw [List.append_nil]; rfl) (by decide) h1
  have n02 : applyRule FixAll.ruleBeNull s = s :=
    applyRule_noop_marker _ [grpLazy 1 identStart rcvCh] [] ((".Should().BeNull()").toList)
      shouldTok (by rw [List.append_nil]; rfl) (by decide) h1
  have n03 : applyRule FixAll.ruleBe s = s :=
    applyRule_noop_marker _ [grpLazy 1 identStart rcvCh] ([grpPlus 2 notRp] ++ litsR (")"))
      ((".Should().Be(").toList) shouldTok rfl (by decide) h1
  have n04 : applyRule FixAll.ruleBeTrue s = s :=
    applyRule_noop_marker _ [grpLazy 1 identStart rcvCh] [] ((".Should().BeTrue()").toList)
      shouldTok (by rw [List.append_nil]; rfl) (by decide) h1
  have n05 : applyRule FixAll.ruleBeFalse s = s :=
    applyRule_noop_marker _ [grpLazy 1 identStart rcvCh] [] ((".Should().BeFalse()").toList)
      shouldTok (by rw [List.append_nil]; rfl) (by decide) h1
  have n06 : applyRule FixAll.ruleContain s = s :=
    applyRule_noop_marker _ [grpLazy 1 identStart rcvCh] ([grpPlus 2 notRp] ++ litsR (")"))
      ((".Should().Contain(").toList) shouldTok rfl (by decide) h1
  have n07 : applyRule FixAll.ruleNotContain s = s :=
    applyRule_noop_marker _ [grpLazy 1 identStart rcvCh] ([grpPlus 2 notRp] ++ litsR (")"))
      ((".Should().NotContain(").toList) shouldTok rfl (by decide) h1
  have n08 : applyRule FixAll.ruleHaveCount s = s :=
    applyRule_noop_marker _ [grpLazy 1 identStart rcvCh] ([grpPlus 2 notRp] ++ litsR (")"))
      ((".Should().HaveCount(").toList) shouldTok rfl (by decide) h1
  have n09 : applyRule FixAll.ruleBeEmpty s = s :=
    applyRule_noop_marker _ [grpLazy 1 identStart rcvCh] [] ((".Should().BeEmpty()").toList)
      shouldTok (by rw [List.append_nil]; rfl) (by decide) h1
  have n10 : applyRule FixAll.ruleNotBeEmpty s = s :=
    applyRule_noop_marker _ [grpLazy 1 identStart rcvCh] [] ((".Should().NotBeEmpty()").toList)
      shouldTok (by rw [List.append_nil]; rfl) (by decide) h1
  have n11 : applyRule FixAll.ruleBeGreaterThan s = s :=
    applyRule_noop_marker _ [grpLazy 1 identStart rcvCh] ([grpPlus 2 notRp] ++ litsR (")"))
      ((".Should().BeGreaterThan(").toList) shouldTok rfl (by decide) h1
  have n12 : applyRule FixAll.ruleBeLessThan s = s :=
    applyRule_noop_marker _ [grpLazy 1 identStart rcvCh] ([grpPlus 2 notRp] ++ litsR (")"))
      ((".Should().BeLessThan(").toList) shouldTok rfl (by decide) h1
  have n13 : applyRule FixAll.ruleBeGreaterOrEqualTo s = s :=
    applyRule_noop_marker _ [grpLazy 1 identStart rcvCh] ([grpPlus 2 notRp] ++ litsR (")"))
      ((".Should().BeGreaterOrEqualTo(").toList) shouldTok rfl (by decide) h1
  have n14 : applyRule FixAll.ruleStartWith s = s :=
    applyRule_noop_marker _ [grpLazy 1 identStart rcvCh] ([grpPlus 2 notRp] ++ litsR (")"))
      ((".Should().StartWith(").toList) shouldTok rfl (by decide) h1
  have n15 : applyRule FixAll.ruleEndWith s = s :=
    applyRule_noop_marker _ [grpLazy 1 identStart rcvCh] ([grpPlus 2 notRp] ++ litsR (")"))
      ((".Should().EndWith(").toList) shouldTok rfl (by decide) h1
  have n16 : applyRule FixAll.ruleBeEquivalentTo s = s :=
    applyRule_noop_marker _ [grpLazy 1 identStart rcvCh] ([grpPlus 2 notRp] ++ litsR (")"))
      ((".Should().BeEquivalentTo(").toList) shouldTok rfl (by decide) h1
  have n17 : applyRule FixAll.ruleNotBe s = s :=
    applyRule_noop_marker _ [grpLazy 1 identStart rcvCh] ([grpPlus 2 notRp] ++ litsR (")"))
      ((".Should().NotBe(").toList) shouldTok rfl (by decide) h1
  have n18 : applyRule FixAll.ruleRepairContains s = s :=
    applyRule_noop_marker _ [grpLazy 1 identStart wordCh]
      ([grpPlus 2 notCm] ++ litsR (", ") ++ [grpLazy 3 identStart wordCh] ++ litsR (")"))
      ((".Assert.Contains(").toList) assertTok rfl (by decide) h2
  have n19 : applyRule FixAll.ruleRepairEqual s = s :=
    applyRule_noop_marker _ [grpLazy 1 identStart wordCh]
      ([grpPlus 2 notCm] ++ litsR (", ") ++ [grpLazy 3 identStart wordCh] ++ litsR (")"))
      ((".Assert.Equal(").toList) assertTok rfl (by decide) h2
  have n20 : applyRule FixAll.rulePingHits s = s :=
    applyRule_noop_marker _ [] ([grpPlus 1 notRp] ++ litsR (")"))
      (("pingHits.Assert.Contains(").toList) assertTok rfl (by decide) h2
  have n21 : applyRule FixAll.rulePongHits s = s :=
    applyRule_noop_marker _ [] ([grpPlus 1 notRp] ++ litsR (")"))
      (("pongHits.Assert.Contains(").toList) assertTok rfl (by decide) h2
  show FixAll.fix_all_should_patterns s = s
  simp only [FixAll.fix_all_should_patterns, FixAll.rules, applyRules, List.foldl_cons,
    List.foldl_nil]
  rw [n01, n02, n03, n04, n05, n06, n07, n08, n09, n10, n11, n12, n13, n14, n15, n16, n17,
    n18, n19, n20, n21]

/-- A buffer containing no double-quote character is left unchanged by both
rules of `replace_quotes.py`. -/
theorem rdq_noop {s : List Char} (h : ¬ [ '"' ] <:+: s) :
    ReplaceQuotes.replace_double_quotes_in_json s = s := by
  have n1 : applyRule ReplaceQuotes.ruleDoubled s = s :=
    applyRule_noop_marker _ [] ([grpPlus 1 notQt] ++ litsR ("\"\"")) (("\"\"").toList)
      ([ '"' ]) rfl (by decide) h
  have n2 : applyRule ReplaceQuotes.rulePair s = s :=
    applyRule_noop_marker _ []
      ([grpPlus 1 notQt] ++ litsR ("\":") ++ [starG spaceCh] ++ litsR ("\"") ++
        [grpPlus 2 notQt] ++ litsR ("\""))
      (("\"").toList) ([ '"' ]) rfl (by decide) h
  simp only [ReplaceQuotes.replace_double_quotes_in_json, ReplaceQuotes.rules, applyRules,
    List.foldl_cons, List.foldl_nil]
  rw [n1, n2]

/-- A line containing neither `""` nor the sentinel token is left unchanged
by the per-line transformation of `replace_all_quotes.py`. -/
theorem fixLine_id {l : List Char} (hdq : ¬ dqTok <:+: l)
    (ht : ¬ ReplaceAllQuotes.tempTok <:+: l) : ReplaceAllQuotes.fixLine l = l := by
  unfold ReplaceAllQuotes.fixLine
  by_cases hm : ReplaceAllQuotes.lineMarked l = true
  · rw [if_pos hm]
    rw [show replaceAll ReplaceAllQuotes.escSeq ReplaceAllQuotes.tempTok l = l from
      replaceAll_id (fun hw => hdq (infix_mono_marker (m := dqTok)
        (w := ReplaceAllQuotes.escSeq) (by decide) hw))]
    rw [show replaceAll (("\"\"").toList) (("'").toList) l = l from replaceAll_id hdq]
    rw [show replaceAll ReplaceAllQuotes.tempTok ReplaceAllQuotes.escOut l = l from
      replaceAll_id ht]
  · rw [if_neg hm]

/-- A buffer containing neither `""` nor the sentinel token is left unchanged
by `replace_double_quotes_comprehensive`. -/
theorem raq_noop {s : List Char} (hdq : ¬ dqTok <:+: s)
    (ht : ¬ ReplaceAllQuotes.tempTok <:+: s) :
    ReplaceAllQuotes.replace_double_quotes_comprehensive s = s := by
  unfold ReplaceAllQuotes.replace_double_quotes_comprehensive
  obtain ⟨hpre, hmem⟩ := splitNl_occurs s
  have h1 : ReplaceAllQuotes.fixLine (splitNl s).1 = (splitNl s).1 :=
    fixLine_id (fun hw => hdq (hw.trans hpre.isInfix))
      (fun hw => ht (hw.trans hpre.isInfix))
  have h2 : (splitNl s).2.map ReplaceAllQuotes.fixLine = (splitNl s).2 := by
    have hc : ∀ l ∈ (splitNl s).2, ReplaceAllQuotes.fixLine l = id l := fun l hl =>
      fixLine_id (fun hw => hdq (hw.trans (hmem l hl)))
        (fun hw => ht (hw.trans (hmem l hl)))
    rw [List.map_congr_left hc, List.map_id]
  show joinNl (ReplaceAllQuotes.fixLine (splitNl s).1,
    (splitNl s).2.map ReplaceAllQuotes.fixLine) = s
  rw [h1, h2]
  exact joinNl_splitNl s

end Rewrite

namespace Rewrite

theorem occursB_eq_false_of {w s : List Char} (h : ¬ w <:+: s) : occursB w s = false := by
  cases hb : occursB w s with
  | false => rfl
  | true => exact absurd ((occursB_iff _ _).mp hb) h

/-- The per-file write discipline shared by the guarded scripts: if the
rewrite leaves the content unchanged, the file is not written. -/
theorem write_only_changed (gate : Bool) (f c : List Char)
    (h : (if gate then (if f = c then (c, false) else (f, true)) else (c, false)).1 = c) :
    (if gate then (if f = c then (c, false) else (f, true)) else (c, false)).2 = false := by
  cases gate with
  | false => rfl
  | true =>
    by_cases hf : f = c
    · simp [hf]
    · simp only [if_true, if_neg hf] at h ⊢
      exact absurd h hf

theorem write_only_changed2 (f c : List Char)
    (h : (if f = c then (c, false) else (f, true)).1 = c) :
    (if f = c then (c, false) else (f, true)).2 = false := by
  by_cases hf : f = c
  · simp [hf]
  · simp only [if_neg hf] at h ⊢
    exact absurd h hf

end Rewrite

open Rewrite

/-- C1 counterexample: the full rule sequence of `replace_quotes.py` is not
idempotent.  On the buffer `"""a": "b"""` one run yields `""'a': 'b'""` (the
quote-pair rule fires inside the triple quotes), and the second run re-matches
the doubled quotes produced that way and yields `''a': 'b''`. -/
theorem c1_counterexample :
    ReplaceQuotes.replace_double_quotes_in_json
        (ReplaceQuotes.replace_double_quotes_in_json (("\"\"\"a\": \"b\"\"\"").toList))
      ≠ ReplaceQuotes.replace_double_quotes_in_json (("\"\"\"a\": \"b\"\"\"").toList) := by
  decide

/-- C1 (amended): idempotence holds in the marker-free case: if one run's
output contains no `.Should()` and no `.Assert.`, a second run of
`fix_all_should_patterns` is a no-op, and if one run's output of
`replace_double_quotes_in_json` contains no double-quote character, a second
run is a no-op.  In general the pipelines are not idempotent (see the
counterexample). -/
theorem c1_idempotence_amended :
    (∀ s : List Char, occursB shouldTok (FixAll.fix_all_should_patterns s) = false →
      occursB assertTok (FixAll.fix_all_should_patterns s) = false →
      FixAll.fix_all_should_patterns (FixAll.fix_all_should_patterns s)
        = FixAll.fix_all_should_patterns s) ∧
    (∀ s : List Char,
      occursB ([ '"' ]) (ReplaceQuotes.replace_double_quotes_in_json s) = false →
      ReplaceQuotes.replace_double_quotes_in_json
          (ReplaceQuotes.replace_double_quotes_in_json s)
        = ReplaceQuotes.replace_double_quotes_in_json s) :=
  ⟨fun _ h1 h2 => fasp_noop (occursB_eq_false h1) (occursB_eq_false h2),
   fun _ h => rdq_noop (occursB_eq_false h)⟩

/-- C1 witness: the amended idempotence applied to the spec's own examples. -/
theorem c1_idempotence_amended_witness :
    FixAll.fix_all_should_patterns
        (FixAll.fix_all_should_patterns (("result.Should().NotBeNull();").toList))
      = FixAll.fix_all_should_patterns (("result.Should().NotBeNull();").toList) ∧
    ReplaceQuotes.replace_double_quotes_in_json
        (ReplaceQuotes.replace_double_quotes_in_json (("\"\"id\"\": \"\"start\"\"").toList))
      = ReplaceQuotes.replace_double_quotes_in_json (("\"\"id\"\": \"\"start\"\"").toList) :=
  ⟨c1_idempotence_amended.1 _ (by decide) (by decide),
   c1_idempotence_amended.2 _ (by decide)⟩

/-- C2 counterexample: for `replace_quotes.py` the `""` pre-check is not a
correctness gate.  The buffer `"a": "b"` contains no doubled double quote,
yet `replace_double_quotes_in_json` rewrites it (to `'a': 'b'`), so skipping
the file and processing it differ. -/
theorem c2_counterexample :
    occursB dqTok (("\"a\": \"b\"").toList) = false ∧
    ReplaceQuotes.replace_double_quotes_in_json (("\"a\": \"b\"").toList)
      ≠ ("\"a\": \"b\"").toList := by
  exact ⟨by decide, by decide⟩

/-- C2 (amended): the pre-check is a sound skip for the fluent pipeline (a
buffer with neither `.Should()` nor `.Assert.` is returned unchanged by
`fix_all_should_patterns`) and for the comprehensive quote pipeline on
buffers that also lack the sentinel token (a buffer without `""` and without
`__TEMP_ESCAPED__` is returned unchanged by
`replace_double_quotes_comprehensive`); it is not sound for
`replace_quotes.py`, whose second rule fires without any `""`. -/
theorem c2_precheck_amended :
    (∀ s : List Char, occursB shouldTok s = false → occursB assertTok s = false →
      FixAll.fix_all_should_patterns s = s) ∧
    (∀ s : List Char, occursB dqTok s = false →
      occursB ReplaceAllQuotes.tempTok s = false →
      ReplaceAllQuotes.replace_double_quotes_comprehensive s = s) :=
  ⟨fun _ h1 h2 => fasp_noop (occursB_eq_false h1) (occursB_eq_false h2),
   fun _ h1 h2 => raq_noop (occursB_eq_false h1) (occursB_eq_false h2)⟩

/-- C2 witness: a buffer without the markers is left unchanged by both sound
pipelines. -/
theorem c2_precheck_amended_witness :
    FixAll.fix_all_should_patterns (("Assert.Equal(3, list.Count);").toList)
      = ("Assert.Equal(3, list.Count);").toList ∧
    ReplaceAllQuotes.replace_double_quotes_comprehensive (("var json = \"x\";").toList)
      = ("var json = \"x\";").toList :=
  ⟨c2_precheck_amended.1 _ (by decide) (by decide),
   c2_precheck_amended.2 _ (by decide) (by decide)⟩

/-- C5 counterexample: the fluent-assertion rewrite does not leave unrelated
call-based assertions alone.  The fully qualified `Xunit.Assert.Contains(a, b)`
contains no `.Should()`, yet the repair rule of `fix_all_should.py` rewrites
it to the mangled `Assert.Contains(a, Xunit.b)`. -/
theorem c5_counterexample :
    FixAll.fix_all_should_patterns (("Xunit.Assert.Contains(a, b)").toList)
        = ("Assert.Contains(a, Xunit.b)").toList ∧
    FixAll.fix_all_should_patterns (("Xunit.Assert.Contains(a, b)").toList)
      ≠ ("Xunit.Assert.Contains(a, b)").toList := by
  exact ⟨by decide, by decide⟩

/-- C5 (amended): non-interference holds for buffers whose text contains
neither `.Should()` nor `.Assert.`: `fix_all_should_patterns` returns such a
buffer byte-identical.  An already-correct call qualified as
`IDENT.Assert.Matcher(...)` is however re-matched by the repair rules (see
the counterexample). -/
theorem c5_noninterference_amended (s : List Char)
    (h1 : occursB shouldTok s = false) (h2 : occursB assertTok s = false) :
    FixAll.fix_all_should_patterns s = s :=
  fasp_noop (occursB_eq_false h1) (occursB_eq_false h2)

/-- C5 witness: an unqualified call-based assertion is preserved. -/
theorem c5_noninterference_amended_witness :
    FixAll.fix_all_should_patterns (("Assert.Contains(a, b);").toList)
      = ("Assert.Contains(a, b);").toList :=
  c5_noninterference_amended _ (by decide) (by decide)

/-- C7 counterexample: `fix_integration_tests.py` writes its target file
back unconditionally.  On a content with no fluent pattern the rewritten
content equals the original, and the file is still written. -/
theorem c7_counterexample :
    (FixIntegration.process (("hello").toList)).1 = ("hello").toList ∧
    (FixIntegration.process (("hello").toList)).2 = true := by
  exact ⟨by decide, by decide⟩

/-- C7 (amended): write-only-if-changed holds for the six other scripts —
for each of them, a file whose rewritten content equals its original content
is not written back — but `fix_integration_tests.py` writes unconditionally. -/
theorem c7_write_amended :
    (∀ c : List Char, (ReplaceQuotes.process c).1 = c → (ReplaceQuotes.process c).2 = false) ∧
    (∀ c : List Char, (ReplaceAllQuotes.process c).1 = c →
      (ReplaceAllQuotes.process c).2 = false) ∧
    (∀ c : List Char, (FixAll.process c).1 = c → (FixAll.process c).2 = false) ∧
    (∀ c : List Char, (FixComplex.process c).1 = c → (FixComplex.process c).2 = false) ∧
    (∀ c : List Char, (FixFinal.process c).1 = c → (FixFinal.process c).2 = false) ∧
    (∀ c : List Char, (FixRemaining.process c).1 = c → (FixRemaining.process c).2 = false) ∧
    (∀ c : List Char, (FixIntegration.process c).2 = true) :=
  ⟨fun c h => write_only_changed _ _ c h,
   fun c h => write_only_changed _ _ c h,
   fun c h => write_only_changed _ _ c h,
   fun c h => write_only_changed _ _ c h,
   fun c h => write_only_changed _ _ c h,
   fun c h => write_only_changed2 _ c h,
   fun _ => rfl⟩

/-- C7 witness: on the one-character content `x` none of the guarded scripts
report a write, while `fix_integration_tests.py` still writes. -/
theorem c7_write_amended_witness :
    (ReplaceQuotes.process (("x").toList)).2 = false ∧
    (ReplaceAllQuotes.process (("x").toList)).2 = false ∧
    (FixAll.process (("x").toList)).2 = false ∧
    (FixComplex.process (("x").toList)).2 = false ∧
    (FixFinal.process (("x").toList)).2 = false ∧
    (FixRemaining.process (("x").toList)).2 = false ∧
    (FixIntegration.process (("x").toList)).2 = true :=
  ⟨c7_write_amended.1 _ (by decide),
   c7_write_amended.2.1 _ (by decide),
   c7_write_amended.2.2.1 _ (by decide),
   c7_write_amended.2.2.2.1 _ (by decide),
   c7_write_amended.2.2.2.2.1 _ (by decide),
   c7_write_amended.2.2.2.2.2.1 _ (by decide),
   c7_write_amended.2.2.2.2.2.2 _⟩

namespace Rewrite

/-- Characters that can appear around an escaped quote without interacting
with any of the three replacement steps: not a backslash, not a quote and
not an underscore. -/
def plainCh (c : Char) : Bool := (c != '\\') && (c != '"') && (c != '_')

theorem plainCh_not_mem {s : List Char} (h : s.all plainCh = true) {d : Char}
    (hd : plainCh d = false) : d ∉ s :=
  not_mem_of_pred plainCh (List.all_eq_true.mp h) hd

/-- A single occurrence of the pattern sitting between text that does not
contain the pattern's first character is replaced exactly once. -/
theorem replaceAll_single {d : Char} {pt rep : List Char} :
    ∀ (s1 : List Char) {s2 : List Char}, d ∉ s1 → ¬ (d :: pt) <:+: s2 →
      replaceAll (d :: pt) rep (s1 ++ ((d :: pt) ++ s2)) = s1 ++ (rep ++ s2) := by
  intro s1
  induction s1 with
  | nil =>
    intro s2 _ h2
    show replaceAllAux (d :: pt) rep ((pt ++ s2).length + 1) (d :: (pt ++ s2)) = rep ++ s2
    rw [replaceAllAux]
    have hp : (d :: pt).isPrefixOf (d :: (pt ++ s2)) = true :=
      (List.isPrefixOf_iff_prefix).mpr ((List.cons_prefix_cons).mpr ⟨rfl, pt.prefix_append s2⟩)
    rw [hp]
    show rep ++ replaceAllAux (d :: pt) rep (pt ++ s2).length
      ((d :: (pt ++ s2)).drop (pt.length + 1)) = rep ++ s2
    rw [List.drop_succ_cons, List.drop_left]
    rw [replaceAllAux_id _ s2 h2]
  | cons c s1 ih =>
    intro s2 hd1 h2
    have hdc : d ≠ c := fun he => hd1 (List.mem_cons.mpr (Or.inl he))
    show replaceAllAux (d :: pt) rep ((s1 ++ ((d :: pt) ++ s2)).length + 1)
      (c :: (s1 ++ ((d :: pt) ++ s2))) = c :: (s1 ++ (rep ++ s2))
    rw [replaceAllAux]
    have hp : (d :: pt).isPrefixOf (c :: (s1 ++ ((d :: pt) ++ s2))) = false := by
      cases hb : (d :: pt).isPrefixOf (c :: (s1 ++ ((d :: pt) ++ s2))) with
      | false => rfl
      | true =>
        exact absurd ((List.cons_prefix_cons).mp
          ((List.isPrefixOf_iff_prefix).mp hb)).1 hdc
    rw [hp]
    show c :: replaceAll (d :: pt) rep (s1 ++ ((d :: pt) ++ s2)) = c :: (s1 ++ (rep ++ s2))
    rw [ih (fun hm => hd1 (List.mem_cons_of_mem c hm)) h2]

end Rewrite

/-- C3 counterexample: the sentinel round-trip does not restore the original
escaped-quote sequence.  On the marked line `json \""x\""` (whose only
doubled quotes are inside the escaped sequences), the per-line rewrite
returns `json \"x\"`: each three-character `\""` comes back as the
two-character `\"`, so the line is not byte-identical. -/
theorem c3_counterexample :
    ReplaceAllQuotes.fixLine (("json \\\"\"x\\\"\"").toList) = ("json \\\"x\\\"").toList ∧
    ReplaceAllQuotes.fixLine (("json \\\"\"x\\\"\"").toList)
      ≠ ("json \\\"\"x\\\"\"").toList := by
  exact ⟨by decide, by decide⟩

/-- C3 (amended): the sentinel protects an escaped-quote sequence from the
doubled-quote substitution, but the restore step writes the two-character
escape `\"`, not the original three-character `\""`.  For any line
`s1 ++ \"" ++ s2` whose surrounding text contains no backslash, quote or
underscore, the rewrite yields `s1 ++ \" ++ s2` (the line is eligible
because `\""` itself contains the `""` marker). -/
theorem c3_sentinel_amended (s1 s2 : List Char)
    (h1 : s1.all plainCh = true) (h2 : s2.all plainCh = true) :
    ReplaceAllQuotes.fixLine (s1 ++ (ReplaceAllQuotes.escSeq ++ s2))
      = s1 ++ (ReplaceAllQuotes.escOut ++ s2) := by
  have hdq : dqTok <:+: (s1 ++ (ReplaceAllQuotes.escSeq ++ s2)) := by
    refine (infix_mono_marker (w := ReplaceAllQuotes.escSeq) (by decide) ?_)
    exact ⟨s1, s2, by rw [List.append_assoc]⟩
  have hmark : ReplaceAllQuotes.lineMarked (s1 ++ (ReplaceAllQuotes.escSeq ++ s2)) = true := by
    have hq : occursB (("\"\"").toList) (s1 ++ (ReplaceAllQuotes.escSeq ++ s2)) = true :=
      (occursB_iff _ _).mpr hdq
    simp only [ReplaceAllQuotes.lineMarked, ReplaceAllQuotes.markers, List.any_cons,
      List.any_nil, Bool.or_eq_true]
    exact Or.inl hq
  unfold ReplaceAllQuotes.fixLine
  rw [if_pos hmark]
  have e1 : replaceAll ReplaceAllQuotes.escSeq ReplaceAllQuotes.tempTok
      (s1 ++ (ReplaceAllQuotes.escSeq ++ s2)) = s1 ++ (ReplaceAllQuotes.tempTok ++ s2) :=
    replaceAll_single s1 (plainCh_not_mem h1 (by decide))
      (fun hi => absurd (hi.subset (List.mem_cons_self _ _))
        (plainCh_not_mem h2 (by decide)))
  rw [e1]
  have e2 : replaceAll (("\"\"").toList) (("'").toList)
      (s1 ++ (ReplaceAllQuotes.tempTok ++ s2)) = s1 ++ (ReplaceAllQuotes.tempTok ++ s2) := by
    refine replaceAll_id (fun hi => ?_)
    have hqm : '"' ∈ s1 ++ (ReplaceAllQuotes.tempTok ++ s2) :=
      hi.subset (List.mem_cons_self _ _)
    rcases List.mem_append.mp hqm with hq | hq
    · exact absurd hq (plainCh_not_mem h1 (by decide))
    · rcases List.mem_append.mp hq with hq | hq
      · exact absurd hq (by decide)
      · exact absurd hq (plainCh_not_mem h2 (by decide))
  rw [e2]
  exact replaceAll_single s1 (plainCh_not_mem h1 (by decide))
    (fun hi => absurd (hi.subset (List.mem_cons_self _ _))
      (plainCh_not_mem h2 (by decide)))

/-- C3 witness: the amended statement at the concrete line `json \""x`. -/
theorem c3_sentinel_amended_witness :
    ReplaceAllQuotes.fixLine ((("json ").toList) ++ (ReplaceAllQuotes.escSeq ++ (("x").toList)))
      = (("json ").toList) ++ (ReplaceAllQuotes.escOut ++ (("x").toList)) :=
  c3_sentinel_amended _ _ (by decide) (by decide)

namespace Rewrite

theorem takeWhile_head_false {p : CharSet} {d : Char} (hd : p d = false) (z : List Char) :
    (d :: z).takeWhile p = [] := by
  rw [List.takeWhile_cons, hd]
  rfl

theorem not_infix_cons_split {w : List Char} {c : Char} {s : List Char}
    (h1 : ¬ w <+: (c :: s)) (h2 : ¬ w <:+: s) : ¬ w <:+: (c :: s) :=
  fun h => ((List.infix_cons_iff).mp h).elim h1 h2

/-- No doubled double quote occurs in a plain quoted pair: the four quotes of
`"k": "v"` are pairwise non-adjacent when `k` and `v` are non-empty and
quote-free. -/
theorem no_dq_in_pair {k v : List Char} (hk : k ≠ []) (hv : v ≠ [])
    (hka : k.all notQt = true) (hva : v.all notQt = true) :
    ¬ dqTok <:+: ((("\"").toList) ++ (k ++ ((("\": \"").toList) ++ (v ++ (("\"").toList))))) := by
  obtain ⟨b, kt, rfl⟩ : ∃ b kt, k = b :: kt := by
    cases k with
    | nil => exact absurd rfl hk
    | cons b kt => exact ⟨b, kt, rfl⟩
  obtain ⟨b2, vt, rfl⟩ : ∃ b2 vt, v = b2 :: vt := by
    cases v with
    | nil => exact absurd rfl hv
    | cons b2 vt => exact ⟨b2, vt, rfl⟩
  have hkq : ∀ c ∈ b :: kt, notQt c = true := List.all_eq_true.mp hka
  have hvq : ∀ c ∈ b2 :: vt, notQt c = true := List.all_eq_true.mp hva
  intro h
  have h1 : dqTok <:+: ((b :: kt) ++ ((("\": \"").toList) ++ ((b2 :: vt) ++ (("\"").toList)))) := by
    rcases (List.infix_cons_iff).mp h with hp | hi
    · have hp2 := ((List.cons_prefix_cons).mp hp).2
      have := ((List.cons_prefix_cons).mp hp2).1
      exact absurd this.symm (ne_of_pred notQt (hkq b (List.mem_cons_self b kt)) (by decide))
    · exact hi
  have h2 : dqTok <:+: ((("\": \"").toList) ++ ((b2 :: vt) ++ (("\"").toList))) :=
    occ_skip (not_mem_of_pred notQt hkq (by decide)) h1
  rcases (List.infix_cons_iff).mp h2 with hp | hi
  · have := ((List.cons_prefix_cons).mp hp).2
    rcases (List.cons_prefix_cons).mp this with ⟨heq, -⟩
    exact absurd heq (by decide)
  rcases (List.infix_cons_iff).mp hi with hp | hi2
  · rcases (List.cons_prefix_cons).mp hp with ⟨heq, -⟩
    exact absurd heq (by decide)
  rcases (List.infix_cons_iff).mp hi2 with hp | hi3
  · rcases (List.cons_prefix_cons).mp hp with ⟨heq, -⟩
    exact absurd heq (by decide)
  rcases (List.infix_cons_iff).mp hi3 with hp | hi4
  · have := ((List.cons_prefix_cons).mp hp).2
    rcases (List.cons_prefix_cons).mp this with ⟨heq, -⟩
    exact absurd heq.symm (ne_of_pred notQt (hvq b2 (List.mem_cons_self b2 vt)) (by decide))
  have h3 : dqTok <:+: (("\"").toList) :=
    occ_skip (not_mem_of_pred notQt hvq (by decide)) hi4
  rcases (List.infix_cons_iff).mp h3 with hp | hi5
  · have := ((List.cons_prefix_cons).mp hp).2
    exact absurd (List.prefix_nil.mp this) (by decide)
  · exact absurd (List.eq_nil_of_infix_nil hi5) (by decide)

end Rewrite

namespace Rewrite

/-- The quote-pair rule of `replace_quotes.py` fires on a plain quoted pair:
it captures the key and the value and produces the single-quoted pair. -/
theorem rulePair_fire {k v : List Char} (hk : k ≠ []) (hv : v ≠ [])
    (hka : k.all notQt = true) (hva : v.all notQt = true) :
    applyRule ReplaceQuotes.rulePair
        ((("\"").toList) ++ (k ++ ((("\": \"").toList) ++ (v ++ (("\"").toList)))))
      = (("'").toList) ++ (k ++ ((("': '").toList) ++ (v ++ (("'").toList)))) := by
  obtain ⟨b, kt, rfl⟩ : ∃ b kt, k = b :: kt := by
    cases k with
    | nil => exact absurd rfl hk
    | cons b kt => exact ⟨b, kt, rfl⟩
  obtain ⟨b2, vt, rfl⟩ : ∃ b2 vt, v = b2 :: vt := by
    cases v with
    | nil => exact absurd rfl hv
    | cons b2 vt => exact ⟨b2, vt, rfl⟩
  have hkq : ∀ c ∈ b :: kt, notQt c = true := List.all_eq_true.mp hka
  have hvq : ∀ c ∈ b2 :: vt, notQt c = true := List.all_eq_true.mp hva
  have top : (fun rem c => some (rem, c)) = fun (rem : List Char) (c : Caps) =>
    (some (rem, c) : Option Res) := rfl
  set caps1 : Caps := setCap capsEmpty 1 (b :: kt) with hc1
  set caps2 : Caps := setCap caps1 2 (b2 :: vt) with hc2
  have m1 : matchR (litsRL (("\"").toList) ++ []) ((("\"").toList) ++ []) caps2
      (fun rem c => some (rem, c)) = some ([], caps2) := by
    rw [matchR_lits_append]
    rfl
  have m2 : matchR (RItem.grp 2 [CItem.cls notQt, CItem.star notQt false]
        :: litsRL (("\"").toList))
      ((b2 :: vt) ++ (("\"").toList)) caps1 (fun rem c => some (rem, c))
      = some ([], caps2) := by
    refine matchR_grpPlus (hvq b2 (List.mem_cons_self b2 vt))
      (fun c hc => hvq c (List.mem_cons_of_mem b2 hc))
      (takeWhile_head_false (by decide) []) ?_
    exact m1
  have m3 : matchR (litsRL (("\"").toList) ++ (RItem.grp 2 [CItem.cls notQt,
        CItem.star notQt false] :: litsRL (("\"").toList)))
      ((("\"").toList) ++ ((b2 :: vt) ++ (("\"").toList))) caps1
      (fun rem c => some (rem, c)) = some ([], caps2) := by
    rw [matchR_lits_append]
    exact m2
  have m4 : matchR (RItem.ch (CItem.star spaceCh false) :: (litsRL (("\"").toList) ++
        (RItem.grp 2 [CItem.cls notQt, CItem.star notQt false] :: litsRL (("\"").toList))))
      (([ ' ' ]) ++ ((("\"").toList) ++ ((b2 :: vt) ++ (("\"").toList)))) caps1
      (fun rem c => some (rem, c)) = some ([], caps2) := by
    refine matchR_starG (by decide) (takeWhile_head_false (by decide) _) ?_
    exact m3
  have m5 : matchR (litsRL (("\":").toList) ++ (RItem.ch (CItem.star spaceCh false) ::
        (litsRL (("\"").toList) ++ (RItem.grp 2 [CItem.cls notQt, CItem.star notQt false]
          :: litsRL (("\"").toList)))))
      ((("\":").toList) ++ (([ ' ' ]) ++ ((("\"").toList) ++ ((b2 :: vt) ++ (("\"").toList)))))
      caps1 (fun rem c => some (rem, c)) = some ([], caps2) := by
    rw [matchR_lits_append]
    exact m4
  have m6 : matchR (RItem.grp 1 [CItem.cls notQt, CItem.star notQt false] ::
        (litsRL (("\":").toList) ++ (RItem.ch (CItem.star spaceCh false) ::
          (litsRL (("\"").toList) ++ (RItem.grp 2 [CItem.cls notQt, CItem.star notQt false]
            :: litsRL (("\"").toList))))))
      ((b :: kt) ++ ((("\":").toList) ++ (([ ' ' ]) ++ ((("\"").toList) ++
        ((b2 :: vt) ++ (("\"").toList)))))) capsEmpty (fun rem c => some (rem, c))
      = some ([], caps2) := by
    refine matchR_grpPlus (hkq b (List.mem_cons_self b kt))
      (fun c hc => hkq c (List.mem_cons_of_mem b hc))
      (takeWhile_head_false (by decide) _) ?_
    exact m5
  have m7 : matchR ReplaceQuotes.rulePair.pat
      ((("\"").toList) ++ ((b :: kt) ++ ((("\": \"").toList) ++ ((b2 :: vt) ++
        (("\"").toList))))) capsEmpty (fun rem c => some (rem, c)) = some ([], caps2) := by
    show matchR (litsRL (("\"").toList) ++ (RItem.grp 1 [CItem.cls notQt,
        CItem.star notQt false] :: (litsRL (("\":").toList) ++
        (RItem.ch (CItem.star spaceCh false) :: (litsRL (("\"").toList) ++
        (RItem.grp 2 [CItem.cls notQt, CItem.star notQt false] ::
          litsRL (("\"").toList)))))))
      ((("\"").toList) ++ ((b :: kt) ++ ((("\":").toList) ++ (([ ' ' ]) ++
        ((("\"").toList) ++ ((b2 :: vt) ++ (("\"").toList))))))) capsEmpty
      (fun rem c => some (rem, c)) = some ([], caps2)
    rw [matchR_lits_append]
    exact m6
  have hfire := applyRule_fire ReplaceQuotes.rulePair (d := '"')
    (t := (b :: kt) ++ ((("\": \"").toList) ++ ((b2 :: vt) ++ (("\"").toList)))) m7 rfl
  rw [show ((("\"").toList) ++ ((b :: kt) ++ ((("\": \"").toList) ++ ((b2 :: vt) ++
    (("\"").toList))))) = ('"' :: ((b :: kt) ++ ((("\": \"").toList) ++ ((b2 :: vt) ++
    (("\"").toList))))) from rfl, hfire]
  show (("'").toList) ++ (caps2 1 ++ ((("': '").toList) ++ (caps2 2 ++
    ((("'").toList) ++ [])))) = _
  rw [hc2, hc1]
  simp [setCap]

end Rewrite

/-- C9: the simple quote normalizer also rewrites ordinary singly-quoted
pairs.  For every non-empty quote-free `k` and `v`, the buffer `"k": "v"`
contains no doubled double quote, yet `replace_double_quotes_in_json` maps it
to `'k': 'v'`, a genuine change. -/
theorem c9_plain_pair_rewrite (k v : List Char) (hk : k ≠ []) (hv : v ≠ [])
    (hka : k.all notQt = true) (hva : v.all notQt = true) :
    occursB dqTok ((("\"").toList) ++ (k ++ ((("\": \"").toList) ++ (v ++ (("\"").toList)))))
        = false ∧
    ReplaceQuotes.replace_double_quotes_in_json
        ((("\"").toList) ++ (k ++ ((("\": \"").toList) ++ (v ++ (("\"").toList)))))
      = (("'").toList) ++ (k ++ ((("': '").toList) ++ (v ++ (("'").toList)))) ∧
    ReplaceQuotes.replace_double_quotes_in_json
        ((("\"").toList) ++ (k ++ ((("\": \"").toList) ++ (v ++ (("\"").toList)))))
      ≠ (("\"").toList) ++ (k ++ ((("\": \"").toList) ++ (v ++ (("\"").toList)))) := by
  have hno := no_dq_in_pair hk hv hka hva
  have hnoop : applyRule ReplaceQuotes.ruleDoubled
      ((("\"").toList) ++ (k ++ ((("\": \"").toList) ++ (v ++ (("\"").toList)))))
      = (("\"").toList) ++ (k ++ ((("\": \"").toList) ++ (v ++ (("\"").toList)))) :=
    applyRule_noop _ [] ([grpPlus 1 notQt] ++ litsR ("\"\"")) (("\"\"").toList) rfl hno
  have heq : ReplaceQuotes.replace_double_quotes_in_json
      ((("\"").toList) ++ (k ++ ((("\": \"").toList) ++ (v ++ (("\"").toList)))))
      = (("'").toList) ++ (k ++ ((("': '").toList) ++ (v ++ (("'").toList)))) := by
    simp only [ReplaceQuotes.replace_double_quotes_in_json, ReplaceQuotes.rules, applyRules,
      List.foldl_cons, List.foldl_nil]
    rw [hnoop]
    exact rulePair_fire hk hv hka hva
  refine ⟨occursB_eq_false_of hno, heq, ?_⟩
  rw [heq]
  intro habs
  have habs2 : ('\'' :: (k ++ ((("': '").toList) ++ (v ++ (("'").toList)))))
      = ('"' :: (k ++ ((("\": \"").toList) ++ (v ++ (("\"").toList))))) := habs
  injection habs2 with h1 _
  exact absurd h1 (by decide)

/-- C9 witness: the two rules map `"id": "start"` to `'id': 'start'` even
though the buffer contains no `""`. -/
theorem c9_plain_pair_rewrite_witness :
    occursB dqTok (("\"id\": \"start\"").toList) = false ∧
    ReplaceQuotes.replace_double_quotes_in_json (("\"id\": \"start\"").toList)
      = ("'id': 'start'").toList ∧
    ReplaceQuotes.replace_double_quotes_in_json (("\"id\": \"start\"").toList)
      ≠ ("\"id\": \"start\"").toList :=
  c9_plain_pair_rewrite (("id").toList) (("start").toList)
    (by decide) (by decide) (by decide) (by decide)

namespace Rewrite

/-- A plain identifier: a letter or underscore followed by word characters.
The receiver classes of the rewrite rules admit more (dots, brackets,
parentheses), but receivers containing a dot can be cut short by the lazy
capture, so the amended claims quantify over plain identifiers. -/
def isIdent (x : List Char) : Bool :=
  match x with
  | [] => false
  | a :: t => identStart a && t.all wordCh

/-- Argument characters that keep a single-argument rule's capture exact:
no closing parenthesis (the class the rules use is `[^)]`) and no dot (so
that no other rule's literal can overlap the argument). -/
def argCh (c : Char) : Bool := (c != ')') && (c != '.')

def argOk (v : List Char) : Bool := !v.isEmpty && v.all argCh

/-- Comma-free, dot-free argument text for the repair rules. -/
def repairArgCh (c : Char) : Bool := (c != ',') && (c != '.')

def repairArgOk (v : List Char) : Bool := !v.isEmpty && v.all repairArgCh

theorem band_left {a b : Bool} (h : (a && b) = true) : a = true := by
  cases a with
  | true => rfl
  | false => cases h

theorem band_right {a b : Bool} (h : (a && b) = true) : b = true := by
  cases a with
  | true => exact h
  | false => cases h

theorem isIdent_parts {x : List Char} (h : isIdent x = true) :
    ∃ a t, x = a :: t ∧ identStart a = true ∧ ∀ c ∈ t, wordCh c = true := by
  cases x with
  | nil => cases h
  | cons a t =>
    exact ⟨a, t, rfl, band_left h, List.all_eq_true.mp (band_right h)⟩

theorem argOk_parts {v : List Char} (h : argOk v = true) :
    ∃ b t, v = b :: t ∧ argCh b = true ∧ ∀ c ∈ t, argCh c = true := by
  cases v with
  | nil => cases h
  | cons b t =>
    have := List.all_eq_true.mp (band_right h)
    exact ⟨b, t, rfl, this b (List.mem_cons_self b t), fun c hc =>
      this c (List.mem_cons_of_mem b hc)⟩

theorem repairArgOk_parts {v : List Char} (h : repairArgOk v = true) :
    ∃ b t, v = b :: t ∧ repairArgCh b = true ∧ ∀ c ∈ t, repairArgCh c = true := by
  cases v with
  | nil => cases h
  | cons b t =>
    have := List.all_eq_true.mp (band_right h)
    exact ⟨b, t, rfl, this b (List.mem_cons_self b t), fun c hc =>
      this c (List.mem_cons_of_mem b hc)⟩

theorem wordCh_rcv {c : Char} (h : wordCh c = true) : rcvCh c = true := by
  rw [rcvCh, h]
  rfl

theorem wordCh_rcvBang {c : Char} (h : wordCh c = true) : rcvBangCh c = true := by
  rw [rcvBangCh, wordCh_rcv h]
  rfl

theorem argCh_notRp {c : Char} (h : argCh c = true) : notRp c = true :=
  band_left h

theorem repairArgCh_notCm {c : Char} (h : repairArgCh c = true) : notCm c = true :=
  band_left h

theorem isIdent_no_dot {x : List Char} (h : isIdent x = true) : '.' ∉ x := by
  obtain ⟨a, t, rfl, ha, ht⟩ := isIdent_parts h
  intro hm
  rcases List.mem_cons.mp hm with rfl | hm
  · rw [show identStart '.' = false by decide] at ha
    cases ha
  · exact absurd (ht _ hm) (by rw [show wordCh '.' = false by decide]; exact fun h => by cases h)

theorem isIdent_no_rp {x : List Char} (h : isIdent x = true) : ')' ∉ x := by
  obtain ⟨a, t, rfl, ha, ht⟩ := isIdent_parts h
  intro hm
  rcases List.mem_cons.mp hm with rfl | hm
  · rw [show identStart ')' = false by decide] at ha
    cases ha
  · exact absurd (ht _ hm) (by rw [show wordCh ')' = false by decide]; exact fun h => by cases h)

theorem argOk_no_dot {v : List Char} (h : argOk v = true) : '.' ∉ v := by
  intro hm
  have := List.all_eq_true.mp (band_right h) _ hm
  rw [show argCh '.' = false by decide] at this
  cases this

theorem argOk_no_rp {v : List Char} (h : argOk v = true) : ')' ∉ v := by
  intro hm
  have := List.all_eq_true.mp (band_right h) _ hm
  rw [show argCh ')' = false by decide] at this
  cases this

theorem all_no_dot {v : List Char} (h : v.all argCh = true) : '.' ∉ v := by
  intro hm
  have := List.all_eq_true.mp h _ hm
  rw [show argCh '.' = false by decide] at this
  cases this

theorem all_no_rp {v : List Char} (h : v.all argCh = true) : ')' ∉ v := by
  intro hm
  have := List.all_eq_true.mp h _ hm
  rw [show argCh ')' = false by decide] at this
  cases this

theorem repairArgOk_no_dot {v : List Char} (h : repairArgOk v = true) : '.' ∉ v := by
  intro hm
  have := List.all_eq_true.mp (band_right h) _ hm
  rw [show repairArgCh '.' = false by decide] at this
  cases this

end Rewrite

set_option maxHeartbeats 1000000 in
/-- C4 counterexample: when the item of the composed rule contains a nested
call, the `[^)]+` capture closes at the first `)`, the composed rule fails to
match, and the generic BeTrue rule fires instead:
`text.Contains(f(1)).Should().BeTrue();` becomes
`Assert.True(text.Contains(f(1)));`, not `Assert.Contains(f(1), text);`. -/
theorem c4_counterexample :
    FixComplex.fix_complex_should_patterns (("text.Contains(f(1)).Should().BeTrue();").toList)
        = ("Assert.True(text.Contains(f(1)));").toList ∧
    FixComplex.fix_complex_should_patterns (("text.Contains(f(1)).Should().BeTrue();").toList)
      ≠ ("Assert.Contains(f(1), text);").toList := by
  exact ⟨by decide, by decide⟩

set_option maxHeartbeats 1000000 in
/-- C6 counterexample: the argument capture of the `Be` rule is `[^)]+`, not
a balanced-parenthesis span.  On `x.Should().Be(Foo(1))` the capture stops at
the first `)` inside `Foo(1)`, producing the mangled
`Assert.Equal(Foo(1, x))` instead of `Assert.Equal(Foo(1), x)`. -/
theorem c6_counterexample :
    FixAll.fix_all_should_patterns (("x.Should().Be(Foo(1))").toList)
        = ("Assert.Equal(Foo(1, x))").toList ∧
    FixAll.fix_all_should_patterns (("x.Should().Be(Foo(1))").toList)
      ≠ ("Assert.Equal(Foo(1), x)").toList := by
  exact ⟨by decide, by decide⟩

set_option maxHeartbeats 1000000 in
/-- C8 counterexample: the repair does not hold for every comma-free argument
text.  If the argument itself contains a fluent call, an earlier rule fires
first and the repair then matches the mangled text:
`actor.Assert.Contains(x.Should().BeTrue(), log)` ends up as
`Assert.True(Assert.Contains(x), actor.log)`, not as
`Assert.Contains(x.Should().BeTrue(), actor.log)`. -/
theorem c8_counterexample :
    FixAll.fix_all_should_patterns
        (("actor.Assert.Contains(x.Should().BeTrue(), log)").toList)
        = ("Assert.True(Assert.Contains(x), actor.log)").toList ∧
    FixAll.fix_all_should_patterns
        (("actor.Assert.Contains(x.Should().BeTrue(), log)").toList)
      ≠ ("Assert.Contains(x.Should().BeTrue(), actor.log)").toList := by
  exact ⟨by decide, by decide⟩

set_option maxHeartbeats 1000000 in
/-- C10 counterexample: the claim fails for receivers drawn from the full
receiver grammar.  With the grammar-matched receiver `b.Should().Be(c` and
argument `m`, the input `b.Should().Be(c.Should().BeTrue(m)` is first
rewritten by the earlier `Be` rule, yielding
`Assert.Equal(c.Should(, b).BeTrue(m)` rather than the claimed
`Assert.True(b.Should().Be(c)`. -/
theorem c10_counterexample :
    FixFinal.fix_all_should_patterns (("b.Should().Be(c.Should().BeTrue(m)").toList)
        = ("Assert.Equal(c.Should(, b).BeTrue(m)").toList ∧
    FixFinal.fix_all_should_patterns (("b.Should().Be(c.Should().BeTrue(m)").toList)
      ≠ ("Assert.True(b.Should().Be(c)").toList := by
  exact ⟨by decide, by decide⟩

namespace Rewrite

theorem matchR_lits_exact : ∀ (w : List Char) (caps : Caps),
    matchR (litsRL w) w caps (fun rem c => some (rem, c)) = some ([], caps) := by
  intro w
  induction w with
  | nil => intro caps; rfl
  | cons c w ih =>
    intro caps
    show matchR (RItem.ch (CItem.lit c) :: litsRL w) (c :: w) caps _ = _
    rw [matchR, matchC, if_pos rfl]
    exact ih caps

/-- The common single-argument rule shape
`(firstClass bodyClass*?) lits (argClass+) lits` matches the intended spans:
the lazy group captures the dot-free receiver, the greedy plus captures the
whole argument run. -/
theorem matchR_shapeA {f p q : CharSet} {i1 i2 : Nat} {g0 : Char}
    {glueT tail : List Char} {a : Char} {rt : List Char} {b : Char} {vt : List Char}
    (hf : f a = true) (hp : ∀ c ∈ rt, p c = true) (hne : ∀ c ∈ rt, c ≠ g0)
    (hb : q b = true) (hv : ∀ c ∈ vt, q c = true) (htail : tail.takeWhile q = []) :
    matchR (RItem.grp i1 [CItem.cls f, CItem.star p true] :: (RItem.ch (CItem.lit g0) ::
        (litsRL glueT ++ (RItem.grp i2 [CItem.cls q, CItem.star q false] :: litsRL tail))))
      ((a :: rt) ++ ((g0 :: glueT) ++ ((b :: vt) ++ tail))) capsEmpty
      (fun rem c => some (rem, c))
      = some ([], setCap (setCap capsEmpty i1 (a :: rt)) i2 (b :: vt)) := by
  have m1 := matchR_lits_exact tail (setCap (setCap capsEmpty i1 (a :: rt)) i2 (b :: vt))
  have m2 : matchR (RItem.grp i2 [CItem.cls q, CItem.star q false] :: litsRL tail)
      ((b :: vt) ++ tail) (setCap capsEmpty i1 (a :: rt)) (fun rem c => some (rem, c))
      = some ([], setCap (setCap capsEmpty i1 (a :: rt)) i2 (b :: vt)) :=
    matchR_grpPlus hb hv htail m1
  have m3 : matchR (litsRL glueT ++ (RItem.grp i2 [CItem.cls q, CItem.star q false] ::
        litsRL tail)) (glueT ++ ((b :: vt) ++ tail)) (setCap capsEmpty i1 (a :: rt))
      (fun rem c => some (rem, c))
      = some ([], setCap (setCap capsEmpty i1 (a :: rt)) i2 (b :: vt)) := by
    rw [matchR_lits_append]
    exact m2
  have m4 : matchR (RItem.ch (CItem.lit g0) :: (litsRL glueT ++
        (RItem.grp i2 [CItem.cls q, CItem.star q false] :: litsRL tail)))
      ((g0 :: glueT) ++ ((b :: vt) ++ tail)) (setCap capsEmpty i1 (a :: rt))
      (fun rem c => some (rem, c))
      = some ([], setCap (setCap capsEmpty i1 (a :: rt)) i2 (b :: vt)) := by
    rw [List.cons_append, matchR, matchC, if_pos rfl]
    exact m3
  rw [List.cons_append]
  exact matchR_grpLazy hf hp hne m4

theorem c6x_dots {X v w : List Char} (hX : '.' ∉ X) (hv : '.' ∉ v)
    (h0 : w[0]? = some '.')
    (h : w <:+: (X ++ ((".Should().Be(").toList ++ (v ++ ((")").toList))))) :
    w <+: ((".Should().Be(").toList ++ (v ++ ((")").toList))) ∨
    w <+: ((".Be(").toList ++ (v ++ ((")").toList))) := by
  obtain ⟨w2, rfl⟩ : ∃ w2, w = '.' :: w2 := by
    cases w with
    | nil => cases h0
    | cons c w2 =>
      refine ⟨w2, ?_⟩
      rw [List.getElem?_cons_zero] at h0
      injection h0 with h0
      rw [h0]
  have h1 := occ_skip hX h
  have e1 : ((".Should().Be(").toList ++ (v ++ ((")").toList)))
      = '.' :: ((("Should()").toList) ++
        ('.' :: ((("Be(").toList) ++ (v ++ ((")").toList))))) := rfl
  rw [e1] at h1
  rcases (List.infix_cons_iff).mp h1 with hp | hi
  · refine Or.inl ?_
    rw [e1]
    exact hp
  have h2 := occ_skip (by decide) hi
  rcases (List.infix_cons_iff).mp h2 with hp | hi2
  · refine Or.inr ?_
    have e2 : ((".Be(").toList ++ (v ++ ((")").toList)))
        = '.' :: ((("Be(").toList) ++ (v ++ ((")").toList))) := rfl
    rw [e2]
    exact hp
  have h3 := occ_skip (by decide : '.' ∉ (("Be(").toList)) hi2
  have h4 := occ_skip hv h3
  rcases (List.infix_cons_iff).mp h4 with hp | hi3
  · exact absurd ((List.cons_prefix_cons).mp hp).1 (by decide)
  · exact absurd (List.eq_nil_of_infix_nil hi3) (by simp)

theorem c6y_absent {X v w : List Char} (hX : '.' ∉ X) (hv : '.' ∉ v)
    (h0 : w[0]? = some '.') (h1 : ∃ c, w[1]? = some c ∧ c ≠ 'E') :
    ¬ w <:+: ((("Assert.Equal(").toList) ++
      (v ++ (((", ").toList) ++ (X ++ ((")").toList))))) := by
  intro h
  obtain ⟨w2, rfl⟩ : ∃ w2, w = '.' :: w2 := by
    cases w with
    | nil => cases h0
    | cons c w2 =>
      refine ⟨w2, ?_⟩
      rw [List.getElem?_cons_zero] at h0
      injection h0 with h0
      rw [h0]
  obtain ⟨c, hc, hcne⟩ := h1
  rw [List.getElem?_cons_succ] at hc
  obtain ⟨w3, rfl⟩ : ∃ w3, w2 = c :: w3 := by
    cases w2 with
    | nil => cases hc
    | cons c2 w3 =>
      refine ⟨w3, ?_⟩
      rw [List.getElem?_cons_zero] at hc
      injection hc with hc
      rw [hc]
  have e1 : ((("Assert.Equal(").toList) ++ (v ++ (((", ").toList) ++ (X ++ ((")").toList)))))
      = (("Assert").toList) ++ ('.' :: ((("Equal(").toList) ++
        (v ++ (((", ").toList) ++ (X ++ ((")").toList)))))) := rfl
  rw [e1] at h
  have h2 := occ_skip (by decide) h
  rcases (List.infix_cons_iff).mp h2 with hp | hi
  · have hp2 := ((List.cons_prefix_cons).mp hp).2
    have e2 : ((("Equal(").toList) ++ (v ++ (((", ").toList) ++ (X ++ ((")").toList)))))
        = 'E' :: ((("qual(").toList) ++ (v ++ (((", ").toList) ++ (X ++ ((")").toList))))) := rfl
    rw [e2] at hp2
    exact hcne ((List.cons_prefix_cons).mp hp2).1
  · have h3 := occ_skip (by decide : '.' ∉ (("Equal(").toList)) hi
    have h4 := occ_skip hv h3
    have h5 := occ_skip (by decide : '.' ∉ ((", ").toList)) h4
    have h6 := occ_skip hX h5
    rcases (List.infix_cons_iff).mp h6 with hp | hi2
    · exact absurd ((List.cons_prefix_cons).mp hp).1 (by decide)
    · exact absurd (List.eq_nil_of_infix_nil hi2) (by simp)

end Rewrite

set_option maxHeartbeats 1000000 in
/-- C6 (amended): the argument of the single-argument rules is captured as
the longest run of non-`)` characters, not as a balanced-parenthesis span.
For every identifier receiver `X` and non-empty argument `v` containing
neither `)` nor `.`, `fix_all_should_patterns` rewrites `X.Should().Be(v)`
to `Assert.Equal(v, X)` with `v` captured whole; an argument containing a
nested call (hence a `)`) closes the match early instead (see the
counterexample). -/
theorem c6_argument_capture_amended (X v : List Char) (hX : isIdent X = true)
    (hv : argOk v = true) :
    FixAll.fix_all_should_patterns
        (X ++ ((".Should().Be(").toList ++ (v ++ ((")").toList))))
      = (("Assert.Equal(").toList) ++ (v ++ (((", ").toList) ++ (X ++ ((")").toList)))) := by
  obtain ⟨a, rt, rfl, ha, hrt⟩ := isIdent_parts hX
  obtain ⟨b, vt, rfl, hb, hvt⟩ := argOk_parts hv
  have hXd : '.' ∉ a :: rt := isIdent_no_dot hX
  have hvd : '.' ∉ b :: vt := argOk_no_dot hv
  have hn1 : applyRule FixAll.ruleNotBeNull
      ((a :: rt) ++ ((".Should().Be(").toList ++ ((b :: vt) ++ ((")").toList))))
      = (a :: rt) ++ ((".Should().Be(").toList ++ ((b :: vt) ++ ((")").toList))) :=
    applyRule_noop _ [grpLazy 1 identStart rcvCh] [] ((".Should().NotBeNull()").toList)
      (by rw [List.append_nil]; rfl)
      (fun h => (c6x_dots hXd hvd (by decide) h).elim
        (fun hp => not_pre_at 10
          (show ((".Should().NotBeNull()").toList)[10]? = some 'N' by decide)
          (show ((".Should().Be(").toList)[10]? = some 'B' by decide) (by decide) hp)
        (fun hp => not_pre_at 1
          (show ((".Should().NotBeNull()").toList)[1]? = some 'S' by decide)
          (show ((".Be(").toList)[1]? = some 'B' by decide) (by decide) hp))
  have hn2 : applyRule FixAll.ruleBeNull
      ((a :: rt) ++ ((".Should().Be(").toList ++ ((b :: vt) ++ ((")").toList))))
      = (a :: rt) ++ ((".Should().Be(").toList ++ ((b :: vt) ++ ((")").toList))) :=
    applyRule_noop _ [grpLazy 1 identStart rcvCh] [] ((".Should().BeNull()").toList)
      (by rw [List.append_nil]; rfl)
      (fun h => (c6x_dots hXd hvd (by decide) h).elim
        (fun hp => not_pre_at 12
          (show ((".Should().BeNull()").toList)[12]? = some 'N' by decide)
          (show ((".Should().Be(").toList)[12]? = some '(' by decide) (by decide) hp)
        (fun hp => not_pre_at 1
          (show ((".Should().BeNull()").toList)[1]? = some 'S' by decide)
          (show ((".Be(").toList)[1]? = some 'B' by decide) (by decide) hp))
  have hm : matchR FixAll.ruleBe.pat
      ((a :: rt) ++ ((".Should().Be(").toList ++ ((b :: vt) ++ ((")").toList))))
      capsEmpty (fun rem c => some (rem, c))
      = some ([], setCap (setCap capsEmpty 1 (a :: rt)) 2 (b :: vt)) :=
    matchR_shapeA ha (fun c hc => wordCh_rcv (hrt c hc))
      (fun c hc => ne_of_pred wordCh (hrt c hc) (by decide))
      (argCh_notRp hb) (fun c hc => argCh_notRp (hvt c hc))
      (takeWhile_head_false (by decide) [])
  have hfire := applyRule_fire FixAll.ruleBe
    (t := rt ++ ((".Should().Be(").toList ++ ((b :: vt) ++ ((")").toList)))) hm rfl
  have hout : inst FixAll.ruleBe.tmpl (setCap (setCap capsEmpty 1 (a :: rt)) 2 (b :: vt))
      = (("Assert.Equal(").toList) ++ ((b :: vt) ++
        (((", ").toList) ++ ((a :: rt) ++ ((")").toList)))) := by
    simp [inst, setCap, FixAll.ruleBe]
  have hfire2 : applyRule FixAll.ruleBe
      ((a :: rt) ++ ((".Should().Be(").toList ++ ((b :: vt) ++ ((")").toList))))
      = (("Assert.Equal(").toList) ++ ((b :: vt) ++
        (((", ").toList) ++ ((a :: rt) ++ ((")").toList)))) := hfire.trans hout
  have hn04 : applyRule FixAll.ruleBeTrue ((("Assert.Equal(").toList) ++ ((b :: vt) ++
      (((", ").toList) ++ ((a :: rt) ++ ((")").toList)))))
      = (("Assert.Equal(").toList) ++ ((b :: vt) ++
        (((", ").toList) ++ ((a :: rt) ++ ((")").toList)))) :=
    applyRule_noop _ [grpLazy 1 identStart rcvCh] [] ((".Should().BeTrue()").toList)
      (by rw [List.append_nil]; rfl)
      (c6y_absent hXd hvd (by decide) ⟨'S', by decide, by decide⟩)
  have hn05 : applyRule FixAll.ruleBeFalse ((("Assert.Equal(").toList) ++ ((b :: vt) ++
      (((", ").toList) ++ ((a :: rt) ++ ((")").toList)))))
      = (("Assert.Equal(").toList) ++ ((b :: vt) ++
        (((", ").toList) ++ ((a :: rt) ++ ((")").toList)))) :=
    applyRule_noop _ [grpLazy 1 identStart rcvCh] [] ((".Should().BeFalse()").toList)
      (by rw [List.append_nil]; rfl)
      (c6y_absent hXd hvd (by decide) ⟨'S', by decide, by decide⟩)
  have hn06 : applyRule FixAll.ruleContain ((("Assert.Equal(").toList) ++ ((b :: vt) ++
      (((", ").toList) ++ ((a :: rt) ++ ((")").toList)))))
      = (("Assert.Equal(").toList) ++ ((b :: vt) ++
        (((", ").toList) ++ ((a :: rt) ++ ((")").toList)))) :=
    applyRule_noop _ [grpLazy 1 identStart rcvCh] ([grpPlus 2 notRp] ++ litsR (")"))
      ((".Should().Contain(").toList) rfl
      (c6y_absent hXd hvd (by decide) ⟨'S', by decide, by decide⟩)
  have hn07 : applyRule FixAll.ruleNotContain ((("Assert.Equal(").toList) ++ ((b :: vt) ++
      (((", ").toList) ++ ((a :: rt) ++ ((")").toList)))))
      = (("Assert.Equal(").toList) ++ ((b :: vt) ++
        (((", ").toList) ++ ((a :: rt) ++ ((")").toList)))) :=
    applyRule_noop _ [grpLazy 1 identStart rcvCh] ([grpPlus 2 notRp] ++ litsR (")"))
      ((".Should().NotContain(").toList) rfl
      (c6y_absent hXd hvd (by decide) ⟨'S', by decide, by decide⟩)
  have hn08 : applyRule FixAll.ruleHaveCount ((("Assert.Equal(").toList) ++ ((b :: vt) ++
      (((", ").toList) ++ ((a :: rt) ++ ((")").toList)))))
      = (("Assert.Equal(").toList) ++ ((b :: vt) ++
        (((", ").toList) ++ ((a :: rt) ++ ((")").toList)))) :=
    applyRule_noop _ [grpLazy 1 identStart rcvCh] ([grpPlus 2 notRp] ++ litsR (")"))
      ((".Should().HaveCount(").toList) rfl
      (c6y_absent hXd hvd (by decide) ⟨'S', by decide, by decide⟩)
  have hn09 : applyRule FixAll.ruleBeEmpty ((("Assert.Equal(").toList) ++ ((b :: vt) ++
      (((", ").toList) ++ ((a :: rt) ++ ((")").toList)))))
      = (("Assert.Equal(").toList) ++ ((b :: vt) ++
        (((", ").toList) ++ ((a :: rt) ++ ((")").toList)))) :=
    applyRule_noop _ [grpLazy 1 identStart rcvCh] [] ((".Should().BeEmpty()").toList)
      (by rw [List.append_nil]; rfl)
      (c6y_absent hXd hvd (by decide) ⟨'S', by decide, by decide⟩)
  have hn10 : applyRule FixAll.ruleNotBeEmpty ((("Assert.Equal(").toList) ++ ((b :: vt) ++
      (((", ").toList) ++ ((a :: rt) ++ ((")").toList)))))
      = (("Assert.Equal(").toList) ++ ((b :: vt) ++
        (((", ").toList) ++ ((a :: rt) ++ ((")").toList)))) :=
    applyRule_noop _ [grpLazy 1 identStart rcvCh] [] ((".Should().NotBeEmpty()").toList)
      (by rw [List.append_nil]; rfl)
      (c6y_absent hXd hvd (by decide) ⟨'S', by decide, by decide⟩)
  have hn11 : applyRule FixAll.ruleBeGreaterThan ((("Assert.Equal(").toList) ++ ((b :: vt) ++
      (((", ").toList) ++ ((a :: rt) ++ ((")").toList)))))
      = (("Assert.Equal(").toList) ++ ((b :: vt) ++
        (((", ").toList) ++ ((a :: rt) ++ ((")").toList)))) :=
    applyRule_noop _ [grpLazy 1 identStart rcvCh] ([grpPlus 2 notRp] ++ litsR (")"))
      ((".Should().BeGreaterThan(").toList) rfl
      (c6y_absent hXd hvd (by decide) ⟨'S', by decide, by decide⟩)
  have hn12 : applyRule FixAll.ruleBeLessThan ((("Assert.Equal(").toList) ++ ((b :: vt) ++
      (((", ").toList) ++ ((a :: rt) ++ ((")").toList)))))
      = (("Assert.Equal(").toList) ++ ((b :: vt) ++
        (((", ").toList) ++ ((a :: rt) ++ ((")").toList)))) :=
    applyRule_noop _ [grpLazy 1 identStart rcvCh] ([grpPlus 2 notRp] ++ litsR (")"))
      ((".Should().BeLessThan(").toList) rfl
      (c6y_absent hXd hvd (by decide) ⟨'S', by decide, by decide⟩)
  have hn13 : applyRule FixAll.ruleBeGreaterOrEqualTo ((("Assert.Equal(").toList) ++
      ((b :: vt) ++ (((", ").toList) ++ ((a :: rt) ++ ((")").toList)))))
      = (("Assert.Equal(").toList) ++ ((b :: vt) ++
        (((", ").toList) ++ ((a :: rt) ++ ((")").toList)))) :=
    applyRule_noop _ [grpLazy 1 identStart rcvCh] ([grpPlus 2 notRp] ++ litsR (")"))
      ((".Should().BeGreaterOrEqualTo(").toList) rfl
      (c6y_absent hXd hvd (by decide) ⟨'S', by decide, by decide⟩)
  have hn14 : applyRule FixAll.ruleStartWith ((("Assert.Equal(").toList) ++ ((b :: vt) ++
      (((", ").toList) ++ ((a :: rt) ++ ((")").toList)))))
      = (("Assert.Equal(").toList) ++ ((b :: vt) ++
        (((", ").toList) ++ ((a :: rt) ++ ((")").toList)))) :=
    applyRule_noop _ [grpLazy 1 identStart rcvCh] ([grpPlus 2 notRp] ++ litsR (")"))
      ((".Should().StartWith(").toList) rfl
      (c6y_absent hXd hvd (by decide) ⟨'S', by decide, by decide⟩)
  have hn15 : applyRule FixAll.ruleEndWith ((("Assert.Equal(").toList) ++ ((b :: vt) ++
      (((", ").toList) ++ ((a :: rt) ++ ((")").toList)))))
      = (("Assert.Equal(").toList) ++ ((b :: vt) ++
        (((", ").toList) ++ ((a :: rt) ++ ((")").toList)))) :=
    applyRule_noop _ [grpLazy 1 identStart rcvCh] ([grpPlus 2 notRp] ++ litsR (")"))
      ((".Should().EndWith(").toList) rfl
      (c6y_absent hXd hvd (by decide) ⟨'S', by decide, by decide⟩)
  have hn16 : applyRule FixAll.ruleBeEquivalentTo ((("Assert.Equal(").toList) ++ ((b :: vt) ++
      (((", ").toList) ++ ((a :: rt) ++ ((")").toList)))))
      = (("Assert.Equal(").toList) ++ ((b :: vt) ++
        (((", ").toList) ++ ((a :: rt) ++ ((")").toList)))) :=
    applyRule_noop _ [grpLazy 1 identStart rcvCh] ([grpPlus 2 notRp] ++ litsR (")"))
      ((".Should().BeEquivalentTo(").toList) rfl
      (c6y_absent hXd hvd (by decide) ⟨'S', by decide, by decide⟩)
  have hn17 : applyRule FixAll.ruleNotBe ((("Assert.Equal(").toList) ++ ((b :: vt) ++
      (((", ").toList) ++ ((a :: rt) ++ ((")").toList)))))
      = (("Assert.Equal(").toList) ++ ((b :: vt) ++
        (((", ").toList) ++ ((a :: rt) ++ ((")").toList)))) :=
    applyRule_noop _ [grpLazy 1 identStart rcvCh] ([grpPlus 2 notRp] ++ litsR (")"))
      ((".Should().NotBe(").toList) rfl
      (c6y_absent hXd hvd (by decide) ⟨'S', by decide, by decide⟩)
  have hn18 : applyRule FixAll.ruleRepairContains ((("Assert.Equal(").toList) ++ ((b :: vt) ++
      (((", ").toList) ++ ((a :: rt) ++ ((")").toList)))))
      = (("Assert.Equal(").toList) ++ ((b :: vt) ++
        (((", ").toList) ++ ((a :: rt) ++ ((")").toList)))) :=
    applyRule_noop _ [grpLazy 1 identStart wordCh]
      ([grpPlus 2 notCm] ++ litsR (", ") ++ [grpLazy 3 identStart wordCh] ++ litsR (")"))
      ((".Assert.Contains(").toList) rfl
      (c6y_absent hXd hvd (by decide) ⟨'A', by decide, by decide⟩)
  have hn19 : applyRule FixAll.ruleRepairEqual ((("Assert.Equal(").toList) ++ ((b :: vt) ++
      (((", ").toList) ++ ((a :: rt) ++ ((")").toList)))))
      = (("Assert.Equal(").toList) ++ ((b :: vt) ++
        (((", ").toList) ++ ((a :: rt) ++ ((")").toList)))) :=
    applyRule_noop _ [grpLazy 1 identStart wordCh]
      ([grpPlus 2 notCm] ++ litsR (", ") ++ [grpLazy 3 identStart wordCh] ++ litsR (")"))
      ((".Assert.Equal(").toList) rfl
      (c6y_absent hXd hvd (by decide) ⟨'A', by decide, by decide⟩)
  have hn20 : applyRule FixAll.rulePingHits ((("Assert.Equal(").toList) ++ ((b :: vt) ++
      (((", ").toList) ++ ((a :: rt) ++ ((")").toList)))))
      = (("Assert.Equal(").toList) ++ ((b :: vt) ++
        (((", ").toList) ++ ((a :: rt) ++ ((")").toList)))) :=
    applyRule_noop_marker _ [] ([grpPlus 1 notRp] ++ litsR (")"))
      (("pingHits.Assert.Contains(").toList) ((".Assert.").toList) rfl (by decide)
      (c6y_absent hXd hvd (by decide) ⟨'A', by decide, by decide⟩)
  have hn21 : applyRule FixAll.rulePongHits ((("Assert.Equal(").toList) ++ ((b :: vt) ++
      (((", ").toList) ++ ((a :: rt) ++ ((")").toList)))))
      = (("Assert.Equal(").toList) ++ ((b :: vt) ++
        (((", ").toList) ++ ((a :: rt) ++ ((")").toList)))) :=
    applyRule_noop_marker _ [] ([grpPlus 1 notRp] ++ litsR (")"))
      (("pongHits.Assert.Contains(").toList) ((".Assert.").toList) rfl (by decide)
      (c6y_absent hXd hvd (by decide) ⟨'A', by decide, by decide⟩)
  simp only [FixAll.fix_all_should_patterns, FixAll.rules, applyRules, List.foldl_cons,
    List.foldl_nil]
  rw [hn1, hn2, hfire2, hn04, hn05, hn06, hn07, hn08, hn09, hn10, hn11, hn12, hn13, hn14,
    hn15, hn16, hn17, hn18, hn19, hn20, hn21]

/-- C6 witness: the amended capture at a concrete receiver and argument. -/
theorem c6_argument_capture_amended_witness :
    FixAll.fix_all_should_patterns
        ((("x").toList) ++ ((".Should().Be(").toList ++ ((("value").toList) ++ ((")").toList))))
      = (("Assert.Equal(").toList) ++ ((("value").toList) ++
        (((", ").toList) ++ ((("x").toList) ++ ((")").toList)))) :=
  c6_argument_capture_amended (("x").toList) (("value").toList) (by decide) (by decide)

namespace Rewrite

theorem dots2_split (g1 g2 : List Char) {X v w : List Char} (hX : '.' ∉ X)
    (hg1 : '.' ∉ g1) (hg2 : '.' ∉ g2) (hv : '.' ∉ v)
    (h : w <:+: (X ++ ('.' :: (g1 ++ ('.' :: (g2 ++ v)))))) (h0 : w[0]? = some '.') :
    w <+: ('.' :: (g1 ++ ('.' :: (g2 ++ v)))) ∨ w <+: ('.' :: (g2 ++ v)) := by
  obtain ⟨w2, rfl⟩ : ∃ w2, w = '.' :: w2 := by
    cases w with
    | nil => cases h0
    | cons c w2 =>
      refine ⟨w2, ?_⟩
      rw [List.getElem?_cons_zero] at h0
      injection h0 with h0
      rw [h0]
  have h1 := occ_skip hX h
  rcases (List.infix_cons_iff).mp h1 with hp | hi
  · exact Or.inl hp
  have h2 := occ_skip hg1 hi
  rcases (List.infix_cons_iff).mp h2 with hp | hi2
  · exact Or.inr hp
  have h3 := occ_skip hg2 hi2
  exact absurd (h3.subset (List.mem_cons_self _ _)) hv

theorem dot1_absent (P : List Char) (e : Char) (g : List Char) {Q w : List Char}
    (hP : '.' ∉ P) (hg : '.' ∉ (e :: g)) (hQ : '.' ∉ Q)
    (h0 : w[0]? = some '.') (h1 : ∃ c, w[1]? = some c ∧ c ≠ e) :
    ¬ w <:+: (P ++ ('.' :: (e :: (g ++ Q)))) := by
  intro h
  obtain ⟨w2, rfl⟩ : ∃ w2, w = '.' :: w2 := by
    cases w with
    | nil => cases h0
    | cons c w2 =>
      refine ⟨w2, ?_⟩
      rw [List.getElem?_cons_zero] at h0
      injection h0 with h0
      rw [h0]
  obtain ⟨c, hc, hcne⟩ := h1
  rw [List.getElem?_cons_succ] at hc
  obtain ⟨w3, rfl⟩ : ∃ w3, w2 = c :: w3 := by
    cases w2 with
    | nil => cases hc
    | cons c2 w3 =>
      refine ⟨w3, ?_⟩
      rw [List.getElem?_cons_zero] at hc
      injection hc with hc
      rw [hc]
  have h2 := occ_skip hP h
  rcases (List.infix_cons_iff).mp h2 with hp | hi
  · exact hcne ((List.cons_prefix_cons).mp ((List.cons_prefix_cons).mp hp).2).1
  · have h3 : ('.' :: c :: w3) <:+: Q := occ_skip hg hi
    exact absurd (h3.subset (List.mem_cons_self _ _)) hQ

theorem noop_on_shapeB (R : Rule) (pre post : List RItem) (w g1 g2 : List Char)
    {X v : List Char}
    (hpat : R.pat = pre ++ (litsRL w ++ post))
    (hX : '.' ∉ X) (hg1 : '.' ∉ g1) (hg2 : '.' ∉ g2) (hv : '.' ∉ v)
    (h0 : w[0]? = some '.')
    (n1 : Nat) (c1 d1 : Char) (hw1 : w[n1]? = some c1)
    (hu1 : ('.' :: (g1 ++ ('.' :: g2)))[n1]? = some d1) (hne1 : c1 ≠ d1)
    (n2 : Nat) (c2 d2 : Char) (hw2 : w[n2]? = some c2)
    (hu2 : ('.' :: g2)[n2]? = some d2) (hne2 : c2 ≠ d2) :
    applyRule R (X ++ ('.' :: (g1 ++ ('.' :: (g2 ++ v)))))
      = X ++ ('.' :: (g1 ++ ('.' :: (g2 ++ v)))) := by
  apply applyRule_noop R pre post w hpat
  intro h
  rcases dots2_split g1 g2 hX hg1 hg2 hv h h0 with hp | hp
  · have e : ('.' :: (g1 ++ ('.' :: (g2 ++ v)))) = ('.' :: (g1 ++ ('.' :: g2))) ++ v := by
      simp
    rw [e] at hp
    exact not_pre_at n1 hw1 hu1 hne1 hp
  · exact not_pre_at n2 hw2 hu2 hne2 hp

end Rewrite

set_option maxHeartbeats 1000000 in
/-- C10 (amended): the final-pass BeTrue/BeFalse rules do silently discard
the argument, but only for receivers that are plain identifiers (the claim's
quantification over the full receiver grammar fails, see the counterexample):
for every identifier `X` and non-empty argument `a` containing neither `)`
nor `.`, `fix_all_should_patterns` of `fix_final_should.py` rewrites
`X.Should().BeTrue(a)` to `Assert.True(X)` and `X.Should().BeFalse(a)` to
`Assert.False(X)`, dropping `a` from the output. -/
theorem c10_drop_argument_amended (X a : List Char) (hX : isIdent X = true)
    (ha : argOk a = true) :
    (FixFinal.fix_all_should_patterns
        (X ++ ((".Should().BeTrue(").toList ++ (a ++ ((")").toList))))
      = (("Assert.True(").toList) ++ (X ++ ((")").toList))) ∧
    (FixFinal.fix_all_should_patterns
        (X ++ ((".Should().BeFalse(").toList ++ (a ++ ((")").toList))))
      = (("Assert.False(").toList) ++ (X ++ ((")").toList))) := by
  obtain ⟨d, rt, rfl, hd, hrt⟩ := isIdent_parts hX
  obtain ⟨b, vt, rfl, hb, hvt⟩ := argOk_parts ha
  have hXd : '.' ∉ d :: rt := isIdent_no_dot hX
  have had : '.' ∉ b :: vt := argOk_no_dot ha
  have hvp : '.' ∉ ((b :: vt) ++ ((")").toList)) := by
    intro hm
    rcases List.mem_append.mp hm with hm | hm
    · exact had hm
    · exact absurd hm (by decide)
  have hQd : '.' ∉ ((d :: rt) ++ ((")").toList)) := by
    intro hm
    rcases List.mem_append.mp hm with hm | hm
    · exact hXd hm
    · exact absurd hm (by decide)
  have hrtB : ∀ c ∈ rt, rcvBangCh c = true := fun c hc => wordCh_rcvBang (hrt c hc)
  have hrtNe : ∀ c ∈ rt, c ≠ '.' := fun c hc => ne_of_pred wordCh (hrt c hc) (by decide)
  have hbv : ∀ c ∈ (b :: vt), notRp c = true := by
    intro c hc
    rcases List.mem_cons.mp hc with h | h
    · rw [h]
      exact argCh_notRp hb
    · exact argCh_notRp (hvt c h)
  refine ⟨?_, ?_⟩
  · have hn1 : applyRule FixFinal.ruleNotBeNull
        ((d :: rt) ++ ((".Should().BeTrue(").toList ++ ((b :: vt) ++ ((")").toList))))
        = (d :: rt) ++ ((".Should().BeTrue(").toList ++ ((b :: vt) ++ ((")").toList))) :=
      noop_on_shapeB FixFinal.ruleNotBeNull [grpLazy 1 identStart rcvBangCh] []
        ((".Should().NotBeNull()").toList) (("Should()").toList) (("BeTrue(").toList)
        (by rw [List.append_nil]; rfl) hXd (by decide) (by decide) hvp (by decide)
        10 'N' 'B' (by decide) (by decide) (by decide)
        1 'S' 'B' (by decide) (by decide) (by decide)
    have hn2 : applyRule FixFinal.ruleBeNull
        ((d :: rt) ++ ((".Should().BeTrue(").toList ++ ((b :: vt) ++ ((")").toList))))
        = (d :: rt) ++ ((".Should().BeTrue(").toList ++ ((b :: vt) ++ ((")").toList))) :=
      noop_on_shapeB FixFinal.ruleBeNull [grpLazy 1 identStart rcvBangCh] []
        ((".Should().BeNull()").toList) (("Should()").toList) (("BeTrue(").toList)
        (by rw [List.append_nil]; rfl) hXd (by decide) (by decide) hvp (by decide)
        12 'N' 'T' (by decide) (by decide) (by decide)
        1 'S' 'B' (by decide) (by decide) (by decide)
    have hn3 : applyRule FixFinal.ruleBe
        ((d :: rt) ++ ((".Should().BeTrue(").toList ++ ((b :: vt) ++ ((")").toList))))
        = (d :: rt) ++ ((".Should().BeTrue(").toList ++ ((b :: vt) ++ ((")").toList))) :=
      noop_on_shapeB FixFinal.ruleBe [grpLazy 1 identStart rcvBangCh]
        ([grpPlus 2 notRp] ++ litsR (")"))
        ((".Should().Be(").toList) (("Should()").toList) (("BeTrue(").toList)
        rfl hXd (by decide) (by decide) hvp (by decide)
        12 '(' 'T' (by decide) (by decide) (by decide)
        1 'S' 'B' (by decide) (by decide) (by decide)
    have hn4 : applyRule FixFinal.ruleNotBe
        ((d :: rt) ++ ((".Should().BeTrue(").toList ++ ((b :: vt) ++ ((")").toList))))
        = (d :: rt) ++ ((".Should().BeTrue(").toList ++ ((b :: vt) ++ ((")").toList))) :=
      noop_on_shapeB FixFinal.ruleNotBe [grpLazy 1 identStart rcvBangCh]
        ([grpPlus 2 notRp] ++ litsR (")"))
        ((".Should().NotBe(").toList) (("Should()").toList) (("BeTrue(").toList)
        rfl hXd (by decide) (by decide) hvp (by decide)
        10 'N' 'B' (by decide) (by decide) (by decide)
        1 'S' 'B' (by decide) (by decide) (by decide)
    have hn5 : applyRule FixFinal.ruleContain
        ((d :: rt) ++ ((".Should().BeTrue(").toList ++ ((b :: vt) ++ ((")").toList))))
        = (d :: rt) ++ ((".Should().BeTrue(").toList ++ ((b :: vt) ++ ((")").toList))) :=
      noop_on_shapeB FixFinal.ruleContain [grpLazy 1 identStart rcvBangCh]
        ([grpPlus 2 notRp] ++ litsR (")"))
        ((".Should().Contain(").toList) (("Should()").toList) (("BeTrue(").toList)
        rfl hXd (by decide) (by decide) hvp (by decide)
        10 'C' 'B' (by decide) (by decide) (by decide)
        1 'S' 'B' (by decide) (by decide) (by decide)
    have hn6 : applyRule FixFinal.ruleBeGreaterThan
        ((d :: rt) ++ ((".Should().BeTrue(").toList ++ ((b :: vt) ++ ((")").toList))))
        = (d :: rt) ++ ((".Should().BeTrue(").toList ++ ((b :: vt) ++ ((")").toList))) :=
      noop_on_shapeB FixFinal.ruleBeGreaterThan [grpLazy 1 identStart rcvBangCh]
        ([grpPlus 2 notRp] ++ litsR (")"))
        ((".Should().BeGreaterThan(").toList) (("Should()").toList) (("BeTrue(").toList)
        rfl hXd (by decide) (by decide) hvp (by decide)
        12 'G' 'T' (by decide) (by decide) (by decide)
        1 'S' 'B' (by decide) (by decide) (by decide)
    have hn7 : applyRule FixFinal.ruleBeGreaterThanOrEqualTo
        ((d :: rt) ++ ((".Should().BeTrue(").toList ++ ((b :: vt) ++ ((")").toList))))
        = (d :: rt) ++ ((".Should().BeTrue(").toList ++ ((b :: vt) ++ ((")").toList))) :=
      noop_on_shapeB FixFinal.ruleBeGreaterThanOrEqualTo [grpLazy 1 identStart rcvBangCh]
        ([grpPlus 2 notRp] ++ litsR (")"))
        ((".Should().BeGreaterThanOrEqualTo(").toList) (("Should()").toList)
        (("BeTrue(").toList)
        rfl hXd (by decide) (by decide) hvp (by decide)
        12 'G' 'T' (by decide) (by decide) (by decide)
        1 'S' 'B' (by decide) (by decide) (by decide)
    have hn8 : applyRule FixFinal.ruleBeLessThan
        ((d :: rt) ++ ((".Should().BeTrue(").toList ++ ((b :: vt) ++ ((")").toList))))
        = (d :: rt) ++ ((".Should().BeTrue(").toList ++ ((b :: vt) ++ ((")").toList))) :=
      noop_on_shapeB FixFinal.ruleBeLessThan [grpLazy 1 identStart rcvBangCh]
        ([grpPlus 2 notRp] ++ litsR (")"))
        ((".Should().BeLessThan(").toList) (("Should()").toList) (("BeTrue(").toList)
        rfl hXd (by decide) (by decide) hvp (by decide)
        12 'L' 'T' (by decide) (by decide) (by decide)
        1 'S' 'B' (by decide) (by decide) (by decide)
    have hn9 : applyRule FixFinal.ruleBeLessThanOrEqualTo
        ((d :: rt) ++ ((".Should().BeTrue(").toList ++ ((b :: vt) ++ ((")").toList))))
        = (d :: rt) ++ ((".Should().BeTrue(").toList ++ ((b :: vt) ++ ((")").toList))) :=
      noop_on_shapeB FixFinal.ruleBeLessThanOrEqualTo [grpLazy 1 identStart rcvBangCh]
        ([grpPlus 2 notRp] ++ litsR (")"))
        ((".Should().BeLessThanOrEqualTo(").toList) (("Should()").toList)
        (("BeTrue(").toList)
        rfl hXd (by decide) (by decide) hvp (by decide)
        12 'L' 'T' (by decide) (by decide) (by decide)
        1 'S' 'B' (by decide) (by decide) (by decide)
    have hs1T : matchR (RItem.ch (CItem.lit '.') :: (litsRL (("Should().BeTrue(").toList) ++
        (RItem.ch (CItem.star notRp false) :: litsRL ((")").toList))))
        ((".Should().BeTrue(").toList ++ ((b :: vt) ++ ((")").toList)))
        (setCap capsEmpty 1 (d :: rt)) (fun rem c => some (rem, c))
        = some ([], setCap capsEmpty 1 (d :: rt)) := by
      have h1 := matchR_lits_append ((".Should().BeTrue(").toList)
        (RItem.ch (CItem.star notRp false) :: litsRL ((")").toList))
        ((b :: vt) ++ ((")").toList))
        (setCap capsEmpty 1 (d :: rt)) (fun rem c => some (rem, c))
      exact h1.trans (matchR_starG hbv (takeWhile_head_false (by decide) [])
        (matchR_lits_exact _ _))
    have hmT : matchR FixFinal.ruleBeTrue.pat
        ((d :: rt) ++ ((".Should().BeTrue(").toList ++ ((b :: vt) ++ ((")").toList))))
        capsEmpty (fun rem c => some (rem, c))
        = some ([], setCap capsEmpty 1 (d :: rt)) :=
      matchR_grpLazy hd hrtB hrtNe hs1T
    have hfT : applyRule FixFinal.ruleBeTrue
        ((d :: rt) ++ ((".Should().BeTrue(").toList ++ ((b :: vt) ++ ((")").toList))))
        = inst FixFinal.ruleBeTrue.tmpl (setCap capsEmpty 1 (d :: rt)) :=
      applyRule_fire _ hmT rfl
    have houtT : inst FixFinal.ruleBeTrue.tmpl (setCap capsEmpty 1 (d :: rt))
        = (("Assert.True(").toList) ++ ((d :: rt) ++ ((")").toList)) := by
      simp [inst, setCap, FixFinal.ruleBeTrue]
    have hfire2T : applyRule FixFinal.ruleBeTrue
        ((d :: rt) ++ ((".Should().BeTrue(").toList ++ ((b :: vt) ++ ((")").toList))))
        = (("Assert.True(").toList) ++ ((d :: rt) ++ ((")").toList)) := hfT.trans houtT
    have hn11 : applyRule FixFinal.ruleBeFalse
        ((("Assert.True(").toList) ++ ((d :: rt) ++ ((")").toList)))
        = (("Assert.True(").toList) ++ ((d :: rt) ++ ((")").toList)) :=
      applyRule_noop _ [grpLazy 1 identStart rcvBangCh] ([starG notRp] ++ litsR (")"))
        ((".Should().BeFalse(").toList) rfl
        (dot1_absent (("Assert").toList) 'T' (("rue(").toList) (by decide) (by decide)
          hQd (by decide) ⟨'S', by decide, by decide⟩)
    have hn12 : applyRule FixFinal.ruleIsTernary
        ((("Assert.True(").toList) ++ ((d :: rt) ++ ((")").toList)))
        = (("Assert.True(").toList) ++ ((d :: rt) ++ ((")").toList)) :=
      applyRule_noop_marker _
        (litsR ("(") ++ [RItem.grp 1 [CItem.star notRp false, CItem.lit 'i', CItem.lit 's',
          CItem.star notRp false, CItem.lit '?', CItem.star notRp false, CItem.lit ':',
          CItem.star notRp false]])
        ([grpPlus 2 notRp] ++ litsR (")"))
        ((").Should().Be(").toList) ((".Should()").toList) rfl (by decide)
        (dot1_absent (("Assert").toList) 'T' (("rue(").toList) (by decide) (by decide)
          hQd (by decide) ⟨'S', by decide, by decide⟩)
    simp only [FixFinal.fix_all_should_patterns, FixFinal.rules, applyRules,
      List.foldl_cons, List.foldl_nil]
    rw [hn1, hn2, hn3, hn4, hn5, hn6, hn7, hn8, hn9, hfire2T, hn11, hn12]
  · have hn1 : applyRule FixFinal.ruleNotBeNull
        ((d :: rt) ++ ((".Should().BeFalse(").toList ++ ((b :: vt) ++ ((")").toList))))
        = (d :: rt) ++ ((".Should().BeFalse(").toList ++ ((b :: vt) ++ ((")").toList))) :=
      noop_on_shapeB FixFinal.ruleNotBeNull [grpLazy 1 identStart rcvBangCh] []
        ((".Should().NotBeNull()").toList) (("Should()").toList) (("BeFalse(").toList)
        (by rw [List.append_nil]; rfl) hXd (by decide) (by decide) hvp (by decide)
        10 'N' 'B' (by decide) (by decide) (by decide)
        1 'S' 'B' (by decide) (by decide) (by decide)
    have hn2 : applyRule FixFinal.ruleBeNull
        ((d :: rt) ++ ((".Should().BeFalse(").toList ++ ((b :: vt) ++ ((")").toList))))
        = (d :: rt) ++ ((".Should().BeFalse(").toList ++ ((b :: vt) ++ ((")").toList))) :=
      noop_on_shapeB FixFinal.ruleBeNull [grpLazy 1 identStart rcvBangCh] []
        ((".Should().BeNull()").toList) (("Should()").toList) (("BeFalse(").toList)
        (by rw [List.append_nil]; rfl) hXd (by decide) (by decide) hvp (by decide)
        12 'N' 'F' (by decide) (by decide) (by decide)
        1 'S' 'B' (by decide) (by decide) (by decide)
    have hn3 : applyRule FixFinal.ruleBe
        ((d :: rt) ++ ((".Should().BeFalse(").toList ++ ((b :: vt) ++ ((")").toList))))
        = (d :: rt) ++ ((".Should().BeFalse(").toList ++ ((b :: vt) ++ ((")").toList))) :=
      noop_on_shapeB FixFinal.ruleBe [grpLazy 1 identStart rcvBangCh]
        ([grpPlus 2 notRp] ++ litsR (")"))
        ((".Should().Be(").toList) (("Should()").toList) (("BeFalse(").toList)
        rfl hXd (by decide) (by decide) hvp (by decide)
        12 '(' 'F' (by decide) (by decide) (by decide)
        1 'S' 'B' (by decide) (by decide) (by decide)
    have hn4 : applyRule FixFinal.ruleNotBe
        ((d :: rt) ++ ((".Should().BeFalse(").toList ++ ((b :: vt) ++ ((")").toList))))
        = (d :: rt) ++ ((".Should().BeFalse(").toList ++ ((b :: vt) ++ ((")").toList))) :=
      noop_on_shapeB FixFinal.ruleNotBe [grpLazy 1 identStart rcvBangCh]
        ([grpPlus 2 notRp] ++ litsR (")"))
        ((".Should().NotBe(").toList) (("Should()").toList) (("BeFalse(").toList)
        rfl hXd (by decide) (by decide) hvp (by decide)
        10 'N' 'B' (by decide) (by decide) (by decide)
        1 'S' 'B' (by decide) (by decide) (by decide)
    have hn5 : applyRule FixFinal.ruleContain
        ((d :: rt) ++ ((".Should().BeFalse(").toList ++ ((b :: vt) ++ ((")").toList))))
        = (d :: rt) ++ ((".Should().BeFalse(").toList ++ ((b :: vt) ++ ((")").toList))) :=
      noop_on_shapeB FixFinal.ruleContain [grpLazy 1 identStart rcvBangCh]
        ([grpPlus 2 notRp] ++ litsR (")"))
        ((".Should().Contain(").toList) (("Should()").toList) (("BeFalse(").toList)
        rfl hXd (by decide) (by decide) hvp (by decide)
        10 'C' 'B' (by decide) (by decide) (by decide)
        1 'S' 'B' (by decide) (by decide) (by decide)
    have hn6 : applyRule FixFinal.ruleBeGreaterThan
        ((d :: rt) ++ ((".Should().BeFalse(").toList ++ ((b :: vt) ++ ((")").toList))))
        = (d :: rt) ++ ((".Should().BeFalse(").toList ++ ((b :: vt) ++ ((")").toList))) :=
      noop_on_shapeB FixFinal.ruleBeGreaterThan [grpLazy 1 identStart rcvBangCh]
        ([grpPlus 2 notRp] ++ litsR (")"))
        ((".Should().BeGreaterThan(").toList) (("Should()").toList) (("BeFalse(").toList)
        rfl hXd (by decide) (by decide) hvp (by decide)
        12 'G' 'F' (by decide) (by decide) (by decide)
        1 'S' 'B' (by decide) (by decide) (by decide)
    have hn7 : applyRule FixFinal.ruleBeGreaterThanOrEqualTo
        ((d :: rt) ++ ((".Should().BeFalse(").toList ++ ((b :: vt) ++ ((")").toList))))
        = (d :: rt) ++ ((".Should().BeFalse(").toList ++ ((b :: vt) ++ ((")").toList))) :=
      noop_on_shapeB FixFinal.ruleBeGreaterThanOrEqualTo [grpLazy 1 identStart rcvBangCh]
        ([grpPlus 2 notRp] ++ litsR (")"))
        ((".Should().BeGreaterThanOrEqualTo(").toList) (("Should()").toList)
        (("BeFalse(").toList)
        rfl hXd (by decide) (by decide) hvp (by decide)
        12 'G' 'F' (by decide) (by decide) (by decide)
        1 'S' 'B' (by decide) (by decide) (by decide)
    have hn8 : applyRule FixFinal.ruleBeLessThan
        ((d :: rt) ++ ((".Should().BeFalse(").toList ++ ((b :: vt) ++ ((")").toList))))
        = (d :: rt) ++ ((".Should().BeFalse(").toList ++ ((b :: vt) ++ ((")").toList))) :=
      noop_on_shapeB FixFinal.ruleBeLessThan [grpLazy 1 identStart rcvBangCh]
        ([grpPlus 2 notRp] ++ litsR (")"))
        ((".Should().BeLessThan(").toList) (("Should()").toList) (("BeFalse(").toList)
        rfl hXd (by decide) (by decide) hvp (by decide)
        12 'L' 'F' (by decide) (by decide) (by decide)
        1 'S' 'B' (by decide) (by decide) (by decide)
    have hn9 : applyRule FixFinal.ruleBeLessThanOrEqualTo
        ((d :: rt) ++ ((".Should().BeFalse(").toList ++ ((b :: vt) ++ ((")").toList))))
        = (d :: rt) ++ ((".Should().BeFalse(").toList ++ ((b :: vt) ++ ((")").toList))) :=
      noop_on_shapeB FixFinal.ruleBeLessThanOrEqualTo [grpLazy 1 identStart rcvBangCh]
        ([grpPlus 2 notRp] ++ litsR (")"))
        ((".Should().BeLessThanOrEqualTo(").toList) (("Should()").toList)
        (("BeFalse(").toList)
        rfl hXd (by decide) (by decide) hvp (by decide)
        12 'L' 'F' (by decide) (by decide) (by decide)
        1 'S' 'B' (by decide) (by decide) (by decide)
    have hn10 : applyRule FixFinal.ruleBeTrue
        ((d :: rt) ++ ((".Should().BeFalse(").toList ++ ((b :: vt) ++ ((")").toList))))
        = (d :: rt) ++ ((".Should().BeFalse(").toList ++ ((b :: vt) ++ ((")").toList))) :=
      noop_on_shapeB FixFinal.ruleBeTrue [grpLazy 1 identStart rcvBangCh]
        ([starG notRp] ++ litsR (")"))
        ((".Should().BeTrue(").toList) (("Should()").toList) (("BeFalse(").toList)
        rfl hXd (by decide) (by decide) hvp (by decide)
        12 'T' 'F' (by decide) (by decide) (by decide)
        1 'S' 'B' (by decide) (by decide) (by decide)
    have hs1F : matchR (RItem.ch (CItem.lit '.') :: (litsRL (("Should().BeFalse(").toList) ++
        (RItem.ch (CItem.star notRp false) :: litsRL ((")").toList))))
        ((".Should().BeFalse(").toList ++ ((b :: vt) ++ ((")").toList)))
        (setCap capsEmpty 1 (d :: rt)) (fun rem c => some (rem, c))
        = some ([], setCap capsEmpty 1 (d :: rt)) := by
      have h1 := matchR_lits_append ((".Should().BeFalse(").toList)
        (RItem.ch (CItem.star notRp false) :: litsRL ((")").toList))
        ((b :: vt) ++ ((")").toList))
        (setCap capsEmpty 1 (d :: rt)) (fun rem c => some (rem, c))
      exact h1.trans (matchR_starG hbv (takeWhile_head_false (by decide) [])
        (matchR_lits_exact _ _))
    have hmF : matchR FixFinal.ruleBeFalse.pat
        ((d :: rt) ++ ((".Should().BeFalse(").toList ++ ((b :: vt) ++ ((")").toList))))
        capsEmpty (fun rem c => some (rem, c))
        = some ([], setCap capsEmpty 1 (d :: rt)) :=
      matchR_grpLazy hd hrtB hrtNe hs1F
    have hfF : applyRule FixFinal.ruleBeFalse
        ((d :: rt) ++ ((".Should().BeFalse(").toList ++ ((b :: vt) ++ ((")").toList))))
        = inst FixFinal.ruleBeFalse.tmpl (setCap capsEmpty 1 (d :: rt)) :=
      applyRule_fire _ hmF rfl
    have houtF : inst FixFinal.ruleBeFalse.tmpl (setCap capsEmpty 1 (d :: rt))
        = (("Assert.False(").toList) ++ ((d :: rt) ++ ((")").toList)) := by
      simp [inst, setCap, FixFinal.ruleBeFalse]
    have hfire2F : applyRule FixFinal.ruleBeFalse
        ((d :: rt) ++ ((".Should().BeFalse(").toList ++ ((b :: vt) ++ ((")").toList))))
        = (("Assert.False(").toList) ++ ((d :: rt) ++ ((")").toList)) := hfF.trans houtF
    have hn12 : applyRule FixFinal.ruleIsTernary
        ((("Assert.False(").toList) ++ ((d :: rt) ++ ((")").toList)))
        = (("Assert.False(").toList) ++ ((d :: rt) ++ ((")").toList)) :=
      applyRule_noop_marker _
        (litsR ("(") ++ [RItem.grp 1 [CItem.star notRp false, CItem.lit 'i', CItem.lit 's',
          CItem.star notRp false, CItem.lit '?', CItem.star notRp false, CItem.lit ':',
          CItem.star notRp false]])
        ([grpPlus 2 notRp] ++ litsR (")"))
        ((").Should().Be(").toList) ((".Should()").toList) rfl (by decide)
        (dot1_absent (("Assert").toList) 'F' (("alse(").toList) (by decide) (by decide)
          hQd (by decide) ⟨'S', by decide, by decide⟩)
    simp only [FixFinal.fix_all_should_patterns, FixFinal.rules, applyRules,
      List.foldl_cons, List.foldl_nil]
    rw [hn1, hn2, hn3, hn4, hn5, hn6, hn7, hn8, hn9, hn10, hfire2F, hn12]

/-- C10 witness: the amended drop-argument behaviour at a concrete receiver
and because-message argument. -/
theorem c10_drop_argument_amended_witness :
    (FixFinal.fix_all_should_patterns
        ((("x").toList) ++ ((".Should().BeTrue(").toList ++
          ((("msg").toList) ++ ((")").toList))))
      = (("Assert.True(").toList) ++ ((("x").toList) ++ ((")").toList))) ∧
    (FixFinal.fix_all_should_patterns
        ((("x").toList) ++ ((".Should().BeFalse(").toList ++
          ((("msg").toList) ++ ((")").toList))))
      = (("Assert.False(").toList) ++ ((("x").toList) ++ ((")").toList))) :=
  c10_drop_argument_amended (("x").toList) (("msg").toList) (by decide) (by decide)

namespace Rewrite

theorem mem_of_some_getElem : ∀ {α : Type} (l : List α) (n : Nat) (a : α),
    l[n]? = some a → a ∈ l := by
  intro α l
  induction l with
  | nil => intro n a h; cases h
  | cons b t ih =>
    intro n a h
    cases n with
    | zero =>
      rw [List.getElem?_cons_zero] at h
      injection h with h
      rw [h]
      exact List.mem_cons_self _ _
    | succ m =>
      rw [List.getElem?_cons_succ] at h
      exact List.mem_cons_of_mem _ (ih m a h)

theorem pre_dot_absent {w Z : List Char} {n : Nat} (hn : w[n]? = some '.')
    (h0 : 0 < n) (hZ : '.' ∉ Z) : ¬ w <+: ('.' :: Z) := by
  intro h
  obtain ⟨t, ht⟩ := h
  have hnw : n < w.length := by
    by_contra hge
    rw [List.getElem?_eq_none (Nat.le_of_not_lt hge)] at hn
    cases hn
  have h1 : (w ++ t)[n]? = some '.' := by
    rw [List.getElem?_append, if_pos hnw]
    exact hn
  rw [ht] at h1
  obtain ⟨m, rfl⟩ : ∃ m, n = m + 1 := ⟨n - 1, by omega⟩
  rw [List.getElem?_cons_succ] at h1
  exact hZ (mem_of_some_getElem _ _ _ h1)

theorem dot2_absent (P : List Char) (e : Char) (g c2 : List Char)
    (m1 m2 Q : List Char) {w : List Char} (n : Nat)
    (hP : '.' ∉ P) (hg : '.' ∉ (e :: g)) (hm1 : '.' ∉ m1) (hc2 : '.' ∉ c2)
    (hm2 : '.' ∉ m2) (hQ : '.' ∉ Q)
    (h0 : w[0]? = some '.') (h1 : ∃ c, w[1]? = some c ∧ c ≠ e)
    (hn : w[n]? = some '.') (hn0 : 0 < n) :
    ¬ w <:+: (P ++ ('.' :: (e :: (g ++ (m1 ++ (c2 ++ (m2 ++ ('.' :: Q)))))))) := by
  intro h
  obtain ⟨w2, rfl⟩ : ∃ w2, w = '.' :: w2 := by
    cases w with
    | nil => cases h0
    | cons c w2 =>
      refine ⟨w2, ?_⟩
      rw [List.getElem?_cons_zero] at h0
      injection h0 with h0
      rw [h0]
  obtain ⟨c, hc, hcne⟩ := h1
  rw [List.getElem?_cons_succ] at hc
  obtain ⟨w3, rfl⟩ : ∃ w3, w2 = c :: w3 := by
    cases w2 with
    | nil => cases hc
    | cons c2x w3 =>
      refine ⟨w3, ?_⟩
      rw [List.getElem?_cons_zero] at hc
      injection hc with hc
      rw [hc]
  have h2 := occ_skip hP h
  rcases (List.infix_cons_iff).mp h2 with hp | hi
  · exact hcne ((List.cons_prefix_cons).mp ((List.cons_prefix_cons).mp hp).2).1
  · have h3 := occ_skip hg hi
    have h4 := occ_skip hm1 h3
    have h5 := occ_skip hc2 h4
    have h6 := occ_skip hm2 h5
    rcases (List.infix_cons_iff).mp h6 with hp2 | hi2
    · exact pre_dot_absent hn hn0 hQ hp2
    · exact absurd (hi2.subset (List.mem_cons_self _ _)) hQ

theorem dots3_splitB (c1 m1 d1 g2 g3 : List Char) {X w : List Char}
    (hX : '.' ∉ X) (hc1 : '.' ∉ c1) (hm1 : '.' ∉ m1) (hd1 : '.' ∉ d1)
    (hg2 : '.' ∉ g2) (hg3 : '.' ∉ g3)
    (h : w <:+: (X ++ ('.' :: (c1 ++ (m1 ++ (d1 ++ ('.' :: (g2 ++ ('.' :: g3)))))))))
    (h0 : w[0]? = some '.') :
    w <+: ('.' :: (c1 ++ (m1 ++ (d1 ++ ('.' :: (g2 ++ ('.' :: g3))))))) ∨
    w <+: ('.' :: (g2 ++ ('.' :: g3))) ∨ w <+: ('.' :: g3) := by
  obtain ⟨w2, rfl⟩ : ∃ w2, w = '.' :: w2 := by
    cases w with
    | nil => cases h0
    | cons c w2 =>
      refine ⟨w2, ?_⟩
      rw [List.getElem?_cons_zero] at h0
      injection h0 with h0
      rw [h0]
  have h1 := occ_skip hX h
  rcases (List.infix_cons_iff).mp h1 with hp | hi
  · exact Or.inl hp
  have h2 := occ_skip hc1 hi
  have h3 := occ_skip hm1 h2
  have h4 := occ_skip hd1 h3
  rcases (List.infix_cons_iff).mp h4 with hp | hi2
  · exact Or.inr (Or.inl hp)
  have h5 := occ_skip hg2 hi2
  rcases (List.infix_cons_iff).mp h5 with hp | hi3
  · exact Or.inr (Or.inr hp)
  exact absurd (hi3.subset (List.mem_cons_self _ _)) hg3

/-- The seventeen fluent-assertion rules of `fix_all_should.py` leave a buffer
without `.Should()` unchanged, as a nested application chain. -/
theorem fasp_first17_noop {s : List Char} (h1 : ¬ shouldTok <:+: s) :
    applyRule FixAll.ruleNotBe (applyRule FixAll.ruleBeEquivalentTo
      (applyRule FixAll.ruleEndWith (applyRule FixAll.ruleStartWith
      (applyRule FixAll.ruleBeGreaterOrEqualTo (applyRule FixAll.ruleBeLessThan
      (applyRule FixAll.ruleBeGreaterThan (applyRule FixAll.ruleNotBeEmpty
      (applyRule FixAll.ruleBeEmpty (applyRule FixAll.ruleHaveCount
      (applyRule FixAll.ruleNotContain (applyRule FixAll.ruleContain
      (applyRule FixAll.ruleBeFalse (applyRule FixAll.ruleBeTrue
      (applyRule FixAll.ruleBe (applyRule FixAll.ruleBeNull
      (applyRule FixAll.ruleNotBeNull s)))))))))))))))) = s := by
  have n01 : applyRule FixAll.ruleNotBeNull s = s :=
    applyRule_noop_marker _ [grpLazy 1 identStart rcvCh] [] ((".Should().NotBeNull()").toList)
      shouldTok (by rw [List.append_nil]; rfl) (by decide) h1
  have n02 : applyRule FixAll.ruleBeNull s = s :=
    applyRule_noop_marker _ [grpLazy 1 identStart rcvCh] [] ((".Should().BeNull()").toList)
      shouldTok (by rw [List.append_nil]; rfl) (by decide) h1
  have n03 : applyRule FixAll.ruleBe s = s :=
    applyRule_noop_marker _ [grpLazy 1 identStart rcvCh] ([grpPlus 2 notRp] ++ litsR (")"))
      ((".Should().Be(").toList) shouldTok rfl (by decide) h1
  have n04 : applyRule FixAll.ruleBeTrue s = s :=
    applyRule_noop_marker _ [grpLazy 1 identStart rcvCh] [] ((".Should().BeTrue()").toList)
      shouldTok (by rw [List.append_nil]; rfl) (by decide) h1
  have n05 : applyRule FixAll.ruleBeFalse s = s :=
    applyRule_noop_marker _ [grpLazy 1 identStart rcvCh] [] ((".Should().BeFalse()").toList)
      shouldTok (by rw [List.append_nil]; rfl) (by decide) h1
  have n06 : applyRule FixAll.ruleContain s = s :=
    applyRule_noop_marker _ [grpLazy 1 identStart rcvCh] ([grpPlus 2 notRp] ++ litsR (")"))
      ((".Should().Contain(").toList) shouldTok rfl (by decide) h1
  have n07 : applyRule FixAll.ruleNotContain s = s :=
    applyRule_noop_marker _ [grpLazy 1 identStart rcvCh] ([grpPlus 2 notRp] ++ litsR (")"))
      ((".Should().NotContain(").toList) shouldTok rfl (by decide) h1
  have n08 : applyRule FixAll.ruleHaveCount s = s :=
    applyRule_noop_marker _ [grpLazy 1 identStart rcvCh] ([grpPlus 2 notRp] ++ litsR (")"))
      ((".Should().HaveCount(").toList) shouldTok rfl (by decide) h1
  have n09 : applyRule FixAll.ruleBeEmpty s = s :=
    applyRule_noop_marker _ [grpLazy 1 identStart rcvCh] [] ((".Should().BeEmpty()").toList)
      shouldTok (by rw [List.append_nil]; rfl) (by decide) h1
  have n10 : applyRule FixAll.ruleNotBeEmpty s = s :=
    applyRule_noop_marker _ [grpLazy 1 identStart rcvCh] [] ((".Should().NotBeEmpty()").toList)
      shouldTok (by rw [List.append_nil]; rfl) (by decide) h1
  have n11 : applyRule FixAll.ruleBeGreaterThan s = s :=
    applyRule_noop_marker _ [grpLazy 1 identStart rcvCh] ([grpPlus 2 notRp] ++ litsR (")"))
      ((".Should().BeGreaterThan(").toList) shouldTok rfl (by decide) h1
  have n12 : applyRule FixAll.ruleBeLessThan s = s :=
    applyRule_noop_marker _ [grpLazy 1 identStart rcvCh] ([grpPlus 2 notRp] ++ litsR (")"))
      ((".Should().BeLessThan(").toList) shouldTok rfl (by decide) h1
  have n13 : applyRule FixAll.ruleBeGreaterOrEqualTo s = s :=
    applyRule_noop_marker _ [grpLazy 1 identStart rcvCh] ([grpPlus 2 notRp] ++ litsR (")"))
      ((".Should().BeGreaterOrEqualTo(").toList) shouldTok rfl (by decide) h1
  have n14 : applyRule FixAll.ruleStartWith s = s :=
    applyRule_noop_marker _ [grpLazy 1 identStart rcvCh] ([grpPlus 2 notRp] ++ litsR (")"))
      ((".Should().StartWith(").toList) shouldTok rfl (by decide) h1
  have n15 : applyRule FixAll.ruleEndWith s = s :=
    applyRule_noop_marker _ [grpLazy 1 identStart rcvCh] ([grpPlus 2 notRp] ++ litsR (")"))
      ((".Should().EndWith(").toList) shouldTok rfl (by decide) h1
  have n16 : applyRule FixAll.ruleBeEquivalentTo s = s :=
    applyRule_noop_marker _ [grpLazy 1 identStart rcvCh] ([grpPlus 2 notRp] ++ litsR (")"))
      ((".Should().BeEquivalentTo(").toList) shouldTok rfl (by decide) h1
  have n17 : applyRule FixAll.ruleNotBe s = s :=
    applyRule_noop_marker _ [grpLazy 1 identStart rcvCh] ([grpPlus 2 notRp] ++ litsR (")"))
      ((".Should().NotBe(").toList) shouldTok rfl (by decide) h1
  rw [n01, n02, n03, n04, n05, n06, n07, n08, n09, n10, n11, n12, n13, n14, n15, n16, n17]

/-- The two hit-collection rules of `fix_all_should.py` leave a buffer
without `.Assert.` unchanged. -/
theorem fasp_pingpong_noop {s : List Char} (h2 : ¬ assertTok <:+: s) :
    applyRule FixAll.rulePongHits (applyRule FixAll.rulePingHits s) = s := by
  have n20 : applyRule FixAll.rulePingHits s = s :=
    applyRule_noop_marker _ [] ([grpPlus 1 notRp] ++ litsR (")"))
      (("pingHits.Assert.Contains(").toList) assertTok rfl (by decide) h2
  have n21 : applyRule FixAll.rulePongHits s = s :=
    applyRule_noop_marker _ [] ([grpPlus 1 notRp] ++ litsR (")"))
      (("pongHits.Assert.Contains(").toList) assertTok rfl (by decide) h2
  rw [n20, n21]

/-- Rules three to thirteen of `fix_complex_should.py` leave a buffer
without `.Should()` unchanged, as a nested application chain. -/
theorem fcsp_tail11_noop {s : List Char} (h : ¬ shouldTok <:+: s) :
    applyRule FixComplex.ruleTernary (applyRule FixComplex.ruleEndWith
      (applyRule FixComplex.ruleStartWith (applyRule FixComplex.ruleHaveCount
      (applyRule FixComplex.ruleContain (applyRule FixComplex.ruleNotBe
      (applyRule FixComplex.ruleBe (applyRule FixComplex.ruleBeNull
      (applyRule FixComplex.ruleNotBeNull (applyRule FixComplex.ruleBeFalse
      (applyRule FixComplex.ruleBeTrue s)))))))))) = s := by
  have n03 : applyRule FixComplex.ruleBeTrue s = s :=
    applyRule_noop_marker _ [grpLazy 1 identStart rcvSpCh] [] ((".Should().BeTrue()").toList)
      shouldTok (by rw [List.append_nil]; rfl) (by decide) h
  have n04 : applyRule FixComplex.ruleBeFalse s = s :=
    applyRule_noop_marker _ [grpLazy 1 identStart rcvSpCh] [] ((".Should().BeFalse()").toList)
      shouldTok (by rw [List.append_nil]; rfl) (by decide) h
  have n05 : applyRule FixComplex.ruleNotBeNull s = s :=
    applyRule_noop_marker _ [grpLazy 1 identStart rcvBangCh] []
      ((".Should().NotBeNull()").toList)
      shouldTok (by rw [List.append_nil]; rfl) (by decide) h
  have n06 : applyRule FixComplex.ruleBeNull s = s :=
    applyRule_noop_marker _ [grpLazy 1 identStart rcvBangCh] [] ((".Should().BeNull()").toList)
      shouldTok (by rw [List.append_nil]; rfl) (by decide) h
  have n07 : applyRule FixComplex.ruleBe s = s :=
    applyRule_noop_marker _ [grpLazy 1 identStart rcvBangCh] ([grpPlus 2 notRp] ++ litsR (")"))
      ((".Should().Be(").toList) shouldTok rfl (by decide) h
  have n08 : applyRule FixComplex.ruleNotBe s = s :=
    applyRule_noop_marker _ [grpLazy 1 identStart rcvBangCh] ([grpPlus 2 notRp] ++ litsR (")"))
      ((".Should().NotBe(").toList) shouldTok rfl (by decide) h
  have n09 : applyRule FixComplex.ruleContain s = s :=
    applyRule_noop_marker _ [grpLazy 1 identStart rcvBangCh] ([grpPlus 2 notRp] ++ litsR (")"))
      ((".Should().Contain(").toList) shouldTok rfl (by decide) h
  have n10 : applyRule FixComplex.ruleHaveCount s = s :=
    applyRule_noop_marker _ [grpLazy 1 identStart rcvBangCh] ([grpPlus 2 notRp] ++ litsR (")"))
      ((".Should().HaveCount(").toList) shouldTok rfl (by decide) h
  have n11 : applyRule FixComplex.ruleStartWith s = s :=
    applyRule_noop_marker _ [grpLazy 1 identStart rcvBangCh] ([grpPlus 2 notRp] ++ litsR (")"))
      ((".Should().StartWith(").toList) shouldTok rfl (by decide) h
  have n12 : applyRule FixComplex.ruleEndWith s = s :=
    applyRule_noop_marker _ [grpLazy 1 identStart rcvBangCh] ([grpPlus 2 notRp] ++ litsR (")"))
      ((".Should().EndWith(").toList) shouldTok rfl (by decide) h
  have n13 : applyRule FixComplex.ruleTernary s = s :=
    applyRule_noop_marker _
      (litsR ("(") ++ [grpPlus 1 notRp] ++ [starG spaceCh] ++ litsR ("!=") ++
        [starG spaceCh] ++ litsR ("null") ++ [starG spaceCh] ++ litsR ("?") ++
        [starG spaceCh] ++ [grpPlus 2 notCl] ++ [starG spaceCh] ++ litsR (":") ++
        [starG spaceCh] ++ [grpPlus 3 notRp])
      ([grpPlus 4 notRp] ++ litsR (")"))
      ((").Should().Be(").toList) shouldTok rfl (by decide) h
  rw [n03, n04, n05, n06, n07, n08, n09, n10, n11, n12, n13]

end Rewrite

set_option maxHeartbeats 1000000 in
/-- C8 (amended): the repair rules do re-qualify the second operand with the
outer receiver, but not for every comma-free argument text: an argument
containing a fluent call is mangled by an earlier rule first (see the
counterexample).  For identifiers `X` and `Y` and every non-empty argument
`a` containing neither a comma nor a dot, `fix_all_should_patterns` of
`fix_all_should.py` rewrites `X.Assert.Contains(a, Y)` to
`Assert.Contains(a, X.Y)` and `X.Assert.Equal(a, Y)` to
`Assert.Equal(a, X.Y)`. -/
theorem c8_repair_amended (X Y a : List Char) (hX : isIdent X = true)
    (hY : isIdent Y = true) (ha : repairArgOk a = true) :
    (FixAll.fix_all_should_patterns
        (X ++ ((".Assert.Contains(").toList ++ (a ++ ((", ").toList ++
          (Y ++ ((")").toList))))))
      = (("Assert.Contains(").toList) ++
        (a ++ ((", ").toList ++ (X ++ ('.' :: (Y ++ ((")").toList))))))) ∧
    (FixAll.fix_all_should_patterns
        (X ++ ((".Assert.Equal(").toList ++ (a ++ ((", ").toList ++
          (Y ++ ((")").toList))))))
      = (("Assert.Equal(").toList) ++
        (a ++ ((", ").toList ++ (X ++ ('.' :: (Y ++ ((")").toList))))))) := by
  obtain ⟨x0, xt, rfl, hx0, hxt⟩ := isIdent_parts hX
  obtain ⟨y0, yt, rfl, hy0, hyt⟩ := isIdent_parts hY
  obtain ⟨b, at2, rfl, hb, hat2⟩ := repairArgOk_parts ha
  have hXd : '.' ∉ x0 :: xt := isIdent_no_dot hX
  have hYd : '.' ∉ y0 :: yt := isIdent_no_dot hY
  have had : '.' ∉ b :: at2 := repairArgOk_no_dot ha
  have hxtNe : ∀ c ∈ xt, c ≠ '.' := fun c hc => ne_of_pred wordCh (hxt c hc) (by decide)
  have hytNe : ∀ c ∈ yt, c ≠ ')' := fun c hc => ne_of_pred wordCh (hyt c hc) (by decide)
  have hbCm : notCm b = true := repairArgCh_notCm hb
  have hatCm : ∀ c ∈ at2, notCm c = true := fun c hc => repairArgCh_notCm (hat2 c hc)
  have hvC : '.' ∉ ((b :: at2) ++ ((", ").toList ++ ((y0 :: yt) ++ ((")").toList)))) := by
    intro hm
    rcases List.mem_append.mp hm with hm | hm
    · exact had hm
    · rcases List.mem_append.mp hm with hm | hm
      · exact absurd hm (by decide)
      · rcases List.mem_append.mp hm with hm | hm
        · exact hYd hm
        · exact absurd hm (by decide)
  have hQ8 : '.' ∉ ((y0 :: yt) ++ ((")").toList)) := by
    intro hm
    rcases List.mem_append.mp hm with hm | hm
    · exact hYd hm
    · exact absurd hm (by decide)
  have hS8C : ¬ shouldTok <:+: ((x0 :: xt) ++ ((".Assert.Contains(").toList ++
      ((b :: at2) ++ ((", ").toList ++ ((y0 :: yt) ++ ((")").toList)))))) := fun h =>
    (dots2_split (("Assert").toList) (("Contains(").toList) hXd (by decide) (by decide)
        hvC h (by decide)).elim
      (fun hp => not_pre_at 1 (show shouldTok[1]? = some 'S' by decide)
        (show ((".Assert.Contains(").toList)[1]? = some 'A' by decide) (by decide)
        (show shouldTok <+: ((".Assert.Contains(").toList ++ ((b :: at2) ++
          ((", ").toList ++ ((y0 :: yt) ++ ((")").toList))))) from hp))
      (fun hp => not_pre_at 1 (show shouldTok[1]? = some 'S' by decide)
        (show ((".Contains(").toList)[1]? = some 'C' by decide) (by decide)
        (show shouldTok <+: ((".Contains(").toList ++ ((b :: at2) ++
          ((", ").toList ++ ((y0 :: yt) ++ ((")").toList))))) from hp))
  have hS8E : ¬ shouldTok <:+: ((x0 :: xt) ++ ((".Assert.Equal(").toList ++
      ((b :: at2) ++ ((", ").toList ++ ((y0 :: yt) ++ ((")").toList)))))) := fun h =>
    (dots2_split (("Assert").toList) (("Equal(").toList) hXd (by decide) (by decide)
        hvC h (by decide)).elim
      (fun hp => not_pre_at 1 (show shouldTok[1]? = some 'S' by decide)
        (show ((".Assert.Equal(").toList)[1]? = some 'A' by decide) (by decide)
        (show shouldTok <+: ((".Assert.Equal(").toList ++ ((b :: at2) ++
          ((", ").toList ++ ((y0 :: yt) ++ ((")").toList))))) from hp))
      (fun hp => not_pre_at 1 (show shouldTok[1]? = some 'S' by decide)
        (show ((".Equal(").toList)[1]? = some 'E' by decide) (by decide)
        (show shouldTok <+: ((".Equal(").toList ++ ((b :: at2) ++
          ((", ").toList ++ ((y0 :: yt) ++ ((")").toList))))) from hp))
  have hA8C : ¬ assertTok <:+: ((("Assert.Contains(").toList) ++ ((b :: at2) ++
      ((", ").toList ++ ((x0 :: xt) ++ ('.' :: ((y0 :: yt) ++ ((")").toList))))))) :=
    dot2_absent (("Assert").toList) 'C' (("ontains(").toList) ((", ").toList)
      (b :: at2) (x0 :: xt) ((y0 :: yt) ++ ((")").toList)) 7
      (by decide) (by decide) had (by decide) hXd hQ8
      (by decide) ⟨'A', by decide, by decide⟩ (by decide) (by decide)
  have hA8E : ¬ assertTok <:+: ((("Assert.Equal(").toList) ++ ((b :: at2) ++
      ((", ").toList ++ ((x0 :: xt) ++ ('.' :: ((y0 :: yt) ++ ((")").toList))))))) :=
    dot2_absent (("Assert").toList) 'E' (("qual(").toList) ((", ").toList)
      (b :: at2) (x0 :: xt) ((y0 :: yt) ++ ((")").toList)) 7
      (by decide) (by decide) had (by decide) hXd hQ8
      (by decide) ⟨'A', by decide, by decide⟩ (by decide) (by decide)
  refine ⟨?_, ?_⟩
  · have m1C := matchR_lits_exact ((")").toList)
      (setCap (setCap (setCap capsEmpty 1 (x0 :: xt)) 2 (b :: at2)) 3 (y0 :: yt))
    have m2C : matchR (RItem.grp 3 [CItem.cls identStart, CItem.star wordCh true] ::
        litsRL ((")").toList)) ((y0 :: yt) ++ ((")").toList))
        (setCap (setCap capsEmpty 1 (x0 :: xt)) 2 (b :: at2)) (fun rem c => some (rem, c))
        = some ([], setCap (setCap (setCap capsEmpty 1 (x0 :: xt)) 2 (b :: at2)) 3
            (y0 :: yt)) :=
      matchR_grpLazy hy0 hyt hytNe m1C
    have m3C : matchR (litsRL ((", ").toList) ++ (RItem.grp 3 [CItem.cls identStart,
        CItem.star wordCh true] :: litsRL ((")").toList)))
        ((", ").toList ++ ((y0 :: yt) ++ ((")").toList)))
        (setCap (setCap capsEmpty 1 (x0 :: xt)) 2 (b :: at2)) (fun rem c => some (rem, c))
        = some ([], setCap (setCap (setCap capsEmpty 1 (x0 :: xt)) 2 (b :: at2)) 3
            (y0 :: yt)) :=
      (matchR_lits_append ((", ").toList) _ _ _ _).trans m2C
    have m4C : matchR (RItem.grp 2 [CItem.cls notCm, CItem.star notCm false] ::
        (litsRL ((", ").toList) ++ (RItem.grp 3 [CItem.cls identStart,
          CItem.star wordCh true] :: litsRL ((")").toList))))
        ((b :: at2) ++ ((", ").toList ++ ((y0 :: yt) ++ ((")").toList))))
        (setCap capsEmpty 1 (x0 :: xt)) (fun rem c => some (rem, c))
        = some ([], setCap (setCap (setCap capsEmpty 1 (x0 :: xt)) 2 (b :: at2)) 3
            (y0 :: yt)) :=
      matchR_grpPlus hbCm hatCm (takeWhile_head_false (by decide) _) m3C
    have m5C : matchR (RItem.ch (CItem.lit '.') :: (litsRL (("Assert.Contains(").toList) ++
        (RItem.grp 2 [CItem.cls notCm, CItem.star notCm false] ::
        (litsRL ((", ").toList) ++ (RItem.grp 3 [CItem.cls identStart,
          CItem.star wordCh true] :: litsRL ((")").toList))))))
        ((".Assert.Contains(").toList ++ ((b :: at2) ++ ((", ").toList ++
          ((y0 :: yt) ++ ((")").toList)))))
        (setCap capsEmpty 1 (x0 :: xt)) (fun rem c => some (rem, c))
        = some ([], setCap (setCap (setCap capsEmpty 1 (x0 :: xt)) 2 (b :: at2)) 3
            (y0 :: yt)) :=
      (matchR_lits_append ((".Assert.Contains(").toList) _ _ _ _).trans m4C
    have m6C : matchR FixAll.ruleRepairContains.pat
        ((x0 :: xt) ++ ((".Assert.Contains(").toList ++ ((b :: at2) ++ ((", ").toList ++
          ((y0 :: yt) ++ ((")").toList))))))
        capsEmpty (fun rem c => some (rem, c))
        = some ([], setCap (setCap (setCap capsEmpty 1 (x0 :: xt)) 2 (b :: at2)) 3
            (y0 :: yt)) :=
      matchR_grpLazy hx0 hxt hxtNe m5C
    have hf18C : applyRule FixAll.ruleRepairContains
        ((x0 :: xt) ++ ((".Assert.Contains(").toList ++ ((b :: at2) ++ ((", ").toList ++
          ((y0 :: yt) ++ ((")").toList))))))
        = inst FixAll.ruleRepairContains.tmpl
            (setCap (setCap (setCap capsEmpty 1 (x0 :: xt)) 2 (b :: at2)) 3 (y0 :: yt)) :=
      applyRule_fire _ m6C rfl
    have ho18C : inst FixAll.ruleRepairContains.tmpl
        (setCap (setCap (setCap capsEmpty 1 (x0 :: xt)) 2 (b :: at2)) 3 (y0 :: yt))
        = (("Assert.Contains(").toList) ++ ((b :: at2) ++ ((", ").toList ++
          ((x0 :: xt) ++ ('.' :: ((y0 :: yt) ++ ((")").toList)))))) := by
      simp [inst, setCap, FixAll.ruleRepairContains]
    have hfire18C : applyRule FixAll.ruleRepairContains
        ((x0 :: xt) ++ ((".Assert.Contains(").toList ++ ((b :: at2) ++ ((", ").toList ++
          ((y0 :: yt) ++ ((")").toList))))))
        = (("Assert.Contains(").toList) ++ ((b :: at2) ++ ((", ").toList ++
          ((x0 :: xt) ++ ('.' :: ((y0 :: yt) ++ ((")").toList)))))) := hf18C.trans ho18C
    have hn19C : applyRule FixAll.ruleRepairEqual
        ((("Assert.Contains(").toList) ++ ((b :: at2) ++ ((", ").toList ++
          ((x0 :: xt) ++ ('.' :: ((y0 :: yt) ++ ((")").toList)))))))
        = (("Assert.Contains(").toList) ++ ((b :: at2) ++ ((", ").toList ++
          ((x0 :: xt) ++ ('.' :: ((y0 :: yt) ++ ((")").toList)))))) :=
      applyRule_noop_marker _ [grpLazy 1 identStart wordCh]
        ([grpPlus 2 notCm] ++ litsR (", ") ++ [grpLazy 3 identStart wordCh] ++ litsR (")"))
        ((".Assert.Equal(").toList) assertTok rfl (by decide) hA8C
    simp only [FixAll.fix_all_should_patterns, FixAll.rules, applyRules, List.foldl_cons,
      List.foldl_nil]
    rw [fasp_first17_noop hS8C, hfire18C, hn19C, fasp_pingpong_noop hA8C]
  · have hn18E : applyRule FixAll.ruleRepairContains
        ((x0 :: xt) ++ ((".Assert.Equal(").toList ++ ((b :: at2) ++ ((", ").toList ++
          ((y0 :: yt) ++ ((")").toList))))))
        = (x0 :: xt) ++ ((".Assert.Equal(").toList ++ ((b :: at2) ++ ((", ").toList ++
          ((y0 :: yt) ++ ((")").toList))))) :=
      noop_on_shapeB FixAll.ruleRepairContains [grpLazy 1 identStart wordCh]
        ([grpPlus 2 notCm] ++ litsR (", ") ++ [grpLazy 3 identStart wordCh] ++ litsR (")"))
        ((".Assert.Contains(").toList) (("Assert").toList) (("Equal(").toList)
        rfl hXd (by decide) (by decide) hvC (by decide)
        8 'C' 'E' (by decide) (by decide) (by decide)
        1 'A' 'E' (by decide) (by decide) (by decide)
    have m1E := matchR_lits_exact ((")").toList)
      (setCap (setCap (setCap capsEmpty 1 (x0 :: xt)) 2 (b :: at2)) 3 (y0 :: yt))
    have m2E : matchR (RItem.grp 3 [CItem.cls identStart, CItem.star wordCh true] ::
        litsRL ((")").toList)) ((y0 :: yt) ++ ((")").toList))
        (setCap (setCap capsEmpty 1 (x0 :: xt)) 2 (b :: at2)) (fun rem c => some (rem, c))
        = some ([], setCap (setCap (setCap capsEmpty 1 (x0 :: xt)) 2 (b :: at2)) 3
            (y0 :: yt)) :=
      matchR_grpLazy hy0 hyt hytNe m1E
    have m3E : matchR (litsRL ((", ").toList) ++ (RItem.grp 3 [CItem.cls identStart,
        CItem.star wordCh true] :: litsRL ((")").toList)))
        ((", ").toList ++ ((y0 :: yt) ++ ((")").toList)))
        (setCap (setCap capsEmpty 1 (x0 :: xt)) 2 (b :: at2)) (fun rem c => some (rem, c))
        = some ([], setCap (setCap (setCap capsEmpty 1 (x0 :: xt)) 2 (b :: at2)) 3
            (y0 :: yt)) :=
      (matchR_lits_append ((", ").toList) _ _ _ _).trans m2E
    have m4E : matchR (RItem.grp 2 [CItem.cls notCm, CItem.star notCm false] ::
        (litsRL ((", ").toList) ++ (RItem.grp 3 [CItem.cls identStart,
          CItem.star wordCh true] :: litsRL ((")").toList))))
        ((b :: at2) ++ ((", ").toList ++ ((y0 :: yt) ++ ((")").toList))))
        (setCap capsEmpty 1 (x0 :: xt)) (fun rem c => some (rem, c))
        = some ([], setCap (setCap (setCap capsEmpty 1 (x0 :: xt)) 2 (b :: at2)) 3
            (y0 :: yt)) :=
      matchR_grpPlus hbCm hatCm (takeWhile_head_false (by decide) _) m3E
    have m5E : matchR (RItem.ch (CItem.lit '.') :: (litsRL (("Assert.Equal(").toList) ++
        (RItem.grp 2 [CItem.cls notCm, CItem.star notCm false] ::
        (litsRL ((", ").toList) ++ (RItem.grp 3 [CItem.cls identStart,
          CItem.star wordCh true] :: litsRL ((")").toList))))))
        ((".Assert.Equal(").toList ++ ((b :: at2) ++ ((", ").toList ++
          ((y0 :: yt) ++ ((")").toList)))))
        (setCap capsEmpty 1 (x0 :: xt)) (fun rem c => some (rem, c))
        = some ([], setCap (setCap (setCap capsEmpty 1 (x0 :: xt)) 2 (b :: at2)) 3
            (y0 :: yt)) :=
      (matchR_lits_append ((".Assert.Equal(").toList) _ _ _ _).trans m4E
    have m6E : matchR FixAll.ruleRepairEqual.pat
        ((x0 :: xt) ++ ((".Assert.Equal(").toList ++ ((b :: at2) ++ ((", ").toList ++
          ((y0 :: yt) ++ ((")").toList))))))
        capsEmpty (fun rem c => some (rem, c))
        = some ([], setCap (setCap (setCap capsEmpty 1 (x0 :: xt)) 2 (b :: at2)) 3
            (y0 :: yt)) :=
      matchR_grpLazy hx0 hxt hxtNe m5E
    have hf19E : applyRule FixAll.ruleRepairEqual
        ((x0 :: xt) ++ ((".Assert.Equal(").toList ++ ((b :: at2) ++ ((", ").toList ++
          ((y0 :: yt) ++ ((")").toList))))))
        = inst FixAll.ruleRepairEqual.tmpl
            (setCap (setCap (setCap capsEmpty 1 (x0 :: xt)) 2 (b :: at2)) 3 (y0 :: yt)) :=
      applyRule_fire _ m6E rfl
    have ho19E : inst FixAll.ruleRepairEqual.tmpl
        (setCap (setCap (setCap capsEmpty 1 (x0 :: xt)) 2 (b :: at2)) 3 (y0 :: yt))
        = (("Assert.Equal(").toList) ++ ((b :: at2) ++ ((", ").toList ++
          ((x0 :: xt) ++ ('.' :: ((y0 :: yt) ++ ((")").toList)))))) := by
      simp [inst, setCap, FixAll.ruleRepairEqual]
    have hfire19E : applyRule FixAll.ruleRepairEqual
        ((x0 :: xt) ++ ((".Assert.Equal(").toList ++ ((b :: at2) ++ ((", ").toList ++
          ((y0 :: yt) ++ ((")").toList))))))
        = (("Assert.Equal(").toList) ++ ((b :: at2) ++ ((", ").toList ++
          ((x0 :: xt) ++ ('.' :: ((y0 :: yt) ++ ((")").toList)))))) := hf19E.trans ho19E
    simp only [FixAll.fix_all_should_patterns, FixAll.rules, applyRules, List.foldl_cons,
      List.foldl_nil]
    rw [fasp_first17_noop hS8E, hn18E, hfire19E, fasp_pingpong_noop hA8E]

/-- C8 witness: the amended repair behaviour at concrete identifiers and a
concrete comma-free, dot-free argument. -/
theorem c8_repair_amended_witness :
    (FixAll.fix_all_should_patterns ((("actor").toList) ++ ((".Assert.Contains(").toList ++
        ((("msg").toList) ++ ((", ").toList ++ ((("log").toList) ++ ((")").toList))))))
      = (("Assert.Contains(").toList) ++ ((("msg").toList) ++ ((", ").toList ++
        ((("actor").toList) ++ ('.' :: ((("log").toList) ++ ((")").toList))))))) ∧
    (FixAll.fix_all_should_patterns ((("actor").toList) ++ ((".Assert.Equal(").toList ++
        ((("msg").toList) ++ ((", ").toList ++ ((("log").toList) ++ ((")").toList))))))
      = (("Assert.Equal(").toList) ++ ((("msg").toList) ++ ((", ").toList ++
        ((("actor").toList) ++ ('.' :: ((("log").toList) ++ ((")").toList))))))) :=
  c8_repair_amended (("actor").toList) (("log").toList) (("msg").toList)
    (by decide) (by decide) (by decide)

set_option maxHeartbeats 1000000 in
/-- C4 (amended): the composed Contains rules do run before the generic
BeTrue/BeFalse rules, but the priority claim holds only for items whose text
contains no `)` (and here also no `.`): for every identifier receiver `r` and
such an item `i`, `fix_complex_should_patterns` rewrites
`r.Contains(i).Should().BeTrue()` to `Assert.Contains(i, r)` and
`r.Contains(i).Should().BeFalse()` to `Assert.DoesNotContain(i, r)`.  An item
with a nested call is instead captured short and the generic rule fires (see
the counterexample). -/
theorem c4_priority_amended (r i : List Char) (hr : isIdent r = true)
    (hi : argOk i = true) :
    (FixComplex.fix_complex_should_patterns
        (r ++ ((".Contains(").toList ++ (i ++ ((").Should().BeTrue()").toList))))
      = (("Assert.Contains(").toList) ++
        (i ++ ((", ").toList ++ (r ++ ((")").toList))))) ∧
    (FixComplex.fix_complex_should_patterns
        (r ++ ((".Contains(").toList ++ (i ++ ((").Should().BeFalse()").toList))))
      = (("Assert.DoesNotContain(").toList) ++
        (i ++ ((", ").toList ++ (r ++ ((")").toList))))) := by
  obtain ⟨r0, rt2, rfl, hr0, hrt2⟩ := isIdent_parts hr
  obtain ⟨i0, it, rfl, hi0, hit⟩ := argOk_parts hi
  have hrd : '.' ∉ r0 :: rt2 := isIdent_no_dot hr
  have hid : '.' ∉ i0 :: it := argOk_no_dot hi
  have hrtNe : ∀ c ∈ rt2, c ≠ '.' := fun c hc => ne_of_pred wordCh (hrt2 c hc) (by decide)
  have hrtR : ∀ c ∈ rt2, rcvCh c = true := fun c hc => wordCh_rcv (hrt2 c hc)
  have hi0R : notRp i0 = true := argCh_notRp hi0
  have hitR : ∀ c ∈ it, notRp c = true := fun c hc => argCh_notRp (hit c hc)
  have hQ4 : '.' ∉ ((i0 :: it) ++ ((", ").toList ++ ((r0 :: rt2) ++ ((")").toList)))) := by
    intro hm
    rcases List.mem_append.mp hm with hm | hm
    · exact hid hm
    · rcases List.mem_append.mp hm with hm | hm
      · exact absurd hm (by decide)
      · rcases List.mem_append.mp hm with hm | hm
        · exact hrd hm
        · exact absurd hm (by decide)
  have hSoutT : ¬ shouldTok <:+: ((("Assert.Contains(").toList) ++ ((i0 :: it) ++
      ((", ").toList ++ ((r0 :: rt2) ++ ((")").toList))))) :=
    dot1_absent (("Assert").toList) 'C' (("ontains(").toList) (by decide) (by decide)
      hQ4 (by decide) ⟨'S', by decide, by decide⟩
  have hSoutF : ¬ shouldTok <:+: ((("Assert.DoesNotContain(").toList) ++ ((i0 :: it) ++
      ((", ").toList ++ ((r0 :: rt2) ++ ((")").toList))))) :=
    dot1_absent (("Assert").toList) 'D' (("oesNotContain(").toList) (by decide) (by decide)
      hQ4 (by decide) ⟨'S', by decide, by decide⟩
  refine ⟨?_, ?_⟩
  · have m1T := matchR_lits_exact (((").Should().BeTrue()").toList))
      (setCap (setCap capsEmpty 1 (r0 :: rt2)) 2 (i0 :: it))
    have m2T : matchR (RItem.grp 2 [CItem.cls notRp, CItem.star notRp false] ::
        litsRL (((").Should().BeTrue()").toList)))
        ((i0 :: it) ++ (((").Should().BeTrue()").toList)))
        (setCap capsEmpty 1 (r0 :: rt2)) (fun rem c => some (rem, c))
        = some ([], setCap (setCap capsEmpty 1 (r0 :: rt2)) 2 (i0 :: it)) :=
      matchR_grpPlus hi0R hitR (takeWhile_head_false (by decide) _) m1T
    have m3T : matchR (RItem.ch (CItem.lit '.') :: (litsRL (("Contains(").toList) ++
        (RItem.grp 2 [CItem.cls notRp, CItem.star notRp false] ::
          litsRL (((").Should().BeTrue()").toList)))))
        ((".Contains(").toList ++ ((i0 :: it) ++ (((").Should().BeTrue()").toList))))
        (setCap capsEmpty 1 (r0 :: rt2)) (fun rem c => some (rem, c))
        = some ([], setCap (setCap capsEmpty 1 (r0 :: rt2)) 2 (i0 :: it)) :=
      (matchR_lits_append ((".Contains(").toList) _ _ _ _).trans m2T
    have m4T : matchR FixComplex.ruleContainsTrue.pat
        ((r0 :: rt2) ++ ((".Contains(").toList ++ ((i0 :: it) ++
          (((").Should().BeTrue()").toList)))))
        capsEmpty (fun rem c => some (rem, c))
        = some ([], setCap (setCap capsEmpty 1 (r0 :: rt2)) 2 (i0 :: it)) :=
      matchR_grpLazy hr0 hrtR hrtNe m3T
    have hf1T : applyRule FixComplex.ruleContainsTrue
        ((r0 :: rt2) ++ ((".Contains(").toList ++ ((i0 :: it) ++
          (((").Should().BeTrue()").toList)))))
        = inst FixComplex.ruleContainsTrue.tmpl
            (setCap (setCap capsEmpty 1 (r0 :: rt2)) 2 (i0 :: it)) :=
      applyRule_fire _ m4T rfl
    have ho1T : inst FixComplex.ruleContainsTrue.tmpl
        (setCap (setCap capsEmpty 1 (r0 :: rt2)) 2 (i0 :: it))
        = (("Assert.Contains(").toList) ++ ((i0 :: it) ++
          ((", ").toList ++ ((r0 :: rt2) ++ ((")").toList)))) := by
      simp [inst, setCap, FixComplex.ruleContainsTrue]
    have hfire1T : applyRule FixComplex.ruleContainsTrue
        ((r0 :: rt2) ++ ((".Contains(").toList ++ ((i0 :: it) ++
          (((").Should().BeTrue()").toList)))))
        = (("Assert.Contains(").toList) ++ ((i0 :: it) ++
          ((", ").toList ++ ((r0 :: rt2) ++ ((")").toList)))) := hf1T.trans ho1T
    have hn2T : applyRule FixComplex.ruleContainsFalse
        ((("Assert.Contains(").toList) ++ ((i0 :: it) ++
          ((", ").toList ++ ((r0 :: rt2) ++ ((")").toList)))))
        = (("Assert.Contains(").toList) ++ ((i0 :: it) ++
          ((", ").toList ++ ((r0 :: rt2) ++ ((")").toList)))) :=
      applyRule_noop_marker _
        ([grpLazy 1 identStart rcvCh] ++ litsR (".Contains(") ++ [grpPlus 2 notRp]) []
        ((").Should().BeFalse()").toList) shouldTok (by rw [List.append_nil]; rfl)
        (by decide) hSoutT
    simp only [FixComplex.fix_complex_should_patterns, FixComplex.rules, applyRules,
      List.foldl_cons, List.foldl_nil]
    rw [hfire1T, hn2T, fcsp_tail11_noop hSoutT]
  · have hBT4F : ¬ ((".BeTrue").toList) <:+: ((r0 :: rt2) ++ ((".Contains(").toList ++
        ((i0 :: it) ++ (((").Should().BeFalse()").toList))))) := fun h =>
      (dots3_splitB (("Contains(").toList) (i0 :: it) ((")").toList)
          (("Should()").toList) (("BeFalse()").toList) hrd (by decide) hid (by decide)
          (by decide) (by decide) h (by decide)).elim
        (fun hp => not_pre_at 1 (show ((".BeTrue").toList)[1]? = some 'B' by decide)
          (show ((".Contains(").toList)[1]? = some 'C' by decide) (by decide)
          (show ((".BeTrue").toList) <+: ((".Contains(").toList ++ ((i0 :: it) ++
            (((").Should().BeFalse()").toList)))) from hp))
        (fun hp2 => hp2.elim
          (fun hp => absurd hp (by decide))
          (fun hp => absurd hp (by decide)))
    have hn1F : applyRule FixComplex.ruleContainsTrue
        ((r0 :: rt2) ++ ((".Contains(").toList ++ ((i0 :: it) ++
          (((").Should().BeFalse()").toList)))))
        = (r0 :: rt2) ++ ((".Contains(").toList ++ ((i0 :: it) ++
          (((").Should().BeFalse()").toList)))) :=
      applyRule_noop_marker _
        ([grpLazy 1 identStart rcvCh] ++ litsR (".Contains(") ++ [grpPlus 2 notRp]) []
        ((").Should().BeTrue()").toList) ((".BeTrue").toList)
        (by rw [List.append_nil]; rfl) (by decide) hBT4F
    have m1F := matchR_lits_exact (((").Should().BeFalse()").toList))
      (setCap (setCap capsEmpty 1 (r0 :: rt2)) 2 (i0 :: it))
    have m2F : matchR (RItem.grp 2 [CItem.cls notRp, CItem.star notRp false] ::
        litsRL (((").Should().BeFalse()").toList)))
        ((i0 :: it) ++ (((").Should().BeFalse()").toList)))
        (setCap capsEmpty 1 (r0 :: rt2)) (fun rem c => some (rem, c))
        = some ([], setCap (setCap capsEmpty 1 (r0 :: rt2)) 2 (i0 :: it)) :=
      matchR_grpPlus hi0R hitR (takeWhile_head_false (by decide) _) m1F
    have m3F : matchR (RItem.ch (CItem.lit '.') :: (litsRL (("Contains(").toList) ++
        (RItem.grp 2 [CItem.cls notRp, CItem.star notRp false] ::
          litsRL (((").Should().BeFalse()").toList)))))
        ((".Contains(").toList ++ ((i0 :: it) ++ (((").Should().BeFalse()").toList))))
        (setCap capsEmpty 1 (r0 :: rt2)) (fun rem c => some (rem, c))
        = some ([], setCap (setCap capsEmpty 1 (r0 :: rt2)) 2 (i0 :: it)) :=
      (matchR_lits_append ((".Contains(").toList) _ _ _ _).trans m2F
    have m4F : matchR FixComplex.ruleContainsFalse.pat
        ((r0 :: rt2) ++ ((".Contains(").toList ++ ((i0 :: it) ++
          (((").Should().BeFalse()").toList)))))
        capsEmpty (fun rem c => some (rem, c))
        = some ([], setCap (setCap capsEmpty 1 (r0 :: rt2)) 2 (i0 :: it)) :=
      matchR_grpLazy hr0 hrtR hrtNe m3F
    have hf2F : applyRule FixComplex.ruleContainsFalse
        ((r0 :: rt2) ++ ((".Contains(").toList ++ ((i0 :: it) ++
          (((").Should().BeFalse()").toList)))))
        = inst FixComplex.ruleContainsFalse.tmpl
            (setCap (setCap capsEmpty 1 (r0 :: rt2)) 2 (i0 :: it)) :=
      applyRule_fire _ m4F rfl
    have ho2F : inst FixComplex.ruleContainsFalse.tmpl
        (setCap (setCap capsEmpty 1 (r0 :: rt2)) 2 (i0 :: it))
        = (("Assert.DoesNotContain(").toList) ++ ((i0 :: it) ++
          ((", ").toList ++ ((r0 :: rt2) ++ ((")").toList)))) := by
      simp [inst, setCap, FixComplex.ruleContainsFalse]
    have hfire2F : applyRule FixComplex.ruleContainsFalse
        ((r0 :: rt2) ++ ((".Contains(").toList ++ ((i0 :: it) ++
          (((").Should().BeFalse()").toList)))))
        = (("Assert.DoesNotContain(").toList) ++ ((i0 :: it) ++
          ((", ").toList ++ ((r0 :: rt2) ++ ((")").toList)))) := hf2F.trans ho2F
    simp only [FixComplex.fix_complex_should_patterns, FixComplex.rules, applyRules,
      List.foldl_cons, List.foldl_nil]
    rw [hn1F, hfire2F, fcsp_tail11_noop hSoutF]

/-- C4 witness: the amended priority behaviour at the claim's own instance,
with the quoted string item and identifier receiver. -/
theorem c4_priority_amended_witness :
    (FixComplex.fix_complex_should_patterns ((("text").toList) ++ ((".Contains(").toList ++
        ((("\"ok\"").toList) ++ ((").Should().BeTrue()").toList))))
      = (("Assert.Contains(").toList) ++ ((("\"ok\"").toList) ++
        ((", ").toList ++ ((("text").toList) ++ ((")").toList))))) ∧
    (FixComplex.fix_complex_should_patterns ((("text").toList) ++ ((".Contains(").toList ++
        ((("\"ok\"").toList) ++ ((").Should().BeFalse()").toList))))
      = (("Assert.DoesNotContain(").toList) ++ ((("\"ok\"").toList) ++
        ((", ").toList ++ ((("text").toList) ++ ((")").toList))))) :=
  c4_priority_amended (("text").toList) (("\"ok\"").toList) (by decide) (by decide)
